import Mathlib

/-!
# V-Shell application grid (`lib/appDisplay.js`): layout and reorder engine

A shallow embedding of the grid logic of `lib/appDisplay.js` together with the
properties established for it.  JavaScript numbers that hold counts, pages and
positions are integers here (`Nat` where the source can only produce
non-negative values, `Int` where `-1` or a subtraction may occur).  Calls into
the host shell (grid layout manager, settings, application system) are either
recorded as requests or taken as parameters.
-/

namespace VShell

/-! ## Data model -/

/-- Classes of the objects that take part in drag and drop.  `appViewItem` is the
base class of `appIcon` and `folderIcon`; `activeFolderIcon` extends `appIcon`. -/
inductive ItemClass where
  | appViewItem
  | appIcon
  | folderIcon
  | activeFolderIcon
  | other
deriving DecidableEq, Repr

/-- An icon held by a view.  `ref` is the identity of the JavaScript object,
`id` the application (or folder) id, `name` the display name, `running` whether
`app.get_state()` is `Shell.AppState.RUNNING`. -/
structure Icon where
  ref : Nat
  id : String
  name : String
  cls : ItemClass
  running : Bool
deriving DecidableEq, Repr

/-- A call `this._moveItem(icon, page, position)` as issued by the source. -/
structure MoveRequest where
  icon : Icon
  page : Int
  position : Int
deriving DecidableEq, Repr

/-! ## `BaseAppViewCommon._setLinearPositions` -/

/-- The body of the `forEach` of `_setLinearPositions`, for the icons from index
`i` on: `page = Math.floor(i / itemsPerPage)`, `position = i % itemsPerPage`,
then `this._moveItem(icon, page, position)`.  The quotient and remainder are
those of natural numbers, which agrees with the source for `itemsPerPage ≥ 1`. -/
def setLinearPositionsFrom (itemsPerPage : Nat) : Nat → List Icon → List MoveRequest
  | _, [] => []
  | i, icon :: rest =>
    { icon := icon, page := ((i / itemsPerPage : Nat) : Int),
      position := ((i % itemsPerPage : Nat) : Int) }
      :: setLinearPositionsFrom itemsPerPage (i + 1) rest

/-- The move requests `_setLinearPositions(icons)` issues, in order. -/
def setLinearPositions (itemsPerPage : Nat) (icons : List Icon) : List MoveRequest :=
  setLinearPositionsFrom itemsPerPage 0 icons

/-- The linear index of a slot: `page * itemsPerPage + position`. -/
def linearIndex (itemsPerPage : Nat) (r : MoveRequest) : Int :=
  r.page * (itemsPerPage : Int) + r.position

/-! ## `AppFolderDialog._updateFolderSize`: initial columns and rows -/

/-- Linear search used by `ceilSqrt`: the first `c' ≥ c` with `n ≤ c' * c'`,
trying at most `fuel` candidates. -/
def ceilSqrtAux (n : Nat) : Nat → Nat → Nat
  | 0, c => c
  | fuel + 1, c => if n ≤ c * c then c else ceilSqrtAux n fuel (c + 1)

/-- The value of `Math.ceil(Math.sqrt(n))` for an item count `n`: the least `c`
with `n ≤ c * c`.  (An item count is an array length; in that range the
floating-point square root is exact on squares and stays strictly between the
neighbouring integers otherwise.) -/
def ceilSqrt (n : Nat) : Nat := ceilSqrtAux n n 0

/-- The value of `Math.ceil(a / b)` for integers `a` and `b ≠ 0`. -/
def ceilDiv (a b : Int) : Int := -(Int.fdiv (-a) b)

/-- The options read by the first part of `_updateFolderSize`. -/
structure FolderOpts where
  APP_GRID_FOLDER_COLUMNS : Int
  APP_GRID_FOLDER_ROWS : Int
  APP_GRID_FOLDER_ICON_SIZE : Int
deriving DecidableEq, Repr

/-- The `fullAdaptive` flag: `!columns && !rows && opt.APP_GRID_FOLDER_ICON_SIZE < 0`. -/
def fullAdaptive (o : FolderOpts) : Bool :=
  o.APP_GRID_FOLDER_COLUMNS == 0 && o.APP_GRID_FOLDER_ROWS == 0 &&
    decide (o.APP_GRID_FOLDER_ICON_SIZE < 0)

/-- The body of `if (fullAdaptive) { ... }`: `(columns, rows)` for `nItems` icons. -/
def adaptiveGrid (nItems : Nat) : Int × Int :=
  let columns : Int := (ceilSqrt nItems : Int)
  let rows : Int := columns
  if columns * (columns - 1) ≥ (nItems : Int) then
    (columns, columns - 1)
  else if (columns + 1) * (columns - 1) ≥ (nItems : Int) then
    (columns + 1, columns - 1)
  else
    (columns, rows)

/-- The `(columns, rows)` with which `_updateFolderSize` enters its size
computation (the `if (fullAdaptive) ... else if ... else if ...` chain). -/
def initialGrid (o : FolderOpts) (nItems : Nat) : Int × Int :=
  let columns := o.APP_GRID_FOLDER_COLUMNS
  let rows := o.APP_GRID_FOLDER_ROWS
  if fullAdaptive o then
    adaptiveGrid nItems
  else if columns = 0 ∧ rows ≠ 0 then
    (ceilDiv (nItems : Int) rows, rows)
  else if columns ≠ 0 ∧ rows = 0 then
    (columns, ceilDiv (nItems : Int) columns)
  else
    (columns, rows)

/-! ## `Array.prototype.sort`

The shell runs on GJS, whose engine sorts an array with a comparator by a
bottom-up merge sort that falls back to insertion sort for short arrays and
for the initial windows of four elements.  Every comparison it makes is the test
`comparefn(earlier, later) <= 0`; the numeric result of the comparator is used
in no other way.  A comparator that returns a boolean is converted to `1`
(`true`) or `0` (`false`) before the test. -/

section SortModel
variable {α : Type}

/-- The conversion of a boolean comparator result to a number. -/
def boolToNumber (b : Bool) : Int := if b then 1 else 0

/-- The inner loop of the engine's insertion sort.  The sorted prefix is passed
nearest element first; `item` moves left past every `swap` with
`comparefn(swap, item) > 0` and stops at the first one with
`comparefn(swap, item) <= 0`. -/
def insertItem (cmp : α → α → Int) (item : α) : List α → List α
  | [] => [item]
  | swap :: rest =>
    if cmp swap item ≤ 0 then item :: swap :: rest else swap :: insertItem cmp item rest

/-- The engine's insertion sort: the elements are taken left to right and each
is inserted into the prefix sorted so far. -/
def insertionSort (cmp : α → α → Int) (l : List α) : List α :=
  (l.foldl (fun acc item => insertItem cmp item acc) []).reverse

/-- The merge loop for a left run `x :: xs` against a right run, given the
merge `recur` of `xs` with any right run. -/
def mergeInto (cmp : α → α → Int) (x : α) (xs : List α) (recur : List α → List α) :
    List α → List α
  | [] => x :: xs
  | y :: ys =>
    if cmp x y ≤ 0 then x :: recur (y :: ys) else y :: mergeInto cmp x xs recur ys

/-- The merge loop of the engine: the left value is taken when
`comparefn(lvalue, rvalue) <= 0`, the right value otherwise; what remains of
either run is appended. -/
def mergeRuns (cmp : α → α → Int) : List α → List α → List α
  | [] => fun ys => ys
  | x :: xs => mergeInto cmp x xs (mergeRuns cmp xs)

/-- The engine's `Merge`: two adjacent runs are copied unchanged when the right
run is empty or `comparefn(last of left, first of right) <= 0`, and merged
otherwise. -/
def mergeStep (cmp : α → α → Int) (left right : List α) : List α :=
  match left.getLast?, right.head? with
  | some a, some b => if cmp a b ≤ 0 then left ++ right else mergeRuns cmp left right
  | _, _ => left ++ right

/-- The initial windows of four elements (the last one may be shorter). -/
def windows4 : List α → List (List α)
  | a :: b :: c :: d :: rest => [a, b, c, d] :: windows4 rest
  | [] => []
  | rest => [rest]

/-- One pass over the array with a given window size: adjacent runs are merged
two by two; a run without a partner is copied. -/
def mergePairs (cmp : α → α → Int) : List (List α) → List (List α)
  | left :: right :: rest => mergeStep cmp left right :: mergePairs cmp rest
  | rest => rest

/-- The passes with doubling window size, repeated while the window is shorter
than the array, i.e. while more than one run is left.  `fuel` bounds the number
of passes; the number of runs is always enough. -/
def mergeRounds (cmp : α → α → Int) : Nat → List (List α) → List (List α)
  | 0, runs => runs
  | fuel + 1, runs =>
    if runs.length ≤ 1 then runs else mergeRounds cmp fuel (mergePairs cmp runs)

/-- The result of `array.sort(comparefn)`: insertion sort below 24 elements,
otherwise insertion-sorted windows of four merged bottom-up. -/
def jsSort (cmp : α → α → Int) (l : List α) : List α :=
  if l.length < 24 then insertionSort cmp l
  else (mergeRounds cmp l.length ((windows4 l).map (insertionSort cmp))).flatten

/-- The relation "`cmp a b ≤ 0`" relates every pair in at least one direction. -/
def CmpTotal (cmp : α → α → Int) : Prop := ∀ a b, cmp a b ≤ 0 ∨ cmp b a ≤ 0

/-- The relation "`cmp a b ≤ 0`" is transitive. -/
def CmpTrans (cmp : α → α → Int) : Prop :=
  ∀ a b c, cmp a b ≤ 0 → cmp b c ≤ 0 → cmp a c ≤ 0

/-- The elements selected by `p` are tied with each other under the comparator. -/
def CmpClass (cmp : α → α → Int) (p : α → Bool) : Prop :=
  ∀ a b, p a = true → p b = true → cmp a b ≤ 0

end SortModel

/-! ## The sorting steps of `BaseAppViewCommon._redisplay` -/

/-- Functions of the host platform used by the sorting steps. -/
structure Host where
  /-- The method `String.prototype.toLowerCase`. -/
  toLowerCase : String → String
  /-- The method `String.prototype.localeCompare`. -/
  localeCompare : String → String → Int
  /-- The call `Shell.AppUsage.get_default().compare(idA, idB)`. -/
  usageCompare : String → String → Int

/-- The options of the extension read by the grid code. -/
structure Opts where
  APP_GRID_ORDER : Nat
  APP_GRID_DASH_FIRST : Bool
  APP_GRID_ALLOW_INCOMPLETE_PAGES : Bool
  APP_GRID_EXCLUDE_RUNNING : Bool
  APP_GRID_EXCLUDE_FAVORITES : Bool
deriving DecidableEq, Repr

/-- The value of `fav.indexOf(id)`: the first index of `id`, or `-1`. -/
def jsIndexOf (id : String) : List String → Int
  | [] => -1
  | x :: xs =>
    if x = id then 0
    else if jsIndexOf id xs < 0 then -1 else jsIndexOf id xs + 1

/-- The sort key of the favorites step: `fav.indexOf(id)`, replaced by `999`
when negative. -/
def favKey (fav : List String) (id : String) : Int :=
  if jsIndexOf id fav < 0 then 999 else jsIndexOf id fav

/-- The comparator of the favorites step; it returns the boolean `bFav < aFav`. -/
def favCompare (fav : List String) (a b : Icon) : Int :=
  boolToNumber (decide (favKey fav b.id < favKey fav a.id))

/-- The comparator of the running step; it returns the boolean
`a.app.get_state() !== RUNNING && b.app.get_state() === RUNNING`. -/
def runningCompare (a b : Icon) : Int :=
  boolToNumber (!a.running && b.running)

/-- The method `_sortOrderedItemsAlphabetically(icons)`. -/
def sortOrderedItemsAlphabetically (h : Host) (icons : List Icon) : List Icon :=
  jsSort (fun a b => h.localeCompare (h.toLowerCase a.name) (h.toLowerCase b.name)) icons

/-- The step `appIcons.sort((a, b) => Shell.AppUsage.get_default().compare(a.app.id, b.app.id))`. -/
def usageSort (h : Host) (icons : List Icon) : List Icon :=
  jsSort (fun a b => h.usageCompare a.id b.id) icons

/-- The "sort favorites first" step; `fav` is `Object.keys(this._appFavorites._favorites)`. -/
def favoritesFirst (fav : List String) (icons : List Icon) : List Icon :=
  jsSort (favCompare fav) icons

/-- The "sort running first" step. -/
def runningFirst (icons : List Icon) : List Icon :=
  jsSort runningCompare icons

/-- The order computed inside `if (opt.APP_GRID_ORDER > 0) { ... }` from the
current ordered items, before `_setLinearPositions` is called on it. -/
def sortedOrder (h : Host) (o : Opts) (fav : List String) (orderedItems : List Icon) :
    List Icon :=
  let appIcons := sortOrderedItemsAlphabetically h orderedItems
  let appIcons := if o.APP_GRID_ORDER = 2 then usageSort h appIcons else appIcons
  let appIcons := if o.APP_GRID_DASH_FIRST then favoritesFirst fav appIcons else appIcons
  let appIcons := if o.APP_GRID_DASH_FIRST then runningFirst appIcons else appIcons
  appIcons

/-- Whether an icon's id is a key of the favorites map. -/
def isFavorite (fav : List String) (icon : Icon) : Bool := fav.contains icon.id

/-! ## `BaseAppViewCommon._redisplay` -/

/-- The part of a view that `_redisplay` reads and changes: the array
`this._orderedItems`, the pages of the grid's layout manager, and the capacity
`itemsPerPage` of a page.  `this._grid.nPages` is the number of pages. -/
structure Grid where
  orderedItems : List Icon
  pages : List (List Icon)
  itemsPerPage : Nat
deriving DecidableEq, Repr

/-- The methods `_removeItem`, `_addItem` and `_moveItem` that the view inherits
from the shell's `BaseAppView`; this module calls them and does not define them. -/
structure GridOps where
  removeItem : Icon → Grid → Grid
  addItem : Icon → Int → Int → Grid → Grid
  moveItem : Icon → Int → Int → Grid → Grid

/-- What the reconciliation relies on in the inherited methods: removing an icon
the view holds takes exactly that icon out of `_orderedItems`, adding an icon the
view does not hold puts exactly that icon in, and moving changes at most the
order. -/
structure GridOps.KeepsItems (G : GridOps) : Prop where
  removeItem : ∀ icon s, icon ∈ s.orderedItems →
    (G.removeItem icon s).orderedItems.Perm (s.orderedItems.erase icon)
  addItem : ∀ icon page position s, icon ∉ s.orderedItems →
    (G.addItem icon page position s).orderedItems.Perm (icon :: s.orderedItems)
  moveItem : ∀ icon page position s,
    (G.moveItem icon page position s).orderedItems.Perm s.orderedItems

/-- The calls `_redisplay` issues while it reconciles the old and the new icons. -/
inductive GridOp where
  | removeItem (icon : Icon)
  | destroy (icon : Icon)
  | addItem (icon : Icon) (page position : Int)
  | moveItem (icon : Icon) (page position : Int)
deriving DecidableEq, Repr

/-- The array `removedApps`: `oldApps.filter(icon => !newAppIds.includes(icon.id))`. -/
def removedApps (oldApps newApps : List Icon) : List Icon :=
  oldApps.filter (fun icon => !(newApps.map (fun i => i.id)).contains icon.id)

/-- The array `addedApps`: `newApps.filter(icon => !oldAppIds.includes(icon.id))`. -/
def addedApps (oldApps newApps : List Icon) : List Icon :=
  newApps.filter (fun icon => !(oldApps.map (fun i => i.id)).contains icon.id)

/-- What the `newApps.forEach` loop does with one icon: add it when
`addedApps.includes(icon)`, move it when its position is known, nothing
otherwise.  Equality of icons stands for identity of objects (the field `ref`). -/
def addOrMove (getItemPosition : Icon → Int × Int) (added : List Icon) (icon : Icon) :
    Option GridOp :=
  let page := (getItemPosition icon).1
  let position := (getItemPosition icon).2
  if added.contains icon then some (GridOp.addItem icon page position)
  else if page ≠ -1 ∧ position ≠ -1 then some (GridOp.moveItem icon page position)
  else none

/-- The calls of the two loops of `_redisplay` ("Remove old app icons", "Add new
app icons, or move existing ones"), in order.  `getItemPosition` is the view's
`_getItemPosition`. -/
def redisplayOps (getItemPosition : Icon → Int × Int) (oldApps newApps : List Icon) :
    List GridOp :=
  ((removedApps oldApps newApps).map
      (fun icon => [GridOp.removeItem icon, GridOp.destroy icon])).flatten ++
    newApps.filterMap (addOrMove getItemPosition (addedApps oldApps newApps))

/-- The icon a call removes, if the call is `_removeItem`. -/
def GridOp.removeTarget : GridOp → Option Icon
  | GridOp.removeItem icon => some icon
  | _ => none

/-- The icon a call destroys, if the call is `destroy`. -/
def GridOp.destroyTarget : GridOp → Option Icon
  | GridOp.destroy icon => some icon
  | _ => none

/-- The icon a call adds, if the call is `_addItem`. -/
def GridOp.addTarget : GridOp → Option Icon
  | GridOp.addItem icon _ _ => some icon
  | _ => none

/-- The effect of one call on the view.  Destroying an icon that has been removed
leaves the grid as it is. -/
def applyOp (G : GridOps) : GridOp → Grid → Grid
  | GridOp.removeItem icon, s => G.removeItem icon s
  | GridOp.destroy _, s => s
  | GridOp.addItem icon page position, s => G.addItem icon page position s
  | GridOp.moveItem icon page position, s => G.moveItem icon page position s

/-- The call `this._setLinearPositions(appIcons)` inside `_redisplay`, where
`appIcons` is the array `this._orderedItems` itself: `forEach` visits the indices
`i, i+1, …` (`count` of them, the length at the start) and reads the element that
is at the index when it gets there. -/
def setLinearPositionsLive (G : GridOps) (itemsPerPage : Nat) : Nat → Nat → Grid → Grid
  | 0, _, s => s
  | count + 1, i, s =>
    match s.orderedItems[i]? with
    | some icon =>
      setLinearPositionsLive G itemsPerPage count (i + 1)
        (G.moveItem icon ((i / itemsPerPage : Nat) : Int) ((i % itemsPerPage : Nat) : Int) s)
    | none => setLinearPositionsLive G itemsPerPage count (i + 1) s

/-- The block `if (opt.APP_GRID_ORDER > 0) { ... }` of `_redisplay`: the ordered
items are sorted in place, then re-placed linearly. -/
def redisplaySorted (G : GridOps) (h : Host) (o : Opts) (fav : List String) (s : Grid) : Grid :=
  if o.APP_GRID_ORDER > 0 then
    let appIcons := sortedOrder h o fav s.orderedItems
    setLinearPositionsLive G s.itemsPerPage appIcons.length 0
      { s with orderedItems := appIcons }
  else s

/-- Modelled from the spec: the removal, from the later pages, of the first `n`
items that a page pulls forward (`_fillItemVacancies` is not part of
`appDisplay.js`); a page left without items ceases to exist. -/
def dropItems : Nat → List (List Icon) → List (List Icon)
  | _, [] => []
  | n, page :: rest =>
    if page.length ≤ n then dropItems (n - page.length) rest else page.drop n :: rest

/-- Modelled from the spec: the layout manager's `_fillItemVacancies(pageIndex)`,
which is not part of `appDisplay.js`.  A page with fewer items than
`itemsPerPage`, other than the final page, pulls items forward from the later
pages to fill its vacancies, preserving relative order. -/
def fillPages (itemsPerPage : Nat) : Nat → List (List Icon) → List (List Icon)
  | _, [] => []
  | 0, [page] => [page]
  | 0, page :: later =>
    if itemsPerPage ≤ page.length then page :: later
    else
      (page ++ later.flatten.take (itemsPerPage - page.length)) ::
        dropItems (itemsPerPage - page.length) later
  | p + 1, page :: later => page :: fillPages itemsPerPage p later

/-- The call `this._grid.layoutManager._fillItemVacancies(i)`. -/
def fillItemVacancies (i : Nat) (s : Grid) : Grid :=
  { s with pages := fillPages s.itemsPerPage i s.pages }

/-- The loop `for (let i = 0; i < this._grid.nPages; i++) _fillItemVacancies(i)`,
from index `i` on; `nPages` is read anew before every iteration.  `fuel` bounds
the number of iterations; the number of pages at the start is always enough,
since filling never adds a page. -/
def fillLoop : Nat → Nat → Grid → Grid
  | 0, _, s => s
  | fuel + 1, i, s =>
    if i < s.pages.length then fillLoop fuel (i + 1) (fillItemVacancies i s) else s

/-- The page indices the loop of `fillLoop` passes to `_fillItemVacancies`. -/
def fillLoopVisited : Nat → Nat → Grid → List Nat
  | 0, _, _ => []
  | fuel + 1, i, s =>
    if i < s.pages.length then i :: fillLoopVisited fuel (i + 1) (fillItemVacancies i s)
    else []

/-- The end of `_redisplay`: the vacancy-filling pass, when incomplete pages are
not allowed. -/
def redisplayFill (o : Opts) (s : Grid) : Grid :=
  if o.APP_GRID_ALLOW_INCOMPLETE_PAGES then s else fillLoop s.pages.length 0 s

/-- The view as `_redisplay` leaves it before the vacancy-filling pass.
`loaded` is the result of `this._loadApps()`, `compareItems` the view's
`_compareItems`. -/
def redisplayBeforeFill (G : GridOps) (h : Host) (o : Opts) (fav : List String)
    (compareItems : Icon → Icon → Int) (getItemPosition : Icon → Int × Int)
    (loaded : List Icon) (s : Grid) : Grid :=
  let oldApps := s.orderedItems
  let newApps := jsSort compareItems loaded
  redisplaySorted G h o fav
    ((redisplayOps getItemPosition oldApps newApps).foldl (fun s op => applyOp G op s) s)

/-- The method `_redisplay()`. -/
def redisplay (G : GridOps) (h : Host) (o : Opts) (fav : List String)
    (compareItems : Icon → Icon → Int) (getItemPosition : Icon → Int × Int)
    (loaded : List Icon) (s : Grid) : Grid :=
  redisplayFill o (redisplayBeforeFill G h o fav compareItems getItemPosition loaded s)

/-- Every page except the last holds exactly `itemsPerPage` items. -/
def AllButLastFull (itemsPerPage : Nat) : List (List Icon) → Prop
  | [] => True
  | [_] => True
  | page :: next :: rest =>
    page.length = itemsPerPage ∧ AllButLastFull itemsPerPage (next :: rest)

/-- The first `k` pages, as far as they are not the last page, hold exactly
`itemsPerPage` items. -/
def FullUpTo (itemsPerPage : Nat) : Nat → List (List Icon) → Prop
  | 0, _ => True
  | _ + 1, [] => True
  | _ + 1, [_] => True
  | k + 1, page :: next :: rest =>
    page.length = itemsPerPage ∧ FullUpTo itemsPerPage k (next :: rest)

/-- A stand-in for the inherited grid methods that keeps every icon on the single
page of a grid without page limit: removing erases the icon, adding appends it,
moving leaves the order alone.  It serves to instantiate statements that hold
for every implementation of `GridOps`. -/
def singlePageOps : GridOps where
  removeItem icon s :=
    { s with orderedItems := s.orderedItems.erase icon,
             pages := s.pages.map (fun page => page.erase icon) }
  addItem icon _ _ s :=
    { s with orderedItems := s.orderedItems ++ [icon],
             pages := match s.pages with
               | [] => [[icon]]
               | page :: rest => (page ++ [icon]) :: rest }
  moveItem _ _ _ s := s

/-! ## `AppDisplayCommon._loadApps` -/

/-- An entry of `Shell.AppSystem.get_default().get_installed()`. -/
structure AppInfo where
  id : String
  /-- Whether `appInfo.get_id()` returns (no invalid file encoding). -/
  validId : Bool
  /-- The result of `this._parentalControlsManager.shouldShowApp(appInfo)`. -/
  shouldShow : Bool
deriving DecidableEq, Repr

/-- An id of the `folder-children` setting with what the folder icon for it
reports: `icon.visible` and `icon.getAppIds()`. -/
structure FolderEntry where
  id : String
  visible : Bool
  appIds : List String
deriving DecidableEq, Repr

/-- What `_loadApps` reads from the shell and from the view. -/
structure LoadEnv where
  installed : List AppInfo
  /-- The ids of `Shell.AppSystem.get_default().get_running()`. -/
  runningApps : List String
  /-- The ids for which `this._appFavorites.isFavorite(id)` holds. -/
  fav : List String
  folderChildren : List FolderEntry
  /-- The lookup `this._items.get(id)`. -/
  items : String → Option Icon
  /-- The icon `new AppDisplay.FolderIcon(id, path, this)`. -/
  newFolderIcon : String → Icon
  /-- The icon `new AppDisplay.AppIcon(appSys.lookup_app(appId), ...)`. -/
  newAppIcon : String → Icon
  /-- The field `this._placeholder`. -/
  placeholder : Option Icon

/-- The list `this._appInfoList`: the installed apps that are to be shown. -/
def appInfoList (o : Opts) (e : LoadEnv) : List AppInfo :=
  e.installed.filter (fun appInfo =>
    appInfo.validId &&
      (let appIsRunning := e.runningApps.contains appInfo.id
       let appIsFavorite := e.fav.contains appInfo.id
       let excludeApp := (o.APP_GRID_EXCLUDE_RUNNING && appIsRunning) ||
         (o.APP_GRID_EXCLUDE_FAVORITES && appIsFavorite)
       appInfo.shouldShow && !excludeApp))

/-- The folders that get an icon: in manual order, those of `folder-children`
whose icon is visible. -/
def visibleFolders (o : Opts) (e : LoadEnv) : List FolderEntry :=
  if o.APP_GRID_ORDER = 0 then e.folderChildren.filter (fun f => f.visible) else []

/-- The set `appsInsideFolders`. -/
def appsInsideFolders (o : Opts) (e : LoadEnv) : List String :=
  ((visibleFolders o e).map (fun f => f.appIds)).flatten

/-- The ids of the apps that get an icon at root level. -/
def rootAppIds (o : Opts) (e : LoadEnv) : List String :=
  ((appInfoList o e).map (fun a => a.id)).filter (fun appId =>
    !(decide (o.APP_GRID_ORDER = 0) && (appsInsideFolders o e).contains appId))

/-- The method `AppDisplayCommon._loadApps()`: the folder icons, then the app
icons, then the placeholder if there is one.  An icon the view already holds
under the id is reused, otherwise a new one is made. -/
def loadApps (o : Opts) (e : LoadEnv) : List Icon :=
  (visibleFolders o e).map (fun f => (e.items f.id).getD (e.newFolderIcon f.id)) ++
    (rootAppIds o e).map (fun appId => (e.items appId).getD (e.newAppIcon appId)) ++
    e.placeholder.toList

/-- The view of an icon as `AppDisplay._getViewFromIcon` finds it: the root app
grid, a folder view, or none. -/
inductive ViewClass where
  | appDisplay
  | folderView
  | none
deriving DecidableEq, Repr

/-- The condition under which `AppDisplayCommon._onDragBegin` calls
`_ensurePlaceholder(source)`: the source sits in a folder view, or favorites are
excluded from the grid and the source is a favorite. -/
def needsPlaceholder (o : Opts) (fav : List String) (sourceView : ViewClass)
    (sourceId : String) : Bool :=
  sourceView == ViewClass.folderView ||
    (o.APP_GRID_EXCLUDE_FAVORITES && fav.contains sourceId)

/-- The data `_loadApps` reads is consistent: the application system lists every
id once, the folder ids are distinct and are not application ids, and an icon
stored or made for an id carries that id. -/
structure LoadEnv.WellFormed (e : LoadEnv) : Prop where
  installed_nodup : (e.installed.map (fun a => a.id)).Nodup
  folders_nodup : (e.folderChildren.map (fun f => f.id)).Nodup
  folders_not_apps : ∀ f ∈ e.folderChildren, f.id ∉ e.installed.map (fun a => a.id)
  items_id : ∀ id icon, e.items id = some icon → icon.id = id
  newFolderIcon_id : ∀ id, (e.newFolderIcon id).id = id
  newAppIcon_id : ∀ id, (e.newAppIcon id).id = id

/-- A placeholder as `_onDragBegin` has just made it: it stands for a source that
is an excluded favorite or an item of a folder whose icon is shown in the grid,
and its id is not a folder id. -/
def PlaceholderFresh (o : Opts) (e : LoadEnv) (ph : Icon) : Prop :=
  ph.id ∉ e.folderChildren.map (fun f => f.id) ∧
    ∃ sourceView, needsPlaceholder o e.fav sourceView ph.id = true ∧
      (sourceView = ViewClass.folderView →
        o.APP_GRID_ORDER = 0 ∧ ph.id ∈ appsInsideFolders o e)

/-! ## Drag and drop: `_canAccept` and `acceptDrop` -/

/-- The test `x instanceof D` for an object `x` of class `c`: `c` is `d` or
extends it.  An object of class `other` is an instance of none of the item
classes. -/
def ItemClass.isA (c d : ItemClass) : Bool :=
  match d with
  | ItemClass.appViewItem =>
    c == ItemClass.appViewItem || c == ItemClass.appIcon || c == ItemClass.folderIcon ||
      c == ItemClass.activeFolderIcon
  | ItemClass.appIcon => c == ItemClass.appIcon || c == ItemClass.activeFolderIcon
  | ItemClass.folderIcon => c == ItemClass.folderIcon
  | ItemClass.activeFolderIcon => c == ItemClass.activeFolderIcon
  | ItemClass.other => false

/-- An object that is dragged: the icon and the view
`AppDisplay._getViewFromIcon` finds for it. -/
structure DragItem where
  icon : Icon
  view : ViewClass
deriving DecidableEq, Repr

/-- A drag source: the dragged object and, for an active preview icon, the item
of the folder it stands for (`_sourceItem`). -/
structure DragSource where
  item : DragItem
  sourceItem : Option DragItem
deriving DecidableEq, Repr

/-- The statement `if (source._sourceItem) source = source._sourceItem;`. -/
def DragSource.unwrap (source : DragSource) : DragItem :=
  source.sourceItem.getD source.item

/-- The method `AppIcon._canAccept(source)` of the icon `self`. -/
def AppIcon.canAccept (o : Opts) (self : Icon) (source : DragSource) : Bool :=
  let src := source.unwrap
  decide (src.icon.ref ≠ self.ref) &&
    src.icon.cls.isA self.cls &&
    (src.view == ViewClass.appDisplay && o.APP_GRID_ORDER == 0)

/-- The method `BaseAppViewCommon._canAccept(source)`. -/
def BaseAppViewCommon.canAccept (o : Opts) (source : DragItem) : Bool :=
  if o.APP_GRID_ORDER ≠ 0 then false else source.icon.cls.isA ItemClass.appViewItem

/-- A value returned by an `acceptDrop`: a boolean or a number. -/
inductive JsValue where
  | bool (b : Bool)
  | number (n : Int)
deriving DecidableEq, Repr

/-- Whether a returned value counts as true for the caller. -/
def JsValue.truthy : JsValue → Bool
  | JsValue.bool b => b
  | JsValue.number n => decide (n ≠ 0)

/-- How a call ends: with a value, or with an exception that it does not catch. -/
inductive DropResult where
  | returns (v : JsValue)
  | throws
deriving DecidableEq, Repr

/-- The value `DND.DragMotionResult.NO_DROP` of the shell. -/
def DragMotionResult.NO_DROP : Int := 0

/-- The value `AppDisplay.SidePages.PREVIOUS` of the shell. -/
def SidePages.PREVIOUS : Nat := 1

/-- The value `AppDisplay.SidePages.NEXT` of the shell. -/
def SidePages.NEXT : Nat := 2

/-- What is under the pointer at the drop, as far as `acceptDrop` tells it apart. -/
inductive DropTarget where
  | prevPageIndicator
  | nextPageIndicator
  | other
deriving DecidableEq, Repr

/-- The calls an `acceptDrop` makes that change something. -/
inductive DropEffect where
  | deleteDropTarget
  | setHoveringByDnd (hovering : Bool)
  | moveItem (source : Icon) (page position : Int)
  | goToPage (page : Int)
  | logWarning
  | removeDelayedMove
  | savePages
  | removeApp (source : Icon)
  | popdown
  | removeFavorite (id : String)
  | removeFromSourceFolder (source : Icon)
deriving DecidableEq, Repr

/-- What `acceptDrop` reads from the view: the shell version, `this._dropTarget`,
`this._dropPage` (0 when unset), `this._delayedMoveData`, the grid's `currentPage`
and `nPages`, whether `this._currentDialog` is set, and whether the call of
`this._moveItem` raises an exception. -/
structure DropState where
  shellVersion : Nat
  dropTarget : DropTarget
  dropPage : Nat
  delayedMoveData : Option (Int × Int)
  currentPage : Int
  nPages : Int
  currentDialog : Bool
  moveItemThrows : Bool
deriving DecidableEq, Repr

/-- The end of `AppDisplayCommon.acceptDrop`, from `this._savePages()` on. -/
def AppDisplayCommon.commitDrop (o : Opts) (fav : List String) (st : DropState)
    (src : DragItem) : List DropEffect :=
  [DropEffect.savePages] ++
    (if src.view = ViewClass.folderView then [DropEffect.removeApp src.icon] else []) ++
    (if st.currentDialog then [DropEffect.popdown] else []) ++
    (if o.APP_GRID_EXCLUDE_FAVORITES && fav.contains src.icon.id then
      [DropEffect.removeFavorite src.icon.id] else [])

/-- The method `AppDisplayCommon.acceptDrop(source)` of the root grid: its result
and the calls it makes, in order. -/
def AppDisplayCommon.acceptDrop (o : Opts) (fav : List String) (st : DropState)
    (source : DragSource) : DropResult × List DropEffect :=
  if o.APP_GRID_ORDER ≠ 0 then (DropResult.returns (JsValue.bool false), [])
  else
    let src := source.unwrap
    let dropTarget := if st.shellVersion ≥ 43 then st.dropTarget else DropTarget.other
    let eff := if st.shellVersion ≥ 43 then [DropEffect.deleteDropTarget] else []
    if !BaseAppViewCommon.canAccept o src then (DropResult.returns (JsValue.bool false), eff)
    else if (st.shellVersion < 43 ∧ st.dropPage ≠ 0) ∨
        (st.shellVersion ≥ 43 ∧ (dropTarget = DropTarget.prevPageIndicator ∨
          dropTarget = DropTarget.nextPageIndicator)) then
      let increment : Int :=
        if st.shellVersion < 43 then (if st.dropPage = SidePages.NEXT then 1 else -1)
        else (if dropTarget = DropTarget.prevPageIndicator then -1 else 1)
      let page := min (st.currentPage + increment) st.nPages
      let position : Int := if page < st.nPages then -1 else 0
      if st.moveItemThrows then
        (DropResult.throws, eff ++ [DropEffect.moveItem src.icon page position])
      else
        (DropResult.returns (JsValue.bool true),
          eff ++ [DropEffect.moveItem src.icon page position, DropEffect.goToPage page] ++
            AppDisplayCommon.commitDrop o fav st src)
    else
      match st.delayedMoveData with
      | some (page, position) =>
        (DropResult.returns (JsValue.bool true),
          eff ++ [DropEffect.moveItem src.icon page position] ++
            (if st.moveItemThrows then [DropEffect.logWarning] else []) ++
            [DropEffect.removeDelayedMove] ++ AppDisplayCommon.commitDrop o fav st src)
      | none =>
        (DropResult.returns (JsValue.bool true), eff ++ AppDisplayCommon.commitDrop o fav st src)

/-- The method `BaseAppViewCommon.acceptDrop(source)`. -/
def BaseAppViewCommon.acceptDrop (o : Opts) (st : DropState) (source : DragSource) :
    DropResult × List DropEffect :=
  if !BaseAppViewCommon.canAccept o source.item then
    (DropResult.returns (JsValue.bool false), [])
  else
    let src := source.unwrap
    if st.dropPage ≠ 0 then
      let increment : Int := if st.dropPage = SidePages.NEXT then 1 else -1
      let page := min (st.currentPage + increment) st.nPages
      let position : Int := if page < st.nPages then -1 else 0
      if st.moveItemThrows then
        (DropResult.throws, [DropEffect.moveItem src.icon page position])
      else
        (DropResult.returns (JsValue.bool true),
          [DropEffect.moveItem src.icon page position, DropEffect.goToPage page])
    else
      match st.delayedMoveData with
      | some (page, position) =>
        if st.moveItemThrows then
          (DropResult.throws, [DropEffect.moveItem src.icon page position])
        else
          (DropResult.returns (JsValue.bool true),
            [DropEffect.moveItem src.icon page position, DropEffect.removeDelayedMove])
      | none => (DropResult.returns (JsValue.bool true), [])

/-- The method `AppViewItemCommon.acceptDrop(source, _actor, x)` of an item.
`canAccept` is the result of the item's own `this._canAccept(source)`,
`withinLeeways` that of `this._withinLeeways(x)`. -/
def AppViewItemCommon.acceptDrop (o : Opts) (canAccept withinLeeways : Bool)
    (source : DragSource) : DropResult × List DropEffect :=
  if o.APP_GRID_ORDER ≠ 0 then
    (DropResult.returns (JsValue.number DragMotionResult.NO_DROP), [])
  else if !canAccept then
    (DropResult.returns (JsValue.bool false), [DropEffect.setHoveringByDnd false])
  else if withinLeeways then
    (DropResult.returns (JsValue.bool false), [DropEffect.setHoveringByDnd false])
  else
    match source.sourceItem with
    | some sourceItem =>
      (DropResult.returns (JsValue.bool true),
        [DropEffect.setHoveringByDnd false, DropEffect.removeFromSourceFolder sourceItem.icon])
    | none => (DropResult.returns (JsValue.bool true), [DropEffect.setHoveringByDnd false])

/-- The state of the shell after a sequence of calls, each call acting through
`step`. -/
def runEffects {σ : Type} (step : DropEffect → σ → σ) (effects : List DropEffect) (s : σ) : σ :=
  effects.foldl (fun s e => step e s) s

/-- The comparator passed to `sort` by `_sortOrderedItemsAlphabetically`:
`a.name.toLowerCase().localeCompare(b.name.toLowerCase())`. -/
def alphabeticalCompare (h : Host) (a b : Icon) : Int :=
  h.localeCompare (h.toLowerCase a.name) (h.toLowerCase b.name)

/-- The comparison `localeCompare` is a consistent comparator: swapping the
arguments swaps the sign of the result, and "not after" is transitive. -/
structure Host.ConsistentLocale (h : Host) : Prop where
  antisymm : ∀ s t, 0 < h.localeCompare s t ↔ h.localeCompare t s < 0
  trans : ∀ s t u, h.localeCompare s t ≤ 0 → h.localeCompare t u ≤ 0 →
    h.localeCompare s u ≤ 0

/-- A host for examples: names are compared by their length and lower-casing
changes nothing. -/
def lengthHost : Host where
  toLowerCase := fun s => s
  localeCompare := fun s t => (s.length : Int) - (t.length : Int)
  usageCompare := fun _ _ => 0

/-- The request a call carries, if the call is `_moveItem`. -/
def GridOp.moveTarget : GridOp → Option MoveRequest
  | GridOp.moveItem icon page position => some ⟨icon, page, position⟩
  | _ => none

/-- The page and the position on that page at which the grid holds an icon;
`(-1, -1)` when no page holds it. -/
def gridPosition : List (List Icon) → Icon → Int × Int
  | [], _ => (-1, -1)
  | page :: rest, icon =>
    if page.contains icon then (0, (page.indexOf icon : Int))
    else if (gridPosition rest icon).1 = -1 then (-1, -1)
    else ((gridPosition rest icon).1 + 1, (gridPosition rest icon).2)

/-- The view after the two reconciliation loops of `_redisplay` (removals, then
additions and moves), before the block for the sorted modes. -/
def redisplayReconciled (G : GridOps) (compareItems : Icon → Icon → Int)
    (getItemPosition : Icon → Int × Int) (loaded : List Icon) (s : Grid) : Grid :=
  (redisplayOps getItemPosition s.orderedItems (jsSort compareItems loaded)).foldl
    (fun s op => applyOp G op s) s

/-! ## Calls that throw

The inherited methods `_removeItem`, `_addItem` and `_moveItem` (and `destroy`)
can throw, for instance on a stale reference.  A call is then a partial step on
the view: `none` stands for an exception. -/

/-- How far a sequence of calls got: the view it left, the calls that returned,
the calls whose exception was caught and logged, and whether an exception left
the method. -/
structure Run where
  grid : Grid
  executed : List GridOp
  logged : List GridOp
  escaped : Bool
deriving DecidableEq, Repr

/-- The two `forEach` loops of `_redisplay` ("Remove old app icons", "Add new app
icons, or move existing ones") with calls that can throw.  No call is inside a
`try`: the first exception leaves the loop and `_redisplay`. -/
def runReconciliation (step : GridOp → Grid → Option Grid) : List GridOp → Grid → Run
  | [], s => ⟨s, [], [], false⟩
  | op :: rest, s =>
    match step op s with
    | none => ⟨s, [], [], true⟩
    | some s' =>
      let r := runReconciliation step rest s'
      ⟨r.grid, op :: r.executed, r.logged, r.escaped⟩

/-- The `forEach` of `_setLinearPositions` with a `_moveItem` that can throw:
`try { this._moveItem(icon, page, position); } catch (e) { log(...) }`, so the
loop goes on with the next icon. -/
def runSetLinearPositions (step : GridOp → Grid → Option Grid) :
    List MoveRequest → Grid → Run
  | [], s => ⟨s, [], [], false⟩
  | r :: rest, s =>
    match step (GridOp.moveItem r.icon r.page r.position) s with
    | none =>
      let t := runSetLinearPositions step rest s
      ⟨t.grid, t.executed, GridOp.moveItem r.icon r.page r.position :: t.logged, t.escaped⟩
    | some s' =>
      let t := runSetLinearPositions step rest s'
      ⟨t.grid, GridOp.moveItem r.icon r.page r.position :: t.executed, t.logged, t.escaped⟩

/-- A stand-in for calls of which exactly the call `bad` throws; the others act
as `singlePageOps`. -/
def throwingOn (bad : GridOp) (op : GridOp) (s : Grid) : Option Grid :=
  if op = bad then none else some (applyOp singlePageOps op s)

/-- An example of what `_loadApps` reads while the app `x` is dragged out of the
dialog of the visible folder `F`: the apps `x` and `yy` are installed, `x`
belongs to `F`, and `_onDragBegin` has made a placeholder icon for `x`. -/
def folderDragEnv : LoadEnv where
  installed := [⟨"x", true, true⟩, ⟨"yy", true, true⟩]
  runningApps := []
  fav := []
  folderChildren := [⟨"F", true, ["x"]⟩]
  items := fun _ => none
  newFolderIcon := fun id => ⟨id.length + 10, id, id, .folderIcon, false⟩
  newAppIcon := fun id => ⟨id.length + 20, id, id, .appIcon, false⟩
  placeholder := some ⟨7, "x", "X", .appIcon, false⟩

/-! ## `AppFolderDialog._updateFolderSize`: the size of the dialog

The numbers that are floating-point in the source are rationals here, so the
arithmetic is exact.  The model follows the source as long as every value stays
a finite number: a scale factor other than 0 (it divides the preferred width) and
`minItemSize + spacing` other than 0 (it divides the available width). -/

/-- What `_updateFolderSize` reads: the options, the view, the parent app
display and the stage. -/
structure FolderSizeInput where
  /-- The options `APP_GRID_FOLDER_COLUMNS`, `APP_GRID_FOLDER_ROWS` and
  `APP_GRID_FOLDER_ICON_SIZE`. -/
  opts : FolderOpts
  APP_GRID_FOLDER_ICON_SIZE_DEFAULT : Int
  APP_GRID_SPACING : Int
  ORIENTATION : Bool
  SHOW_SEARCH_ENTRY : Bool
  /-- The value `Main.overview._overview.controls._searchEntryBin.height`. -/
  searchEntryHeight : ℚ
  /-- The value `view._orderedItems.length`. -/
  nItems : Nat
  /-- The preferred width `firstItem.get_preferred_size()[0]` of the first child
  of the grid, read after `setIconSize`; `none` when the grid has no child. -/
  firstItemWidth : Option ℚ
  /-- The scale factor of the stage's theme context. -/
  scaleFactor : ℚ
  /-- The property `appDisplay.width`. -/
  width : ℚ
  /-- The allocation box of the app display. -/
  x1 : ℚ
  x2 : ℚ
  y1 : ℚ
  y2 : ℚ
  /-- Whether `appDisplay.allocation.x2` is `Infinity` or `-Infinity`; `x2` is
  not read then. -/
  x2Infinite : Bool
  /-- The function `Math.clamp` that the shell adds to `Math`. -/
  clamp : ℚ → ℚ → ℚ → ℚ

/-- The constant `itemPadding`. -/
def itemPadding : Int := 55

/-- The constant `minItemSize = 48 + itemPadding`. -/
def minItemSize : Int := 48 + itemPadding

/-- The value of `Math.round(x)`: the nearest integer, a half rounded up. -/
def mathRound (x : ℚ) : Int := ⌊x + 1 / 2⌋

/-- The constant `iconSize`: the default size when the size option is negative. -/
def FolderSizeInput.iconSize (i : FolderSizeInput) : Int :=
  if i.opts.APP_GRID_FOLDER_ICON_SIZE < 0 then i.APP_GRID_FOLDER_ICON_SIZE_DEFAULT
  else i.opts.APP_GRID_FOLDER_ICON_SIZE

/-- The value `realSize = firstItemWidth / scaleFactor`. -/
def FolderSizeInput.realSize (i : FolderSizeInput) (firstItemWidth : ℚ) : ℚ :=
  firstItemWidth / i.scaleFactor

/-- The variable `itemSize` after the first item has been measured:
`iconSize + 55`, replaced by `realSize` when `realSize > iconSize`. -/
def FolderSizeInput.itemSize (i : FolderSizeInput) (firstItemWidth : ℚ) : ℚ :=
  if i.realSize firstItemWidth > (i.iconSize : ℚ) then i.realSize firstItemWidth
  else ((i.iconSize + 55 : Int) : ℚ)

/-- The constant `appDisplayWidth`. -/
def FolderSizeInput.appDisplayWidth (i : FolderSizeInput) : ℚ := i.x2 - i.x1

/-- The constant `appDisplayHeight`. -/
def FolderSizeInput.appDisplayHeight (i : FolderSizeInput) : ℚ :=
  i.y2 - i.y1 + (if i.SHOW_SEARCH_ENTRY then i.searchEntryHeight else 0)

/-- The local variables `columns`, `rows`, `width` and `height`. -/
structure SizeVars where
  columns : Int
  rows : Int
  width : ℚ
  height : ℚ
deriving DecidableEq, Repr

/-- The variables after `let width = ...`, `width = Math.round(...)` and
`let height = ...`, for the given `itemSize`. -/
def initialSizeVars (i : FolderSizeInput) (itemSize : ℚ) : SizeVars :=
  let columns := (initialGrid i.opts i.nItems).1
  let rows := (initialGrid i.opts i.nItems).2
  let spacing : ℚ := (i.APP_GRID_SPACING : ℚ)
  let width : ℚ := (columns : ℚ) * (itemSize + spacing) + 64
  let width : ℚ := (mathRound (width + (if i.ORIENTATION then 100 else 160)) : ℚ)
  let height : ℚ := (rows : ℚ) * (itemSize + spacing) + 75 +
    (if !i.ORIENTATION || i.opts.APP_GRID_FOLDER_COLUMNS == 0 then 100 else 70)
  ⟨columns, rows, width, height⟩

/-- The loop `while ((size * scaleFactor) > available) { size -= itemSize +
spacing; count -= 1; }` on `(height, rows)` or `(width, columns)`; `step` is
`itemSize + spacing`.  `fuel` bounds the number of iterations; `none` means that
it did not suffice. -/
def shrinkLoop (scale step available : ℚ) : Nat → ℚ → Int → Option (ℚ × Int)
  | 0, size, count => if size * scale > available then none else some (size, count)
  | fuel + 1, size, count =>
    if size * scale > available then
      shrinkLoop scale step available fuel (size - step) (count - 1)
    else some (size, count)

/-- The loop `while ((nItems > columns * rows) && ((size * scaleFactor + itemSize
+ spacing) <= available)) { size += itemSize + spacing; count += 1; }` on
`(width, columns)` or `(height, rows)`; `other` is the dimension that the loop
does not change. -/
def expandLoop (scale step available : ℚ) (nItems : Nat) (other : Int) :
    Nat → ℚ → Int → Option (ℚ × Int)
  | 0, size, count =>
    if (nItems : Int) > count * other ∧ size * scale + step ≤ available then none
    else some (size, count)
  | fuel + 1, size, count =>
    if (nItems : Int) > count * other ∧ size * scale + step ≤ available then
      expandLoop scale step available nItems other fuel (size + step) (count + 1)
    else some (size, count)

/-- The block `if (!opt.APP_GRID_FOLDER_ROWS) { while ... }` that reduces the
rows until the scaled height fits the app display. -/
def shrinkRows (i : FolderSizeInput) (itemSize : ℚ) (fuel : Nat) (v : SizeVars) :
    Option SizeVars :=
  if i.opts.APP_GRID_FOLDER_ROWS = 0 then
    (shrinkLoop i.scaleFactor (itemSize + (i.APP_GRID_SPACING : ℚ)) i.appDisplayHeight
        fuel v.height v.rows).map
      (fun r => { v with height := r.1, rows := r.2 })
  else some v

/-- The block `if (!opt.APP_GRID_FOLDER_COLUMNS) { while ... }` that reduces the
columns until the scaled width fits the app display. -/
def shrinkColumns (i : FolderSizeInput) (itemSize : ℚ) (fuel : Nat) (v : SizeVars) :
    Option SizeVars :=
  if i.opts.APP_GRID_FOLDER_COLUMNS = 0 then
    (shrinkLoop i.scaleFactor (itemSize + (i.APP_GRID_SPACING : ℚ)) i.appDisplayWidth
        fuel v.width v.columns).map
      (fun r => { v with width := r.1, columns := r.2 })
  else some v

/-- The loop of the block "try to compensate for the previous reduction" for the
columns. -/
def expandColumns (i : FolderSizeInput) (itemSize : ℚ) (fuel : Nat) (v : SizeVars) :
    Option SizeVars :=
  if i.opts.APP_GRID_FOLDER_COLUMNS = 0 then
    (expandLoop i.scaleFactor (itemSize + (i.APP_GRID_SPACING : ℚ)) i.appDisplayWidth
        i.nItems v.rows fuel v.width v.columns).map
      (fun r => { v with width := r.1, columns := r.2 })
  else some v

/-- The step "remove columns that cannot be displayed", inside the same
`if (!opt.APP_GRID_FOLDER_COLUMNS)`. -/
def capColumns (i : FolderSizeInput) (v : SizeVars) : SizeVars :=
  if i.opts.APP_GRID_FOLDER_COLUMNS = 0 then
    if ((v.columns * minItemSize + (v.columns - 1) * i.APP_GRID_SPACING : Int) : ℚ) >
        i.appDisplayWidth then
      { v with columns := ⌊i.appDisplayWidth / ((minItemSize + i.APP_GRID_SPACING : Int) : ℚ)⌋ }
    else v
  else v

/-- The loop that adds rows back, inside `if (!opt.APP_GRID_FOLDER_ROWS)`. -/
def expandRows (i : FolderSizeInput) (itemSize : ℚ) (fuel : Nat) (v : SizeVars) :
    Option SizeVars :=
  if i.opts.APP_GRID_FOLDER_ROWS = 0 then
    (expandLoop i.scaleFactor (itemSize + (i.APP_GRID_SPACING : ℚ)) i.appDisplayHeight
        i.nItems v.columns fuel v.height v.rows).map
      (fun r => { v with height := r.1, rows := r.2 })
  else some v

/-- The step "remove rows that cannot be displayed", inside the same
`if (!opt.APP_GRID_FOLDER_ROWS)`; the new value is computed from
`appDisplayWidth`, as in the source. -/
def capRows (i : FolderSizeInput) (v : SizeVars) : SizeVars :=
  if i.opts.APP_GRID_FOLDER_ROWS = 0 then
    if ((v.rows * minItemSize + (v.rows - 1) * i.APP_GRID_SPACING : Int) : ℚ) >
        i.appDisplayHeight then
      { v with rows := ⌊i.appDisplayWidth / ((minItemSize + i.APP_GRID_SPACING : Int) : ℚ)⌋ }
    else v
  else v

/-- The steps `width = Math.clamp(width, 540, appDisplayWidth)` and
`height = Math.min(height, appDisplayHeight)`. -/
def clampSize (i : FolderSizeInput) (v : SizeVars) : SizeVars :=
  { v with width := i.clamp v.width 540 i.appDisplayWidth,
           height := min v.height i.appDisplayHeight }

/-- What `_updateFolderSize` installs: `rows_per_page` and `columns_per_page` of
the layout manager (also passed to `setGridModes`), the `width` and `height` of
the style of the dialog's child, and `_designCapacity`. -/
structure FolderLayout where
  columns_per_page : Int
  rows_per_page : Int
  width : ℚ
  height : ℚ
  designCapacity : Nat
deriving DecidableEq, Repr

/-- How a call of `_updateFolderSize` ends: it returns early and installs
nothing, or it installs a layout. -/
inductive SizeOutcome where
  | skipped
  | installed (layout : FolderLayout)
deriving DecidableEq, Repr

/-- The variables at the end of the size computation, from the shrinking on, for
the given `itemSize`; `none` when `fuel` does not suffice for one of the loops. -/
def solveSize (i : FolderSizeInput) (itemSize : ℚ) (fuel : Nat) : Option SizeVars :=
  (shrinkRows i itemSize fuel (initialSizeVars i itemSize)).bind fun v =>
  (shrinkColumns i itemSize fuel v).bind fun v =>
  (expandColumns i itemSize fuel v).bind fun v =>
  (expandRows i itemSize fuel (capColumns i v)).bind fun v =>
  some (clampSize i (capRows i v))

/-- The method `_updateFolderSize()`.  It returns early when the grid has no
child, when the app display has no width and when its allocation is infinite.
`fuel` bounds the iterations of each loop; `none` means that it did not
suffice. -/
def updateFolderSize (i : FolderSizeInput) (fuel : Nat) : Option SizeOutcome :=
  match i.firstItemWidth with
  | none => some SizeOutcome.skipped
  | some firstItemWidth =>
    if i.width = 0 ∨ i.x2Infinite = true then some SizeOutcome.skipped
    else
      (solveSize i (i.itemSize firstItemWidth) fuel).map fun v =>
        SizeOutcome.installed ⟨v.columns, v.rows, v.width, v.height, i.nItems⟩

/-- The definition of `Math.clamp` in the shell:
`Math.min(Math.max(x, lower), upper)`. -/
def shellClamp (x lower upper : ℚ) : ℚ := min (max x lower) upper

/-- An example input: default icon size 64, spacing 12, horizontal orientation
off, no search entry, scale factor 1, a first item whose preferred width 0 is
ignored (so that `itemSize = iconSize + 55`), and an app display allocated at
the origin with the given width and height; `Math.clamp` is the shell's. -/
def exampleFolder (opts : FolderOpts) (nItems : Nat) (availWidth availHeight : ℚ) :
    FolderSizeInput where
  opts := opts
  APP_GRID_FOLDER_ICON_SIZE_DEFAULT := 64
  APP_GRID_SPACING := 12
  ORIENTATION := false
  SHOW_SEARCH_ENTRY := false
  searchEntryHeight := 0
  nItems := nItems
  firstItemWidth := some 0
  scaleFactor := 1
  width := availWidth
  x1 := 0
  x2 := availWidth
  y1 := 0
  y2 := availHeight
  x2Infinite := false
  clamp := shellClamp

/-- The part of the dialog height that does not depend on the rows: the header
(75) and the padding with the page indicator (100 or 70), as added in
`let height = ...`. -/
def FolderSizeInput.chromeHeight (i : FolderSizeInput) : ℚ :=
  75 + (if !i.ORIENTATION || i.opts.APP_GRID_FOLDER_COLUMNS == 0 then 100 else 70)

/-- An example input for an empty folder: no ordered item and no child in the
grid; the rest as in `exampleFolder` with fully adaptive options and an app
display of 1000 by 800. -/
def emptyFolder : FolderSizeInput :=
  { exampleFolder ⟨0, 0, -1⟩ 0 1000 800 with firstItemWidth := none }

/-- What `_updateFolderSize` writes: `fixedIconSize` of the layout manager, the
spacing in the style of the grid, the icon size of the first item, the flag
`_needsUpdateSize`, and the layout (`rows_per_page`, `columns_per_page`, the
grid mode, the `width` and `height` of the style of the dialog's child, and
`_designCapacity`). -/
structure DialogState where
  fixedIconSize : Int
  gridSpacing : Int
  firstItemIconSize : Int
  needsUpdateSize : Bool
  layout : FolderLayout
deriving DecidableEq, Repr

/-- The method `_updateFolderSize()` as a change of the state it writes.  An
early return leaves the state as it is.  Otherwise the icon size options are
written, the first item is measured (`this._needsUpdateSize = true` unless
`realSize > iconSize`), and the layout computed is installed; the call
`view._redisplay()` that follows is a call of the view and leaves these fields
alone.  `none` means that `fuel` did not suffice for one of the loops. -/
def updateFolderSizeOn (i : FolderSizeInput) (fuel : Nat) (s : DialogState) :
    Option DialogState :=
  match i.firstItemWidth with
  | none => some s
  | some firstItemWidth =>
    if i.width = 0 ∨ i.x2Infinite = true then some s
    else
      (solveSize i (i.itemSize firstItemWidth) fuel).map fun v =>
        { fixedIconSize := i.opts.APP_GRID_FOLDER_ICON_SIZE,
          gridSpacing := i.APP_GRID_SPACING,
          firstItemIconSize := i.iconSize,
          needsUpdateSize :=
            if i.realSize firstItemWidth > (i.iconSize : ℚ) then s.needsUpdateSize else true,
          layout := ⟨v.columns, v.rows, v.width, v.height, i.nItems⟩ }

/-- The page a call names, if it is a call of `_moveItem` or of `goToPage`. -/
def DropEffect.targetPage : DropEffect → Option Int
  | DropEffect.moveItem _ page _ => some page
  | DropEffect.goToPage page => some page
  | _ => none

/-- Whether a call is a call of `_moveItem`. -/
def DropEffect.isMove : DropEffect → Bool
  | DropEffect.moveItem _ _ _ => true
  | _ => false

/-- The condition of `AppDisplayCommon.acceptDrop` for a drop on a page
indicator: `(shellVersion < 43 && this._dropPage) || (shellVersion >= 43 &&
(dropTarget === this._prevPageIndicator || dropTarget ===
this._nextPageIndicator))`. -/
def DropState.onPageIndicator (st : DropState) : Prop :=
  (st.shellVersion < 43 ∧ st.dropPage ≠ 0) ∨
    (st.shellVersion ≥ 43 ∧ (st.dropTarget = DropTarget.prevPageIndicator ∨
      st.dropTarget = DropTarget.nextPageIndicator))

/-- The variable `increment` of `AppDisplayCommon.acceptDrop`. -/
def DropState.increment (st : DropState) : Int :=
  if st.shellVersion < 43 then (if st.dropPage = SidePages.NEXT then 1 else -1)
  else (if st.dropTarget = DropTarget.prevPageIndicator then -1 else 1)

/-- The calls at the start of `AppDisplayCommon.acceptDrop`: `delete
this._dropTarget` from shell version 43 on. -/
def DropState.deleteTarget (st : DropState) : List DropEffect :=
  if st.shellVersion ≥ 43 then [DropEffect.deleteDropTarget] else []

/-! ## Drag motion: `BaseAppViewCommon._onDragMotion` -/

/-- The value `DND.DragMotionResult.CONTINUE` of the shell. -/
def DragMotionResult.CONTINUE : Int := 3

/-- The calls and assignments `_onDragMotion` makes. -/
inductive MotionEffect where
  | replaceSource
  | setDropPage (page : Nat)
  | deleteDropPage
  | handleDragOvershoot
  | dragMaybeSwitchPageImmediately
  | maybeSetupDragPageSwitchInitialTimeout
  | resetDragPageSwitch
  | maybeMoveItem
deriving DecidableEq, Repr

/-- What `_onDragMotion` reads besides the source of the event: the shell
version, the result of `this._pageForCoords(x, y)` (0 for none), the grid's
`currentPage`, the result of `this._dragMaybeSwitchPageImmediately(dragEvent)`,
and the actor under the pointer (`dragEvent.targetActor`). -/
structure MotionState where
  shellVersion : Nat
  pageForCoords : Nat
  currentPage : Int
  switchesImmediately : Bool
  targetActor : DropTarget
deriving DecidableEq, Repr

/-- The method `BaseAppViewCommon._onDragMotion(dragEvent)`: the value it returns
and the calls it makes, in order. -/
def BaseAppViewCommon.onDragMotion (st : MotionState) (source : DragSource) :
    Int × List MotionEffect :=
  if !source.item.icon.cls.isA ItemClass.appViewItem then (DragMotionResult.CONTINUE, [])
  else
    let eff := if source.sourceItem.isSome then [MotionEffect.replaceSource] else []
    let appIcon := source.unwrap
    if st.shellVersion < 43 ∧ st.pageForCoords ≠ 0 ∧
        st.pageForCoords = SidePages.PREVIOUS ∧ st.currentPage = 0 then
      (DragMotionResult.NO_DROP,
        eff ++ [MotionEffect.setDropPage st.pageForCoords, MotionEffect.deleteDropPage])
    else
      (DragMotionResult.CONTINUE,
        eff ++ (if st.shellVersion < 43 then [MotionEffect.setDropPage st.pageForCoords] else []) ++
          (if appIcon.icon.cls.isA ItemClass.appViewItem then
            if st.shellVersion < 44 then [MotionEffect.handleDragOvershoot]
            else if !st.switchesImmediately then
              [MotionEffect.dragMaybeSwitchPageImmediately,
                if st.targetActor = DropTarget.prevPageIndicator ∨
                    st.targetActor = DropTarget.nextPageIndicator then
                  MotionEffect.maybeSetupDragPageSwitchInitialTimeout
                else MotionEffect.resetDragPageSwitch]
            else [MotionEffect.dragMaybeSwitchPageImmediately]
          else []) ++
          [MotionEffect.maybeMoveItem])

/-! ## Properties -/

/-! ### Linear placement -/

theorem setLinearPositionsFrom_length (k : Nat) (icons : List Icon) (i : Nat) :
    (setLinearPositionsFrom k i icons).length = icons.length := by
  induction icons generalizing i with
  | nil => rfl
  | cons a rest ih => simp [setLinearPositionsFrom, ih]

theorem setLinearPositionsFrom_getElem? (k : Nat) (icons : List Icon) (i j : Nat) :
    (setLinearPositionsFrom k i icons)[j]? =
      (icons[j]?).map (fun icon =>
        { icon := icon, page := (((i + j) / k : Nat) : Int),
          position := (((i + j) % k : Nat) : Int) }) := by
  induction icons generalizing i j with
  | nil => simp [setLinearPositionsFrom]
  | cons a rest ih =>
    cases j with
    | zero => simp [setLinearPositionsFrom]
    | succ j =>
      simp only [setLinearPositionsFrom, List.getElem?_cons_succ, ih]
      have : i + 1 + j = i + (j + 1) := by omega
      rw [this]

theorem setLinearPositionsFrom_map_icon (k : Nat) (icons : List Icon) (i : Nat) :
    (setLinearPositionsFrom k i icons).map MoveRequest.icon = icons := by
  induction icons generalizing i with
  | nil => rfl
  | cons a rest ih => simp [setLinearPositionsFrom, ih]

theorem setLinearPositionsFrom_map_index (k : Nat) (icons : List Icon) (i : Nat) :
    (setLinearPositionsFrom k i icons).map (linearIndex k) =
      (List.range' i icons.length).map (fun n => (n : Int)) := by
  induction icons generalizing i with
  | nil => rfl
  | cons a rest ih =>
    simp only [setLinearPositionsFrom, List.map_cons, List.length_cons, List.range'_succ, ih]
    congr 1
    simp only [linearIndex]
    have h := Nat.div_add_mod i k
    have : ((i / k : Nat) : Int) * (k : Int) + ((i % k : Nat) : Int) = ((k * (i / k) + i % k : Nat) : Int) := by
      push_cast; ring
    rw [this, h]

/-- C1. For `itemsPerPage ≥ 1`, `_setLinearPositions` requests for the icon at
index `i` the slot `page = floor(i / itemsPerPage)`, `position = i mod itemsPerPage`;
the position lies in `[0, itemsPerPage)` and `page * itemsPerPage + position = i`.
The requests are issued one per icon in input order, and reading the requested
slots back as linear indices gives `0, 1, …, n-1`, so that looking each request's
icon up at its linear index reproduces the input list. -/
theorem setLinearPositions_roundtrip (itemsPerPage : Nat) (h : 1 ≤ itemsPerPage)
    (icons : List Icon) :
    (∀ i icon, icons[i]? = some icon →
        ∃ r, (setLinearPositions itemsPerPage icons)[i]? = some r ∧
          r.icon = icon ∧
          r.page = ((i / itemsPerPage : Nat) : Int) ∧
          r.position = ((i % itemsPerPage : Nat) : Int) ∧
          0 ≤ r.position ∧ r.position < (itemsPerPage : Int) ∧
          linearIndex itemsPerPage r = (i : Int)) ∧
    (setLinearPositions itemsPerPage icons).length = icons.length ∧
    (setLinearPositions itemsPerPage icons).map (linearIndex itemsPerPage) =
      (List.range icons.length).map (fun n => (n : Int)) ∧
    (setLinearPositions itemsPerPage icons).map
        (fun r => icons[(linearIndex itemsPerPage r).toNat]?) =
      icons.map some := by
  have hidx := setLinearPositionsFrom_map_index itemsPerPage icons 0
  refine ⟨?_, setLinearPositionsFrom_length _ _ _, ?_, ?_⟩
  · intro i icon hi
    refine ⟨{ icon := icon, page := ((i / itemsPerPage : Nat) : Int),
              position := ((i % itemsPerPage : Nat) : Int) }, ?_, rfl, rfl, rfl, ?_, ?_, ?_⟩
    · rw [setLinearPositions, setLinearPositionsFrom_getElem?, hi]
      simp
    · exact Int.ofNat_nonneg _
    · have : i % itemsPerPage < itemsPerPage := Nat.mod_lt _ (by omega)
      show ((i % itemsPerPage : Nat) : Int) < (itemsPerPage : Int)
      exact_mod_cast this
    · simp only [linearIndex]
      have h2 := Nat.div_add_mod i itemsPerPage
      have : ((i / itemsPerPage : Nat) : Int) * (itemsPerPage : Int) +
          ((i % itemsPerPage : Nat) : Int) =
          ((itemsPerPage * (i / itemsPerPage) + i % itemsPerPage : Nat) : Int) := by
        push_cast; ring
      rw [this, h2]
  · rw [setLinearPositions, hidx, List.range_eq_range']
  · apply List.ext_getElem?
    intro j
    simp only [List.getElem?_map, setLinearPositions, setLinearPositionsFrom_getElem?]
    cases hj : icons[j]? with
    | none => simp
    | some icon =>
      simp only [Option.map_some', linearIndex, Nat.zero_add]
      have h2 := Nat.div_add_mod j itemsPerPage
      have : ((j / itemsPerPage : Nat) : Int) * (itemsPerPage : Int) +
          ((j % itemsPerPage : Nat) : Int) =
          ((itemsPerPage * (j / itemsPerPage) + j % itemsPerPage : Nat) : Int) := by
        push_cast; ring
      rw [this, h2, Int.toNat_ofNat, hj]

/-- C1 witness: three icons on pages of two. -/
theorem setLinearPositions_roundtrip_witness :
    1 ≤ 2 ∧
    (setLinearPositions 2
        [⟨0, "a", "A", .appIcon, false⟩, ⟨1, "b", "B", .appIcon, false⟩,
         ⟨2, "c", "C", .appIcon, false⟩]).map (linearIndex 2) = [0, 1, 2] :=
  ⟨by decide,
   (setLinearPositions_roundtrip 2 (by decide)
      [⟨0, "a", "A", .appIcon, false⟩, ⟨1, "b", "B", .appIcon, false⟩,
       ⟨2, "c", "C", .appIcon, false⟩]).2.2.1⟩

/-! ### Adaptive folder grid -/

theorem ceilSqrtAux_spec (n : Nat) (fuel c : Nat)
    (hub : n ≤ (c + fuel) * (c + fuel)) (hlow : ∀ d, d < c → d * d < n) :
    n ≤ ceilSqrtAux n fuel c * ceilSqrtAux n fuel c ∧
      ∀ d, d < ceilSqrtAux n fuel c → d * d < n := by
  induction fuel generalizing c with
  | zero => exact ⟨by simpa [ceilSqrtAux] using hub, by simpa [ceilSqrtAux] using hlow⟩
  | succ fuel ih =>
    unfold ceilSqrtAux
    by_cases hc : n ≤ c * c
    · rw [if_pos hc]
      exact ⟨hc, hlow⟩
    · rw [if_neg hc]
      apply ih
      · have : c + 1 + fuel = c + (fuel + 1) := by omega
        rw [this]; exact hub
      · intro d hd
        rcases Nat.lt_succ_iff_lt_or_eq.mp hd with h | h
        · exact hlow d h
        · subst h; omega

/-- The model of `Math.ceil(Math.sqrt(n))` is the least `c` with `n ≤ c * c`. -/
theorem ceilSqrt_spec (n : Nat) :
    n ≤ ceilSqrt n * ceilSqrt n ∧ ∀ d, d < ceilSqrt n → d * d < n := by
  apply ceilSqrtAux_spec
  · simp only [Nat.zero_add]
    exact Nat.le_mul_self n
  · intro d hd; omega

theorem ceilSqrt_unique (n c : Nat) (h1 : n ≤ c * c) (h2 : ∀ d, d < c → d * d < n) :
    ceilSqrt n = c := by
  obtain ⟨s1, s2⟩ := ceilSqrt_spec n
  rcases Nat.lt_trichotomy (ceilSqrt n) c with h | h | h
  · have := h2 _ h; omega
  · exact h
  · have := s2 _ h; omega

theorem ceilSqrt_pos (n : Nat) (hn : 1 ≤ n) : 1 ≤ ceilSqrt n := by
  obtain ⟨s1, _⟩ := ceilSqrt_spec n
  by_contra h
  have : ceilSqrt n = 0 := by omega
  rw [this] at s1
  omega

theorem initialGrid_of_fullAdaptive (o : FolderOpts) (hfa : fullAdaptive o = true) (n : Nat) :
    initialGrid o n = adaptiveGrid n := by
  simp [initialGrid, hfa]

/-- C5. In the full-adaptive branch of `_updateFolderSize`, for every item count
`n ≥ 1` and `c = ceil(sqrt(n))` (the natural number with `(c-1)² < n ≤ c²`), the
initial grid is `(columns, rows) = (c, c-1)` if `c*(c-1) ≥ n`, else `(c+1, c-1)` if
`(c+1)*(c-1) ≥ n`, else `(c, c)`.  In particular `n = 9` gives columns 3, rows 3
and `n = 10` gives columns 4, rows 3. -/
theorem adaptiveGrid_formula (o : FolderOpts) (hfa : fullAdaptive o = true) :
    (∀ n c : Nat, 1 ≤ n → n ≤ c * c → (c - 1) * (c - 1) < n →
      initialGrid o n =
        if (n : Int) ≤ (c : Int) * ((c : Int) - 1) then ((c : Int), (c : Int) - 1)
        else if (n : Int) ≤ ((c : Int) + 1) * ((c : Int) - 1) then
          ((c : Int) + 1, (c : Int) - 1)
        else ((c : Int), (c : Int))) ∧
    initialGrid o 9 = (3, 3) ∧ initialGrid o 10 = (4, 3) := by
  refine ⟨?_, ?_, ?_⟩
  · intro n c hn h1 h2
    have hc : ceilSqrt n = c := by
      apply ceilSqrt_unique n c h1
      intro d hd
      have hd1 : d ≤ c - 1 := by omega
      exact lt_of_le_of_lt (Nat.mul_le_mul hd1 hd1) h2
    rw [initialGrid_of_fullAdaptive o hfa, adaptiveGrid, hc]
  · rw [initialGrid_of_fullAdaptive o hfa]; decide
  · rw [initialGrid_of_fullAdaptive o hfa]; decide

/-- C5 witness: ten icons, nothing configured, `c = 4`. -/
theorem adaptiveGrid_formula_witness :
    fullAdaptive ⟨0, 0, -1⟩ = true ∧ 1 ≤ 10 ∧ 10 ≤ 4 * 4 ∧ (4 - 1) * (4 - 1) < 10 ∧
      initialGrid ⟨0, 0, -1⟩ 10 = (4, 3) :=
  ⟨by decide, by decide, by decide, by decide,
   ((adaptiveGrid_formula ⟨0, 0, -1⟩ (by decide)).1 10 4
      (by decide) (by decide) (by decide)).trans (by decide)⟩

/-- C6. For every item count `n ≥ 1` the full-adaptive initial grid is at least as
wide as it is tall and wastes no trailing row: `columns ≥ rows ≥ 1`,
`columns * rows ≥ n` and `columns * (rows - 1) < n`. -/
theorem adaptiveGrid_shape (o : FolderOpts) (hfa : fullAdaptive o = true)
    (n : Nat) (hn : 1 ≤ n) :
    (initialGrid o n).1 ≥ (initialGrid o n).2 ∧ (initialGrid o n).2 ≥ 1 ∧
    (initialGrid o n).1 * (initialGrid o n).2 ≥ (n : Int) ∧
    (initialGrid o n).1 * ((initialGrid o n).2 - 1) < (n : Int) := by
  obtain ⟨s1, s2⟩ := ceilSqrt_spec n
  have hpos := ceilSqrt_pos n hn
  have s3 := s2 (ceilSqrt n - 1) (by omega)
  rw [initialGrid_of_fullAdaptive o hfa, adaptiveGrid]
  generalize ceilSqrt n = c at s1 s3 hpos
  have hC : (1 : Int) ≤ (c : Int) := by exact_mod_cast hpos
  have hN : (1 : Int) ≤ (n : Int) := by exact_mod_cast hn
  have h1 : (n : Int) ≤ (c : Int) * (c : Int) := by exact_mod_cast s1
  have h3 : ((c : Int) - 1) * ((c : Int) - 1) < (n : Int) := by
    have : ((c - 1 : Nat) : Int) = (c : Int) - 1 := by omega
    rw [← this]; exact_mod_cast s3
  simp only [ge_iff_le]
  split_ifs with hb1 hb2
  · have hc2 : (2 : Int) ≤ (c : Int) := by
      by_contra hlt
      have : (c : Int) = 1 := by omega
      rw [this] at hb1
      omega
    refine ⟨by simp, by simp; omega, by simpa using hb1, ?_⟩
    simp only
    nlinarith
  · have hc2 : (2 : Int) ≤ (c : Int) := by
      by_contra hlt
      have : (c : Int) = 1 := by omega
      rw [this] at hb2
      omega
    refine ⟨by simp; omega, by simp; omega, by simpa using hb2, ?_⟩
    simp only
    nlinarith
  · refine ⟨by simp, by simpa using hC, by simpa using h1, ?_⟩
    simp only
    linarith

/-- C6 witness: seven icons give a grid of 4 columns and 2 rows. -/
theorem adaptiveGrid_shape_witness :
    fullAdaptive ⟨0, 0, -1⟩ = true ∧ 1 ≤ 7 ∧
      (initialGrid ⟨0, 0, -1⟩ 7).1 * ((initialGrid ⟨0, 0, -1⟩ 7).2 - 1) < (7 : Int) :=
  ⟨by decide, by decide, (adaptiveGrid_shape ⟨0, 0, -1⟩ (by decide) 7 (by decide)).2.2.2⟩

/-! ### The sort of the host engine -/

section SortTheory
variable {α : Type} (cmp : α → α → Int)


theorem insertItem_perm (x : α) (acc : List α) : (insertItem cmp x acc).Perm (x :: acc) := by
  induction acc with
  | nil => exact List.Perm.refl _
  | cons y r ih =>
    unfold insertItem
    split
    · exact List.Perm.refl _
    · exact (ih.cons y).trans (List.Perm.swap x y r)

theorem insertItem_filter (p : α → Bool) (hp : CmpClass cmp p) (x : α) (acc : List α) :
    (insertItem cmp x acc).filter p = (x :: acc).filter p := by
  induction acc with
  | nil => rfl
  | cons y r ih =>
    unfold insertItem
    by_cases h : cmp y x ≤ 0
    · rw [if_pos h]
    · rw [if_neg h]
      cases hx : p x <;> cases hy : p y
      · simp [List.filter_cons, hx, hy, ih]
      · simp [List.filter_cons, hx, hy, ih]
      · simp [List.filter_cons, hx, hy, ih]
      · exact absurd (hp y x hy hx) h

theorem insertItem_sorted (htot : CmpTotal cmp) (htr : CmpTrans cmp) (x : α) (acc : List α)
    (h : acc.Pairwise (fun a b => cmp b a ≤ 0)) :
    (insertItem cmp x acc).Pairwise (fun a b => cmp b a ≤ 0) := by
  induction acc with
  | nil => simp [insertItem]
  | cons y r ih =>
    rw [List.pairwise_cons] at h
    unfold insertItem
    by_cases hyx : cmp y x ≤ 0
    · rw [if_pos hyx]
      refine List.pairwise_cons.mpr ⟨?_, List.pairwise_cons.mpr h⟩
      intro z hz
      rcases List.mem_cons.mp hz with rfl | hz
      · exact hyx
      · exact htr _ _ _ (h.1 z hz) hyx
    · rw [if_neg hyx]
      refine List.pairwise_cons.mpr ⟨?_, ih h.2⟩
      intro z hz
      rcases List.mem_cons.mp ((insertItem_perm cmp x r).mem_iff.mp hz) with rfl | hz
      · exact (htot y z).resolve_left hyx
      · exact h.1 z hz

theorem foldl_insertItem_perm (l acc : List α) :
    (l.foldl (fun acc item => insertItem cmp item acc) acc).Perm (l.reverse ++ acc) := by
  induction l generalizing acc with
  | nil => exact List.Perm.refl _
  | cons x l ih =>
    simp only [List.foldl_cons, List.reverse_cons, List.append_assoc, List.singleton_append]
    exact (ih _).trans (List.Perm.append_left _ (insertItem_perm cmp x acc))

theorem foldl_insertItem_filter (p : α → Bool) (hp : CmpClass cmp p) (l acc : List α) :
    (l.foldl (fun acc item => insertItem cmp item acc) acc).filter p =
      (l.reverse ++ acc).filter p := by
  induction l generalizing acc with
  | nil => rfl
  | cons x l ih =>
    simp only [List.foldl_cons, List.reverse_cons, List.append_assoc, List.singleton_append]
    rw [ih, List.filter_append, insertItem_filter cmp p hp, List.filter_append]

theorem foldl_insertItem_sorted (htot : CmpTotal cmp) (htr : CmpTrans cmp) (l acc : List α)
    (h : acc.Pairwise (fun a b => cmp b a ≤ 0)) :
    (l.foldl (fun acc item => insertItem cmp item acc) acc).Pairwise
      (fun a b => cmp b a ≤ 0) := by
  induction l generalizing acc with
  | nil => exact h
  | cons x l ih => exact ih _ (insertItem_sorted cmp htot htr x acc h)

theorem insertionSort_perm (l : List α) : (insertionSort cmp l).Perm l := by
  unfold insertionSort
  refine (List.reverse_perm _).trans ((foldl_insertItem_perm cmp l []).trans ?_)
  simp

theorem insertionSort_filter (p : α → Bool) (hp : CmpClass cmp p) (l : List α) :
    (insertionSort cmp l).filter p = l.filter p := by
  unfold insertionSort
  rw [List.filter_reverse, foldl_insertItem_filter cmp p hp]
  simp

theorem insertionSort_sorted (htot : CmpTotal cmp) (htr : CmpTrans cmp) (l : List α) :
    (insertionSort cmp l).Pairwise (fun a b => cmp a b ≤ 0) := by
  unfold insertionSort
  rw [List.pairwise_reverse]
  exact foldl_insertItem_sorted cmp htot htr l [] List.Pairwise.nil

theorem mergeRuns_nil_left (ys : List α) : mergeRuns cmp [] ys = ys := rfl

theorem mergeRuns_nil_right (xs : List α) : mergeRuns cmp xs [] = xs := by
  cases xs <;> rfl

theorem mergeRuns_cons_cons (x y : α) (xs ys : List α) :
    mergeRuns cmp (x :: xs) (y :: ys) =
      if cmp x y ≤ 0 then x :: mergeRuns cmp xs (y :: ys)
      else y :: mergeRuns cmp (x :: xs) ys := rfl

theorem mergeRuns_perm (xs ys : List α) : (mergeRuns cmp xs ys).Perm (xs ++ ys) := by
  induction xs generalizing ys with
  | nil => exact List.Perm.refl _
  | cons x xs ihx =>
    induction ys with
    | nil => rw [mergeRuns_nil_right]; simp
    | cons y ys ihy =>
      rw [mergeRuns_cons_cons]
      split
      · exact (ihx (y :: ys)).cons x
      · refine (ihy.cons y).trans ?_
        exact (@List.perm_middle α y (x :: xs) ys).symm

theorem mergeRuns_filter (htr : CmpTrans cmp) (p : α → Bool) (hp : CmpClass cmp p)
    (xs ys : List α) (hxs : xs.Pairwise (fun a b => cmp a b ≤ 0)) :
    (mergeRuns cmp xs ys).filter p = xs.filter p ++ ys.filter p := by
  induction xs generalizing ys with
  | nil => rfl
  | cons x xs ihx =>
    induction ys with
    | nil => rw [mergeRuns_nil_right]; simp
    | cons y ys ihy =>
      rw [mergeRuns_cons_cons]
      by_cases hxy : cmp x y ≤ 0
      · rw [if_pos hxy]
        cases hpx : p x <;>
          simp [List.filter_cons, hpx, ihx _ (List.pairwise_cons.mp hxs).2]
      · rw [if_neg hxy, List.filter_cons, ihy]
        cases hy : p y
        · simp [List.filter_cons, hy]
        · have hnone : (x :: xs).filter p = [] := by
            rw [List.filter_eq_nil_iff]
            intro z hz hpz
            apply hxy
            rcases List.mem_cons.mp hz with rfl | hz
            · exact hp _ _ hpz hy
            · exact htr _ _ _ ((List.pairwise_cons.mp hxs).1 z hz) (hp _ _ hpz hy)
          rw [hnone]
          simp [List.filter_cons, hy]

theorem mergeRuns_sorted (htot : CmpTotal cmp) (htr : CmpTrans cmp) (xs ys : List α)
    (hxs : xs.Pairwise (fun a b => cmp a b ≤ 0)) (hys : ys.Pairwise (fun a b => cmp a b ≤ 0)) :
    (mergeRuns cmp xs ys).Pairwise (fun a b => cmp a b ≤ 0) := by
  induction xs generalizing ys with
  | nil => exact hys
  | cons x xs ihx =>
    induction ys with
    | nil => rw [mergeRuns_nil_right]; exact hxs
    | cons y ys ihy =>
      rw [mergeRuns_cons_cons]
      have hx := List.pairwise_cons.mp hxs
      have hy := List.pairwise_cons.mp hys
      by_cases hxy : cmp x y ≤ 0
      · rw [if_pos hxy]
        refine List.pairwise_cons.mpr ⟨?_, ihx _ hx.2 hys⟩
        intro z hz
        rcases List.mem_append.mp ((mergeRuns_perm cmp xs (y :: ys)).mem_iff.mp hz) with hz | hz
        · exact hx.1 z hz
        · rcases List.mem_cons.mp hz with rfl | hz
          · exact hxy
          · exact htr _ _ _ hxy (hy.1 z hz)
      · rw [if_neg hxy]
        have hyx : cmp y x ≤ 0 := (htot x y).resolve_left hxy
        refine List.pairwise_cons.mpr ⟨?_, ihy hy.2⟩
        intro z hz
        rcases List.mem_append.mp ((mergeRuns_perm cmp (x :: xs) ys).mem_iff.mp hz) with hz | hz
        · rcases List.mem_cons.mp hz with rfl | hz
          · exact hyx
          · exact htr _ _ _ hyx (hx.1 z hz)
        · exact hy.1 z hz

theorem mergeStep_perm (xs ys : List α) : (mergeStep cmp xs ys).Perm (xs ++ ys) := by
  unfold mergeStep
  split
  · split
    · exact List.Perm.refl _
    · exact mergeRuns_perm cmp xs ys
  · exact List.Perm.refl _

theorem mergeStep_filter (htr : CmpTrans cmp) (p : α → Bool) (hp : CmpClass cmp p)
    (xs ys : List α) (hxs : xs.Pairwise (fun a b => cmp a b ≤ 0)) :
    (mergeStep cmp xs ys).filter p = xs.filter p ++ ys.filter p := by
  unfold mergeStep
  split
  · split
    · exact List.filter_append _ _
    · exact mergeRuns_filter cmp htr p hp xs ys hxs
  · exact List.filter_append _ _

theorem mergeStep_sorted (htot : CmpTotal cmp) (htr : CmpTrans cmp) (xs ys : List α)
    (hxs : xs.Pairwise (fun a b => cmp a b ≤ 0)) (hys : ys.Pairwise (fun a b => cmp a b ≤ 0)) :
    (mergeStep cmp xs ys).Pairwise (fun a b => cmp a b ≤ 0) := by
  unfold mergeStep
  split
  next a b ha hb =>
    split
    next hab =>
      obtain ⟨init, rfl⟩ := List.getLast?_eq_some_iff.mp ha
      obtain ⟨tail, rfl⟩ := List.head?_eq_some_iff.mp hb
      refine List.pairwise_append.mpr ⟨hxs, hys, ?_⟩
      intro u hu v hv
      have hua : cmp u a ≤ 0 := by
        rcases List.mem_append.mp hu with hu | hu
        · exact (List.pairwise_append.mp hxs).2.2 u hu a (by simp)
        · rw [List.mem_singleton.mp hu]
          exact (htot a a).elim id id
      have hbv : cmp b v ≤ 0 := by
        rcases List.mem_cons.mp hv with rfl | hv
        · exact (htot v v).elim id id
        · exact (List.pairwise_cons.mp hys).1 v hv
      exact htr _ _ _ (htr _ _ _ hua hab) hbv
    next => exact mergeRuns_sorted cmp htot htr xs ys hxs hys
  next hno =>
    cases hx : xs.getLast? with
    | none =>
      rw [List.getLast?_eq_none_iff] at hx
      subst hx; simpa using hys
    | some a =>
      cases hy : ys.head? with
      | none =>
        rw [List.head?_eq_none_iff] at hy
        subst hy; simpa using hxs
      | some b => exact (hno a b hx hy).elim

theorem windows4_flatten (l : List α) : (windows4 l).flatten = l := by
  induction l using windows4.induct <;> simp_all [windows4]

theorem windows4_length (l : List α) : (windows4 l).length ≤ l.length := by
  induction l using windows4.induct with
  | case1 a b c d rest ih => simp only [windows4, List.length_cons]; omega
  | case2 => simp [windows4]
  | case3 rest h1 h2 =>
    rw [windows4]
    · cases rest with
      | nil => exact absurd rfl h2
      | cons x r => simp
    · exact h1
    · exact h2

theorem mergePairs_perm (runs : List (List α)) :
    (mergePairs cmp runs).flatten.Perm runs.flatten := by
  induction runs using mergePairs.induct cmp with
  | case1 left right rest ih =>
    simp only [mergePairs, List.flatten_cons, ← List.append_assoc]
    exact List.Perm.append (mergeStep_perm cmp left right) ih
  | case2 rest h =>
    rw [mergePairs]
    exact h

theorem mergePairs_filter (htr : CmpTrans cmp) (p : α → Bool) (hp : CmpClass cmp p)
    (runs : List (List α)) (hs : ∀ r ∈ runs, r.Pairwise (fun a b => cmp a b ≤ 0)) :
    (mergePairs cmp runs).flatten.filter p = runs.flatten.filter p := by
  induction runs using mergePairs.induct cmp with
  | case1 left right rest ih =>
    simp only [mergePairs, List.flatten_cons, List.filter_append]
    rw [mergeStep_filter cmp htr p hp left right (hs left (by simp)),
      ih (fun r hr => hs r (by simp [hr])), List.append_assoc]
  | case2 rest h =>
    rw [mergePairs]
    exact h

theorem mergePairs_sorted (htot : CmpTotal cmp) (htr : CmpTrans cmp)
    (runs : List (List α)) (hs : ∀ r ∈ runs, r.Pairwise (fun a b => cmp a b ≤ 0)) :
    ∀ r ∈ mergePairs cmp runs, r.Pairwise (fun a b => cmp a b ≤ 0) := by
  induction runs using mergePairs.induct cmp with
  | case1 left right rest ih =>
    intro r hr
    simp only [mergePairs, List.mem_cons] at hr
    rcases hr with rfl | hr
    · exact mergeStep_sorted cmp htot htr left right (hs left (by simp)) (hs right (by simp))
    · exact ih (fun r hr => hs r (by simp [hr])) r hr
  | case2 rest h =>
    rw [mergePairs]
    · exact hs
    · exact h

theorem mergePairs_length (runs : List (List α)) :
    (mergePairs cmp runs).length = (runs.length + 1) / 2 := by
  induction runs using mergePairs.induct cmp with
  | case1 left right rest ih =>
    simp only [mergePairs, List.length_cons, ih]
    omega
  | case2 rest h =>
    rw [mergePairs]
    · match rest, h with
      | [], _ => simp
      | [a], _ => simp
      | a :: b :: r, h => exact absurd rfl (h a b r)
    · exact h

theorem mergeRounds_perm (fuel : Nat) (runs : List (List α)) :
    (mergeRounds cmp fuel runs).flatten.Perm runs.flatten := by
  induction fuel generalizing runs with
  | zero => exact List.Perm.refl _
  | succ fuel ih =>
    unfold mergeRounds
    split
    · exact List.Perm.refl _
    · exact (ih _).trans (mergePairs_perm cmp runs)

theorem mergeRounds_sorted (htot : CmpTotal cmp) (htr : CmpTrans cmp) (fuel : Nat)
    (runs : List (List α)) (hs : ∀ r ∈ runs, r.Pairwise (fun a b => cmp a b ≤ 0)) :
    ∀ r ∈ mergeRounds cmp fuel runs, r.Pairwise (fun a b => cmp a b ≤ 0) := by
  induction fuel generalizing runs with
  | zero => exact hs
  | succ fuel ih =>
    unfold mergeRounds
    split
    · exact hs
    · exact ih _ (mergePairs_sorted cmp htot htr runs hs)

theorem mergeRounds_filter (htot : CmpTotal cmp) (htr : CmpTrans cmp) (p : α → Bool)
    (hp : CmpClass cmp p) (fuel : Nat)
    (runs : List (List α)) (hs : ∀ r ∈ runs, r.Pairwise (fun a b => cmp a b ≤ 0)) :
    (mergeRounds cmp fuel runs).flatten.filter p = runs.flatten.filter p := by
  induction fuel generalizing runs with
  | zero => rfl
  | succ fuel ih =>
    unfold mergeRounds
    split
    · rfl
    · rw [ih _ (mergePairs_sorted cmp htot htr runs hs), mergePairs_filter cmp htr p hp runs hs]

theorem mergeRounds_length (fuel : Nat) (runs : List (List α)) (h : runs.length ≤ fuel + 1) :
    (mergeRounds cmp fuel runs).length ≤ 1 := by
  induction fuel generalizing runs with
  | zero => simpa [mergeRounds] using h
  | succ fuel ih =>
    unfold mergeRounds
    split
    · assumption
    · apply ih
      rw [mergePairs_length]
      omega

theorem flatten_sorted_of_single (runs : List (List α)) (hlen : runs.length ≤ 1)
    (hs : ∀ r ∈ runs, r.Pairwise (fun a b => cmp a b ≤ 0)) :
    runs.flatten.Pairwise (fun a b => cmp a b ≤ 0) := by
  match runs, hlen, hs with
  | [], _, _ => simp
  | [r], _, hs => simpa using hs r (by simp)
  | _ :: _ :: _, hlen, _ => simp at hlen

/-- The sort returns a rearrangement of its input, whatever the comparator. -/
theorem jsSort_perm (l : List α) : (jsSort cmp l).Perm l := by
  unfold jsSort
  split
  · exact insertionSort_perm cmp l
  · refine (mergeRounds_perm cmp _ _).trans ?_
    have h : ((windows4 l).map (insertionSort cmp)).flatten.Perm (windows4 l).flatten := by
      generalize windows4 l = ws
      induction ws with
      | nil => exact List.Perm.refl _
      | cons w ws ih =>
        simp only [List.map_cons, List.flatten_cons]
        exact List.Perm.append (insertionSort_perm cmp w) ih
    rw [windows4_flatten] at h
    exact h

/-- For a comparator whose "`cmp a b ≤ 0`" is total and transitive the result is
ordered by it. -/
theorem jsSort_sorted (htot : CmpTotal cmp) (htr : CmpTrans cmp) (l : List α) :
    (jsSort cmp l).Pairwise (fun a b => cmp a b ≤ 0) := by
  unfold jsSort
  split
  · exact insertionSort_sorted cmp htot htr l
  · have hs : ∀ r ∈ (windows4 l).map (insertionSort cmp),
        r.Pairwise (fun a b => cmp a b ≤ 0) := by
      intro r hr
      obtain ⟨w, _, rfl⟩ := List.mem_map.mp hr
      exact insertionSort_sorted cmp htot htr w
    apply flatten_sorted_of_single cmp _ _ (mergeRounds_sorted cmp htot htr _ _ hs)
    apply mergeRounds_length
    have := windows4_length l
    simp only [List.length_map]
    omega

/-- Stability: elements that the comparator ties with each other keep their
relative order. -/
theorem jsSort_filter (htot : CmpTotal cmp) (htr : CmpTrans cmp) (p : α → Bool)
    (hp : CmpClass cmp p) (l : List α) :
    (jsSort cmp l).filter p = l.filter p := by
  unfold jsSort
  split
  · exact insertionSort_filter cmp p hp l
  · have hs : ∀ r ∈ (windows4 l).map (insertionSort cmp),
        r.Pairwise (fun a b => cmp a b ≤ 0) := by
      intro r hr
      obtain ⟨w, _, rfl⟩ := List.mem_map.mp hr
      exact insertionSort_sorted cmp htot htr w
    rw [mergeRounds_filter cmp htot htr p hp _ _ hs]
    have h : ((windows4 l).map (insertionSort cmp)).flatten.filter p =
        (windows4 l).flatten.filter p := by
      generalize windows4 l = ws
      induction ws with
      | nil => rfl
      | cons w ws ih =>
        simp only [List.map_cons, List.flatten_cons, List.filter_append]
        rw [insertionSort_filter cmp p hp w, ih]
    rw [h, windows4_flatten]

end SortTheory

/-! ### Favorites first, running first -/

theorem boolToNumber_le_zero (b : Bool) : boolToNumber b ≤ 0 ↔ b = false := by
  cases b <;> simp [boolToNumber]

theorem favCompare_le_iff (fav : List String) (a b : Icon) :
    favCompare fav a b ≤ 0 ↔ favKey fav a.id ≤ favKey fav b.id := by
  simp [favCompare, boolToNumber_le_zero]

theorem favCompare_total (fav : List String) : CmpTotal (favCompare fav) := by
  intro a b
  simp only [favCompare_le_iff]
  omega

theorem favCompare_trans (fav : List String) : CmpTrans (favCompare fav) := by
  intro a b c
  simp only [favCompare_le_iff]
  omega

theorem favCompare_class (fav : List String) (k : Int) :
    CmpClass (favCompare fav) (fun a => decide (favKey fav a.id = k)) := by
  intro a b ha hb
  simp only [decide_eq_true_eq] at ha hb
  rw [favCompare_le_iff, ha, hb]

theorem runningCompare_le_iff (a b : Icon) :
    runningCompare a b ≤ 0 ↔ (a.running = true ∨ b.running = false) := by
  cases ha : a.running <;> cases hb : b.running <;>
    simp [runningCompare, boolToNumber, ha, hb]

theorem runningCompare_total : CmpTotal runningCompare := by
  intro a b
  simp only [runningCompare_le_iff]
  cases a.running <;> cases b.running <;> simp

theorem runningCompare_trans : CmpTrans runningCompare := by
  intro a b c
  simp only [runningCompare_le_iff]
  cases a.running <;> cases b.running <;> cases c.running <;> simp

theorem jsIndexOf_ge (id : String) (l : List String) : -1 ≤ jsIndexOf id l := by
  induction l with
  | nil => simp [jsIndexOf]
  | cons x xs ih =>
    unfold jsIndexOf
    split_ifs <;> omega

theorem jsIndexOf_lt_length (id : String) (l : List String) :
    jsIndexOf id l < (l.length : Int) := by
  induction l with
  | nil => simp [jsIndexOf]
  | cons x xs ih =>
    unfold jsIndexOf
    simp only [List.length_cons, Nat.cast_add, Nat.cast_one]
    split_ifs <;> omega

theorem jsIndexOf_neg_iff (id : String) (l : List String) :
    jsIndexOf id l < 0 ↔ id ∉ l := by
  induction l with
  | nil => simp [jsIndexOf]
  | cons x xs ih =>
    unfold jsIndexOf
    have hge := jsIndexOf_ge id xs
    by_cases hx : x = id
    · simp [hx]
    · have hne : ¬ id = x := fun h => hx h.symm
      simp only [hx, if_false, List.mem_cons, hne, false_or]
      rw [← ih]
      split_ifs with h
      · simp [h]
      · constructor
        · intro h2; omega
        · intro h2; exact absurd h2 h

theorem favKey_eq_999_of_not_favorite (fav : List String) (a : Icon)
    (h : isFavorite fav a = false) : favKey fav a.id = 999 := by
  have : a.id ∉ fav := by simpa [isFavorite] using h
  simp [favKey, (jsIndexOf_neg_iff a.id fav).mpr this]

theorem favKey_lt_999_of_favorite (fav : List String) (hlen : fav.length ≤ 999) (a : Icon)
    (h : isFavorite fav a = true) : favKey fav a.id < 999 := by
  have hm : a.id ∈ fav := by simpa [isFavorite] using h
  have h1 : ¬ jsIndexOf a.id fav < 0 := by
    rw [jsIndexOf_neg_iff]; exact fun hn => hn hm
  have h2 := jsIndexOf_lt_length a.id fav
  simp only [favKey, h1, if_false]
  omega

/-- A list in which no unselected element comes before a selected one is its
selected elements followed by its unselected ones. -/
theorem eq_filter_append_of_pairwise {α : Type} (p : α → Bool) (l : List α)
    (h : l.Pairwise (fun a b => p a = true ∨ p b = false)) :
    l = l.filter p ++ l.filter (fun a => !p a) := by
  induction l with
  | nil => rfl
  | cons a l ih =>
    have hc := List.pairwise_cons.mp h
    cases hpa : p a
    · have hnone : l.filter p = [] := by
        rw [List.filter_eq_nil_iff]
        intro b hb hpb
        rcases hc.1 b hb with h1 | h1
        · rw [hpa] at h1; exact Bool.false_ne_true h1
        · rw [hpb] at h1; exact Bool.false_ne_true h1.symm
      have hall : l.filter (fun a => !p a) = l := by
        have := ih hc.2
        rw [hnone, List.nil_append] at this
        exact this.symm
      simp [List.filter_cons, hpa, hnone, hall]
    · have := ih hc.2
      simp only [List.filter_cons, hpa, if_true, Bool.not_true, Bool.false_eq_true, if_false,
        List.cons_append]
      rw [← this]

theorem perm_pair_cases {α : Type} (a b : α) (l : List α) (h : l.Perm [a, b]) :
    l = [a, b] ∨ l = [b, a] := by
  have hlen : l.length = 2 := by simpa using h.length_eq
  match l, hlen, h with
  | [x, y], _, h =>
    have hx : x ∈ [a, b] := h.mem_iff.mp (by simp)
    rcases List.mem_cons.mp hx with rfl | hx
    · have := List.perm_singleton.mp h.cons_inv
      exact Or.inl (by rw [this])
    · have hx : x = b := by simpa using hx
      subst hx
      have := List.perm_singleton.mp (h.trans (List.Perm.swap x a [])).cons_inv
      exact Or.inr (by rw [this])

/-- C9 (as stated) fails: with the favorites list `[y, x]`, the two favorites
`X, Y` (in this grid order) come out as `Y, X`, so the relative order inside the
favorites partition is not the one before the step. -/
theorem favoritesFirst_reorders_favorites :
    favoritesFirst ["y", "x"]
        [⟨0, "x", "X", .appIcon, false⟩, ⟨1, "y", "Y", .appIcon, false⟩] =
      [⟨1, "y", "Y", .appIcon, false⟩, ⟨0, "x", "X", .appIcon, false⟩] ∧
    (favoritesFirst ["y", "x"]
        [⟨0, "x", "X", .appIcon, false⟩, ⟨1, "y", "Y", .appIcon, false⟩]).filter
        (isFavorite ["y", "x"]) ≠
      [⟨0, "x", "X", .appIcon, false⟩, ⟨1, "y", "Y", .appIcon, false⟩].filter
        (isFavorite ["y", "x"]) := by
  decide

/-- C9 (amended). The favorites-first step of `_redisplay` is a stable sort by
the index of the item's id in the favorites list, with key 999 for an id that is
not a favorite: the result is a rearrangement of the input in non-decreasing key
order, and the items of equal key keep their relative order.  With at most 999
favorites every favorite precedes every non-favorite and the non-favorites keep
their relative order.  For `[A (favorite, usage 1), B (non-favorite, usage 9)]`
in usage mode the result is `[A, B]`, whatever the usage comparison returns. -/
theorem favoritesFirst_stable_sort (fav : List String) (items : List Icon) :
    (favoritesFirst fav items).Perm items ∧
    (favoritesFirst fav items).Pairwise (fun a b => favKey fav a.id ≤ favKey fav b.id) ∧
    (∀ k : Int, (favoritesFirst fav items).filter (fun a => decide (favKey fav a.id = k)) =
      items.filter (fun a => decide (favKey fav a.id = k))) ∧
    (fav.length ≤ 999 →
      favoritesFirst fav items =
        (favoritesFirst fav items).filter (isFavorite fav) ++
          items.filter (fun a => !isFavorite fav a)) ∧
    (∀ h : Host, sortedOrder h ⟨2, true, false, false, false⟩ ["a"]
        [⟨0, "a", "A", .appIcon, false⟩, ⟨1, "b", "B", .appIcon, false⟩] =
      [⟨0, "a", "A", .appIcon, false⟩, ⟨1, "b", "B", .appIcon, false⟩]) := by
  have hsorted : (favoritesFirst fav items).Pairwise
      (fun a b => favKey fav a.id ≤ favKey fav b.id) := by
    have := jsSort_sorted (favCompare fav) (favCompare_total fav) (favCompare_trans fav) items
    exact this.imp (fun {a b} h => (favCompare_le_iff fav a b).mp h)
  have hstable : ∀ k : Int,
      (favoritesFirst fav items).filter (fun a => decide (favKey fav a.id = k)) =
        items.filter (fun a => decide (favKey fav a.id = k)) := fun k =>
    jsSort_filter (favCompare fav) (favCompare_total fav) (favCompare_trans fav) _
      (favCompare_class fav k) items
  refine ⟨jsSort_perm _ _, hsorted, hstable, ?_, ?_⟩
  · intro hlen
    have hkey : ∀ a : Icon, (!isFavorite fav a) = decide (favKey fav a.id = 999) := by
      intro a
      cases hfa : isFavorite fav a
      · simp [favKey_eq_999_of_not_favorite fav a hfa]
      · have := favKey_lt_999_of_favorite fav hlen a hfa
        have hne : ¬ favKey fav a.id = 999 := by omega
        simp [hne]
    have hnon : (favoritesFirst fav items).filter (fun a => !isFavorite fav a) =
        items.filter (fun a => !isFavorite fav a) := by
      have h1 : (fun a => !isFavorite fav a) = (fun a => decide (favKey fav a.id = 999)) :=
        funext hkey
      rw [h1]
      exact hstable 999
    have hpart := eq_filter_append_of_pairwise (isFavorite fav) (favoritesFirst fav items)
      (hsorted.imp (fun {a b} hab => by
        cases hfa : isFavorite fav a
        · right
          cases hfb : isFavorite fav b
          · rfl
          · have h1 := favKey_eq_999_of_not_favorite fav a hfa
            have h2 := favKey_lt_999_of_favorite fav hlen b hfb
            omega
        · left; rfl))
    rw [hnon] at hpart
    exact hpart
  · intro h
    have hperm : (usageSort h (sortOrderedItemsAlphabetically h
            [⟨0, "a", "A", .appIcon, false⟩, ⟨1, "b", "B", .appIcon, false⟩])).Perm
        [⟨0, "a", "A", .appIcon, false⟩, ⟨1, "b", "B", .appIcon, false⟩] :=
      (jsSort_perm _ _).trans (jsSort_perm _ _)
    simp only [sortedOrder, if_true]
    rcases perm_pair_cases _ _ _ hperm with h1 | h1 <;> rw [h1] <;> decide

/-- C9 (amended) witness: one favorite, listed after a non-favorite. -/
theorem favoritesFirst_stable_sort_witness :
    ["b"].length ≤ 999 ∧
    favoritesFirst ["b"]
        [⟨0, "a", "A", .appIcon, false⟩, ⟨1, "b", "B", .appIcon, false⟩] =
      (favoritesFirst ["b"]
        [⟨0, "a", "A", .appIcon, false⟩, ⟨1, "b", "B", .appIcon, false⟩]).filter
          (isFavorite ["b"]) ++
        [⟨0, "a", "A", .appIcon, false⟩, ⟨1, "b", "B", .appIcon, false⟩].filter
          (fun a => !isFavorite ["b"] a) :=
  ⟨by decide,
   (favoritesFirst_stable_sort ["b"]
      [⟨0, "a", "A", .appIcon, false⟩, ⟨1, "b", "B", .appIcon, false⟩]).2.2.2.1 (by decide)⟩

/-- C10. The running-first step of `_redisplay` is a stable partition: its result
is the running apps of the input in their input order followed by the
non-running apps in their input order, although the comparator returns a boolean.
It is applied to the result of the favorites-first step (both steps are guarded
by `APP_GRID_DASH_FIRST`). -/
theorem runningFirst_stable_partition (items : List Icon) :
    runningFirst items =
      items.filter (fun a => a.running) ++ items.filter (fun a => !a.running) ∧
    (∀ (h : Host) (o : Opts) (fav : List String), o.APP_GRID_DASH_FIRST = true →
      sortedOrder h o fav items =
        runningFirst (favoritesFirst fav
          (if o.APP_GRID_ORDER = 2 then usageSort h (sortOrderedItemsAlphabetically h items)
           else sortOrderedItemsAlphabetically h items))) := by
  constructor
  · have hsorted := jsSort_sorted runningCompare runningCompare_total runningCompare_trans items
    have hpart := eq_filter_append_of_pairwise (fun a : Icon => a.running) (runningFirst items)
      (hsorted.imp (fun {a b} h => (runningCompare_le_iff a b).mp h))
    have h1 : (runningFirst items).filter (fun a => a.running) =
        items.filter (fun a => a.running) :=
      jsSort_filter runningCompare runningCompare_total runningCompare_trans _
        (fun a b ha _ => (runningCompare_le_iff a b).mpr (Or.inl ha)) items
    have h2 : (runningFirst items).filter (fun a => !a.running) =
        items.filter (fun a => !a.running) :=
      jsSort_filter runningCompare runningCompare_total runningCompare_trans _
        (fun a b _ hb => (runningCompare_le_iff a b).mpr (Or.inr (by simpa using hb))) items
    rw [h1, h2] at hpart
    exact hpart
  · intro h o fav hdash
    simp [sortedOrder, hdash]

/-- C10 witness: the step order in usage mode with `APP_GRID_DASH_FIRST` set. -/
theorem runningFirst_stable_partition_witness :
    (⟨2, true, false, false, false⟩ : Opts).APP_GRID_DASH_FIRST = true ∧
    runningFirst [⟨0, "a", "A", .appIcon, false⟩, ⟨1, "b", "B", .appIcon, true⟩,
        ⟨2, "c", "C", .appIcon, false⟩, ⟨3, "d", "D", .appIcon, true⟩] =
      [⟨1, "b", "B", .appIcon, true⟩, ⟨3, "d", "D", .appIcon, true⟩,
        ⟨0, "a", "A", .appIcon, false⟩, ⟨2, "c", "C", .appIcon, false⟩] :=
  ⟨rfl,
   (runningFirst_stable_partition
      [⟨0, "a", "A", .appIcon, false⟩, ⟨1, "b", "B", .appIcon, true⟩,
        ⟨2, "c", "C", .appIcon, false⟩, ⟨3, "d", "D", .appIcon, true⟩]).1⟩

/-! ### The redisplay diff -/

theorem contains_eq_decide_mem {α : Type} [DecidableEq α] (l : List α) (a : α) :
    l.contains a = decide (a ∈ l) := by
  simp [List.contains]

theorem mem_addedApps_iff (oldApps newApps : List Icon) (icon : Icon) :
    icon ∈ addedApps oldApps newApps ↔
      icon ∈ newApps ∧ icon.id ∉ oldApps.map (fun i => i.id) := by
  simp [addedApps]

theorem mem_removedApps_iff (oldApps newApps : List Icon) (icon : Icon) :
    icon ∈ removedApps oldApps newApps ↔
      icon ∈ oldApps ∧ icon.id ∉ newApps.map (fun i => i.id) := by
  simp [removedApps]

theorem removeOps_filterMap_removeTarget (l : List Icon) :
    ((l.map (fun icon => [GridOp.removeItem icon, GridOp.destroy icon])).flatten).filterMap
      GridOp.removeTarget = l := by
  induction l with
  | nil => rfl
  | cons a l ih =>
    simp only [List.map_cons, List.flatten_cons, List.filterMap_append, ih]
    rfl

theorem removeOps_filterMap_destroyTarget (l : List Icon) :
    ((l.map (fun icon => [GridOp.removeItem icon, GridOp.destroy icon])).flatten).filterMap
      GridOp.destroyTarget = l := by
  induction l with
  | nil => rfl
  | cons a l ih =>
    simp only [List.map_cons, List.flatten_cons, List.filterMap_append, ih]
    rfl

theorem removeOps_filterMap_addTarget (l : List Icon) :
    ((l.map (fun icon => [GridOp.removeItem icon, GridOp.destroy icon])).flatten).filterMap
      GridOp.addTarget = [] := by
  induction l with
  | nil => rfl
  | cons a l ih =>
    simp only [List.map_cons, List.flatten_cons, List.filterMap_append, ih]
    rfl

theorem addOrMove_cases (g : Icon → Int × Int) (added : List Icon) (icon : Icon) :
    (added.contains icon = true ∧
      addOrMove g added icon = some (GridOp.addItem icon (g icon).1 (g icon).2)) ∨
    (added.contains icon = false ∧
      (addOrMove g added icon = some (GridOp.moveItem icon (g icon).1 (g icon).2) ∨
        addOrMove g added icon = none)) := by
  unfold addOrMove
  cases hc : added.contains icon
  · right
    refine ⟨rfl, ?_⟩
    by_cases h : (g icon).1 ≠ -1 ∧ (g icon).2 ≠ -1
    · left; simp [h]
    · right; simp [h]
  · left
    exact ⟨rfl, by simp⟩

theorem addOps_filterMap_removeTarget (g : Icon → Int × Int) (added l : List Icon) :
    (l.filterMap (addOrMove g added)).filterMap GridOp.removeTarget = [] ∧
    (l.filterMap (addOrMove g added)).filterMap GridOp.destroyTarget = [] := by
  induction l with
  | nil => exact ⟨rfl, rfl⟩
  | cons a l ih =>
    rcases addOrMove_cases g added a with ⟨_, h⟩ | ⟨_, h | h⟩ <;>
      simp [List.filterMap_cons, h, GridOp.removeTarget, GridOp.destroyTarget, ih]

theorem addOps_filterMap_addTarget (g : Icon → Int × Int) (added l : List Icon) :
    (l.filterMap (addOrMove g added)).filterMap GridOp.addTarget =
      l.filter (fun icon => added.contains icon) := by
  induction l with
  | nil => rfl
  | cons a l ih =>
    rcases addOrMove_cases g added a with ⟨hc, h⟩ | ⟨hc, h | h⟩ <;>
      simp only [List.filterMap_cons, List.filter_cons, h, hc, GridOp.addTarget, ih] <;>
      simp

/-- C2. The icons `_redisplay` removes, and the icons it destroys, are exactly the
previous icons whose id does not occur among the ids of the freshly loaded list;
the icons it adds are exactly the icons of the new order whose id does not occur
among the previous ids; no removed icon shares its id with an added one.  With
previous `[A, B, C]` and loaded `[B, C, D]` the removed icons are `[A]` and the
added icons are `[D]`. -/
theorem redisplay_diff (getItemPosition : Icon → Int × Int)
    (compareItems : Icon → Icon → Int) (oldApps loaded : List Icon) :
    (redisplayOps getItemPosition oldApps (jsSort compareItems loaded)).filterMap
        GridOp.removeTarget =
      oldApps.filter (fun icon => decide (icon.id ∉ loaded.map (fun i => i.id))) ∧
    (redisplayOps getItemPosition oldApps (jsSort compareItems loaded)).filterMap
        GridOp.destroyTarget =
      oldApps.filter (fun icon => decide (icon.id ∉ loaded.map (fun i => i.id))) ∧
    (redisplayOps getItemPosition oldApps (jsSort compareItems loaded)).filterMap
        GridOp.addTarget =
      (jsSort compareItems loaded).filter
        (fun icon => decide (icon.id ∉ oldApps.map (fun i => i.id))) ∧
    (∀ a ∈ removedApps oldApps (jsSort compareItems loaded),
      ∀ b ∈ addedApps oldApps (jsSort compareItems loaded), a.id ≠ b.id) ∧
    (redisplayOps getItemPosition
        [⟨0, "a", "A", .appIcon, false⟩, ⟨1, "b", "B", .appIcon, false⟩,
          ⟨2, "c", "C", .appIcon, false⟩]
        (jsSort compareItems
          [⟨1, "b", "B", .appIcon, false⟩, ⟨2, "c", "C", .appIcon, false⟩,
            ⟨3, "d", "D", .appIcon, false⟩])).filterMap GridOp.removeTarget =
      [⟨0, "a", "A", .appIcon, false⟩] ∧
    (redisplayOps getItemPosition
        [⟨0, "a", "A", .appIcon, false⟩, ⟨1, "b", "B", .appIcon, false⟩,
          ⟨2, "c", "C", .appIcon, false⟩]
        (jsSort compareItems
          [⟨1, "b", "B", .appIcon, false⟩, ⟨2, "c", "C", .appIcon, false⟩,
            ⟨3, "d", "D", .appIcon, false⟩])).filterMap GridOp.addTarget =
      [⟨3, "d", "D", .appIcon, false⟩] := by
  have hrem : ∀ (old ld : List Icon),
      (redisplayOps getItemPosition old (jsSort compareItems ld)).filterMap
          GridOp.removeTarget =
        old.filter (fun icon => decide (icon.id ∉ ld.map (fun i => i.id))) := by
    intro old ld
    simp only [redisplayOps, List.filterMap_append, removeOps_filterMap_removeTarget,
      (addOps_filterMap_removeTarget _ _ _).1, List.append_nil, removedApps]
    apply List.filter_congr
    intro icon _
    have hmem : icon.id ∈ (jsSort compareItems ld).map (fun i => i.id) ↔
        icon.id ∈ ld.map (fun i => i.id) :=
      ((jsSort_perm compareItems ld).map _).mem_iff
    rw [contains_eq_decide_mem]
    by_cases h : icon.id ∈ ld.map (fun i => i.id)
    · rw [decide_eq_true (hmem.mpr h), decide_eq_false (not_not.mpr h)]; rfl
    · rw [decide_eq_false (fun h' => h (hmem.mp h')), decide_eq_true h]; rfl
  have hdes : ∀ (old ld : List Icon),
      (redisplayOps getItemPosition old (jsSort compareItems ld)).filterMap
          GridOp.destroyTarget =
        (redisplayOps getItemPosition old (jsSort compareItems ld)).filterMap
          GridOp.removeTarget := by
    intro old ld
    simp only [redisplayOps, List.filterMap_append, removeOps_filterMap_removeTarget,
      removeOps_filterMap_destroyTarget, (addOps_filterMap_removeTarget _ _ _).1,
      (addOps_filterMap_removeTarget _ _ _).2]
  have hadd : ∀ (old ld : List Icon),
      (redisplayOps getItemPosition old (jsSort compareItems ld)).filterMap
          GridOp.addTarget =
        (jsSort compareItems ld).filter
          (fun icon => decide (icon.id ∉ old.map (fun i => i.id))) := by
    intro old ld
    simp only [redisplayOps, List.filterMap_append, removeOps_filterMap_addTarget,
      addOps_filterMap_addTarget, List.nil_append]
    apply List.filter_congr
    intro icon hicon
    by_cases h : icon.id ∈ old.map (fun i => i.id)
    · have : icon ∉ addedApps old (jsSort compareItems ld) := by
        rw [mem_addedApps_iff]; exact fun hh => hh.2 h
      rw [contains_eq_decide_mem, decide_eq_false this, decide_eq_false (not_not.mpr h)]
    · have : icon ∈ addedApps old (jsSort compareItems ld) := by
        rw [mem_addedApps_iff]; exact ⟨hicon, h⟩
      rw [contains_eq_decide_mem, decide_eq_true this, decide_eq_true h]
  refine ⟨hrem _ _, (hdes _ _).trans (hrem _ _), hadd _ _, ?_, ?_, ?_⟩
  · intro a ha b hb hab
    rw [mem_removedApps_iff] at ha
    rw [mem_addedApps_iff] at hb
    apply hb.2
    rw [← hab]
    exact List.mem_map_of_mem _ ha.1
  · rw [hrem]; decide
  · rw [hadd]
    have hp := (jsSort_perm compareItems
      [(⟨1, "b", "B", .appIcon, false⟩ : Icon), ⟨2, "c", "C", .appIcon, false⟩,
        ⟨3, "d", "D", .appIcon, false⟩]).filter
      (fun icon => decide (icon.id ∉
        ([⟨0, "a", "A", .appIcon, false⟩, ⟨1, "b", "B", .appIcon, false⟩,
          ⟨2, "c", "C", .appIcon, false⟩] : List Icon).map (fun i => i.id)))
    have he : ([(⟨1, "b", "B", .appIcon, false⟩ : Icon), ⟨2, "c", "C", .appIcon, false⟩,
        ⟨3, "d", "D", .appIcon, false⟩]).filter
      (fun icon => decide (icon.id ∉
        ([⟨0, "a", "A", .appIcon, false⟩, ⟨1, "b", "B", .appIcon, false⟩,
          ⟨2, "c", "C", .appIcon, false⟩] : List Icon).map (fun i => i.id))) =
        [⟨3, "d", "D", .appIcon, false⟩] := by decide
    rw [he] at hp
    exact List.perm_singleton.mp hp

/-! ### Unique ids -/

theorem foldl_removeOps_perm (G : GridOps) (hG : G.KeepsItems) (rs : List Icon) (s : Grid)
    (hsub : rs.Subperm s.orderedItems) :
    (((rs.map (fun icon => [GridOp.removeItem icon, GridOp.destroy icon])).flatten).foldl
        (fun s op => applyOp G op s) s).orderedItems.Perm (s.orderedItems.diff rs) := by
  induction rs generalizing s with
  | nil => exact List.Perm.refl _
  | cons r rs ih =>
    simp only [List.map_cons, List.flatten_cons, List.cons_append, List.nil_append,
      List.foldl_cons, applyOp, List.diff_cons]
    have hr : r ∈ s.orderedItems := hsub.subset (List.mem_cons_self r rs)
    have h1 := hG.removeItem r s hr
    have h2 : rs.Subperm (s.orderedItems.erase r) := by
      have := hsub.erase r
      rwa [List.erase_cons_head] at this
    exact (ih _ (h2.trans h1.symm.subperm)).trans (h1.diff_right rs)

theorem foldl_addOps_perm (G : GridOps) (hG : G.KeepsItems) (g : Icon → Int × Int)
    (added : List Icon) (l : List Icon) (s : Grid)
    (hnd : (l.filter (fun icon => added.contains icon)).Nodup)
    (hnew : ∀ icon ∈ l, added.contains icon = true → icon ∉ s.orderedItems) :
    ((l.filterMap (addOrMove g added)).foldl (fun s op => applyOp G op s) s).orderedItems.Perm
      (l.filter (fun icon => added.contains icon) ++ s.orderedItems) := by
  induction l generalizing s with
  | nil => exact List.Perm.refl _
  | cons a l ih =>
    rcases addOrMove_cases g added a with ⟨hc, h⟩ | ⟨hc, h | h⟩
    · simp only [List.filterMap_cons, h, List.foldl_cons, applyOp, List.filter_cons, hc,
        if_true, List.cons_append]
      simp only [List.filter_cons, hc, if_true, List.nodup_cons] at hnd
      have ha : a ∉ s.orderedItems := hnew a (List.mem_cons_self a l) hc
      have h1 := hG.addItem a (g a).1 (g a).2 s ha
      refine (ih _ hnd.2 ?_).trans ?_
      · intro icon hicon hci hmem
        rcases List.mem_cons.mp (h1.mem_iff.mp hmem) with rfl | hmem
        · exact hnd.1 (List.mem_filter.mpr ⟨hicon, hci⟩)
        · exact hnew icon (List.mem_cons_of_mem _ hicon) hci hmem
      · exact ((List.Perm.append_left _ h1).trans List.perm_middle)
    · simp only [List.filterMap_cons, h, List.foldl_cons, applyOp, List.filter_cons, hc,
        Bool.false_eq_true, if_false]
      simp only [List.filter_cons, hc, Bool.false_eq_true, if_false] at hnd
      have h1 := hG.moveItem a (g a).1 (g a).2 s
      refine (ih _ hnd ?_).trans (List.Perm.append_left _ h1)
      intro icon hicon hci hmem
      exact hnew icon (List.mem_cons_of_mem _ hicon) hci (h1.mem_iff.mp hmem)
    · simp only [List.filterMap_cons, h, List.filter_cons, hc, Bool.false_eq_true, if_false]
      simp only [List.filter_cons, hc, Bool.false_eq_true, if_false] at hnd
      exact ih _ hnd (fun icon hicon hci => hnew icon (List.mem_cons_of_mem _ hicon) hci)

theorem setLinearPositionsLive_perm (G : GridOps) (hG : G.KeepsItems) (k count i : Nat)
    (s : Grid) :
    (setLinearPositionsLive G k count i s).orderedItems.Perm s.orderedItems := by
  induction count generalizing i s with
  | zero => exact List.Perm.refl _
  | succ count ih =>
    unfold setLinearPositionsLive
    split
    · exact (ih _ _).trans (hG.moveItem _ _ _ s)
    · exact ih _ _

theorem sortedOrder_perm (h : Host) (o : Opts) (fav : List String) (l : List Icon) :
    (sortedOrder h o fav l).Perm l := by
  unfold sortedOrder
  simp only
  have h1 : (sortOrderedItemsAlphabetically h l).Perm l := jsSort_perm _ _
  have h2 : (if o.APP_GRID_ORDER = 2 then usageSort h (sortOrderedItemsAlphabetically h l)
      else sortOrderedItemsAlphabetically h l).Perm l := by
    split
    · exact (jsSort_perm _ _).trans h1
    · exact h1
  cases hd : o.APP_GRID_DASH_FIRST
  · simpa using h2
  · simp only [if_true]
    exact (jsSort_perm _ _).trans ((jsSort_perm _ _).trans h2)

theorem redisplaySorted_perm (G : GridOps) (hG : G.KeepsItems) (h : Host) (o : Opts)
    (fav : List String) (s : Grid) :
    (redisplaySorted G h o fav s).orderedItems.Perm s.orderedItems := by
  unfold redisplaySorted
  split
  · exact (setLinearPositionsLive_perm G hG _ _ _ _).trans (sortedOrder_perm h o fav _)
  · exact List.Perm.refl _

theorem fillLoop_orderedItems (fuel i : Nat) (s : Grid) :
    (fillLoop fuel i s).orderedItems = s.orderedItems := by
  induction fuel generalizing i s with
  | zero => rfl
  | succ fuel ih =>
    unfold fillLoop
    split
    · rw [ih]; rfl
    · rfl

theorem redisplayFill_orderedItems (o : Opts) (s : Grid) :
    (redisplayFill o s).orderedItems = s.orderedItems := by
  unfold redisplayFill
  split
  · rfl
  · exact fillLoop_orderedItems _ _ _

/-- After `_redisplay` the view holds the icons it kept and the added icons. -/
theorem redisplay_orderedItems_perm (G : GridOps) (hG : G.KeepsItems) (h : Host) (o : Opts)
    (fav : List String) (compareItems : Icon → Icon → Int)
    (getItemPosition : Icon → Int × Int) (loaded : List Icon) (s : Grid)
    (hadded : ((addedApps s.orderedItems (jsSort compareItems loaded)).map
      (fun i => i.id)).Nodup) :
    (redisplay G h o fav compareItems getItemPosition loaded s).orderedItems.Perm
      (addedApps s.orderedItems (jsSort compareItems loaded) ++
        s.orderedItems.diff (removedApps s.orderedItems (jsSort compareItems loaded))) := by
  unfold redisplay redisplayBeforeFill
  rw [redisplayFill_orderedItems]
  refine (redisplaySorted_perm G hG h o fav _).trans ?_
  simp only [redisplayOps, List.foldl_append]
  have hrem := foldl_removeOps_perm G hG
    (removedApps s.orderedItems (jsSort compareItems loaded)) s
    (List.filter_sublist _).subperm
  have hfilter : (jsSort compareItems loaded).filter
      (fun icon => (addedApps s.orderedItems (jsSort compareItems loaded)).contains icon) =
      addedApps s.orderedItems (jsSort compareItems loaded) := by
    conv_rhs => unfold addedApps
    apply List.filter_congr
    intro icon hicon
    rw [contains_eq_decide_mem, contains_eq_decide_mem]
    by_cases hid : icon.id ∈ s.orderedItems.map (fun i => i.id)
    · have : icon ∉ addedApps s.orderedItems (jsSort compareItems loaded) := by
        rw [mem_addedApps_iff]; exact fun hh => hh.2 hid
      rw [decide_eq_false this, decide_eq_true hid]; rfl
    · have : icon ∈ addedApps s.orderedItems (jsSort compareItems loaded) := by
        rw [mem_addedApps_iff]; exact ⟨hicon, hid⟩
      rw [decide_eq_true this, decide_eq_false hid]; rfl
  have hadd := foldl_addOps_perm G hG getItemPosition
    (addedApps s.orderedItems (jsSort compareItems loaded)) (jsSort compareItems loaded)
    (((removedApps s.orderedItems (jsSort compareItems loaded)).map
        (fun icon => [GridOp.removeItem icon, GridOp.destroy icon])).flatten.foldl
      (fun s op => applyOp G op s) s)
    (by rw [hfilter]; exact hadded.of_map _)
    (by
      intro icon hicon hc hmem
      rw [contains_eq_decide_mem, decide_eq_true_eq, mem_addedApps_iff] at hc
      have h1 := (List.diff_sublist _ _).subset (hrem.mem_iff.mp hmem)
      exact hc.2 (List.mem_map_of_mem _ h1))
  rw [hfilter] at hadd
  exact hadd.trans (List.Perm.append_left _ hrem)

/-- The ids of the folder icons and app icons `_loadApps` returns are distinct,
and they are the ids of visible folders and of apps shown at root level. -/
theorem loadApps_base_ids (o : Opts) (e : LoadEnv) (he : e.WellFormed) :
    ((visibleFolders o e).map (fun f => (e.items f.id).getD (e.newFolderIcon f.id)) ++
        (rootAppIds o e).map (fun appId => (e.items appId).getD (e.newAppIcon appId))).map
        (fun i => i.id) =
      (visibleFolders o e).map (fun f => f.id) ++ rootAppIds o e ∧
    ((visibleFolders o e).map (fun f => f.id) ++ rootAppIds o e).Nodup ∧
    (∀ x ∈ (visibleFolders o e).map (fun f => f.id),
      x ∈ e.folderChildren.map (fun f => f.id)) := by
  have hid : ∀ (mk : String → Icon), (∀ id, (mk id).id = id) →
      ∀ id, ((e.items id).getD (mk id)).id = id := by
    intro mk hmk id
    cases hi : e.items id with
    | none => simpa using hmk id
    | some icon => simpa using he.items_id id icon hi
  have hfold : ((visibleFolders o e).map
      (fun f => (e.items f.id).getD (e.newFolderIcon f.id))).map (fun i => i.id) =
      (visibleFolders o e).map (fun f => f.id) := by
    rw [List.map_map]
    apply List.map_congr_left
    intro f _
    exact hid e.newFolderIcon he.newFolderIcon_id f.id
  have happ : ((rootAppIds o e).map
      (fun appId => (e.items appId).getD (e.newAppIcon appId))).map (fun i => i.id) =
      rootAppIds o e := by
    rw [List.map_map]
    conv_rhs => rw [← List.map_id (rootAppIds o e)]
    apply List.map_congr_left
    intro a _
    exact hid e.newAppIcon he.newAppIcon_id a
  have hvis : (visibleFolders o e).Sublist e.folderChildren := by
    unfold visibleFolders
    split
    · exact List.filter_sublist _
    · exact List.nil_sublist _
  have hroot : (rootAppIds o e).Sublist (e.installed.map (fun a => a.id)) := by
    unfold rootAppIds appInfoList
    exact (List.filter_sublist _).trans ((List.filter_sublist _).map _)
  refine ⟨by rw [List.map_append, hfold, happ], ?_, fun x hx => (hvis.map _).subset hx⟩
  rw [List.nodup_append]
  refine ⟨he.folders_nodup.sublist (hvis.map _), he.installed_nodup.sublist hroot, ?_⟩
  intro x hx hx2
  obtain ⟨f, hf, rfl⟩ := List.mem_map.mp hx
  exact he.folders_not_apps f (hvis.subset hf) (hroot.subset hx2)

/-- The id of a placeholder that `_onDragBegin` has just made is not the id of a
folder icon or app icon that `_loadApps` returns. -/
theorem placeholderFresh_not_loaded (o : Opts) (e : LoadEnv) (ph : Icon)
    (hph : PlaceholderFresh o e ph) :
    ph.id ∉ (visibleFolders o e).map (fun f => f.id) ++ rootAppIds o e := by
  obtain ⟨hnf, view, hneed, hview⟩ := hph
  intro hx
  rcases List.mem_append.mp hx with hx | hx
  · apply hnf
    obtain ⟨f, hf, hfid⟩ := List.mem_map.mp hx
    have hf' : f ∈ e.folderChildren := by
      unfold visibleFolders at hf
      split at hf
      · exact (List.mem_filter.mp hf).1
      · simp at hf
    exact List.mem_map.mpr ⟨f, hf', hfid⟩
  · unfold rootAppIds at hx
    rw [List.mem_filter] at hx
    obtain ⟨hx1, hx3⟩ := hx
    by_cases hv : view = ViewClass.folderView
    · obtain ⟨hman, hin⟩ := hview hv
      simp [hman, hin] at hx3
    · have hfav : o.APP_GRID_EXCLUDE_FAVORITES = true ∧ e.fav.contains ph.id = true := by
        simpa [needsPlaceholder, hv] using hneed
      obtain ⟨a, ha, haid⟩ := List.mem_map.mp hx1
      unfold appInfoList at ha
      rw [List.mem_filter] at ha
      have haid' : a.id = ph.id := haid
      have hex := ha.2
      rw [haid'] at hex
      simp [hfav.1, hfav.2] at hex
      have hmem : ph.id ∈ e.fav := by simpa using hfav.2
      exact hex.2.2.2 hmem

/-- The icons of the loaded list whose id is new to the view have distinct ids,
when the placeholder (if any) is already in the view or has just been made. -/
theorem loadApps_new_ids_nodup (o : Opts) (e : LoadEnv) (he : e.WellFormed)
    (oldApps : List Icon)
    (hph : ∀ ph, e.placeholder = some ph →
      ph.id ∈ oldApps.map (fun i => i.id) ∨ PlaceholderFresh o e ph) :
    (((loadApps o e).filter
      (fun icon => !(oldApps.map (fun i => i.id)).contains icon.id)).map
        (fun i => i.id)).Nodup := by
  obtain ⟨hids, hnd, _⟩ := loadApps_base_ids o e he
  have hbase : ∀ p : Icon → Bool,
      ((((visibleFolders o e).map (fun f => (e.items f.id).getD (e.newFolderIcon f.id)) ++
        (rootAppIds o e).map (fun appId => (e.items appId).getD (e.newAppIcon appId))).filter
          p).map (fun i => i.id)).Sublist
        ((visibleFolders o e).map (fun f => f.id) ++ rootAppIds o e) := by
    intro p
    rw [← hids]
    exact (List.filter_sublist _).map _
  unfold loadApps
  rw [List.filter_append, List.map_append]
  cases hp : e.placeholder with
  | none =>
    simp only [Option.toList_none, List.filter_nil, List.map_nil, List.append_nil]
    exact hnd.sublist (hbase _)
  | some ph =>
    by_cases hin : ph.id ∈ oldApps.map (fun i => i.id)
    · have : (some ph).toList.filter
          (fun icon => !(oldApps.map (fun i => i.id)).contains icon.id) = [] := by
        rw [List.filter_eq_nil_iff]
        intro a ha
        have ha' : a = ph := by simpa using ha
        rw [ha', contains_eq_decide_mem, decide_eq_true hin]
        simp
      rw [this, List.map_nil, List.append_nil]
      exact hnd.sublist (hbase _)
    · have hfresh : PlaceholderFresh o e ph := (hph ph hp).resolve_left hin
      have hnot := placeholderFresh_not_loaded o e ph hfresh
      have : (some ph).toList.filter
          (fun icon => !(oldApps.map (fun i => i.id)).contains icon.id) = [ph] := by
        have hc : (!(oldApps.map (fun i => i.id)).contains ph.id) = true := by
          rw [contains_eq_decide_mem, decide_eq_false hin]; rfl
        show List.filter _ [ph] = [ph]
        rw [List.filter_cons]
        simp only [hc, if_true, List.filter_nil]
      rw [this, List.nodup_append]
      refine ⟨hnd.sublist (hbase _), by simp, ?_⟩
      intro x hx hx2
      have hx2' : x = ph.id := by simpa using hx2
      subst hx2'
      exact hnot ((hbase _).subset hx)

/-- C3. Starting from ordered items with pairwise distinct ids, after
`_redisplay` on the list `_loadApps` returns every id appears at most once among
the ordered items, also when `_loadApps` appends a drag placeholder (one that is
in the view already, or one that `_onDragBegin` has just made).  The inherited
grid methods are assumed to add, remove and move exactly the icon they are called
with, and the data read by `_loadApps` to be consistent. -/
theorem redisplay_ids_nodup (G : GridOps) (hG : G.KeepsItems) (h : Host) (o : Opts)
    (compareItems : Icon → Icon → Int) (getItemPosition : Icon → Int × Int)
    (e : LoadEnv) (he : e.WellFormed) (s : Grid)
    (hph : ∀ ph, e.placeholder = some ph →
      ph.id ∈ s.orderedItems.map (fun i => i.id) ∨ PlaceholderFresh o e ph)
    (hs : (s.orderedItems.map (fun i => i.id)).Nodup) :
    ((redisplay G h o e.fav compareItems getItemPosition (loadApps o e) s).orderedItems.map
      (fun i => i.id)).Nodup := by
  have hl := loadApps_new_ids_nodup o e he s.orderedItems hph
  have hadded : ((addedApps s.orderedItems (jsSort compareItems (loadApps o e))).map
      (fun i => i.id)).Nodup := by
    have hperm := ((jsSort_perm compareItems (loadApps o e)).filter
      (fun icon => !(s.orderedItems.map (fun i => i.id)).contains icon.id)).map
      (fun i => i.id)
    exact hperm.nodup_iff.mpr hl
  have hp := redisplay_orderedItems_perm G hG h o e.fav compareItems getItemPosition
    (loadApps o e) s hadded
  rw [(hp.map _).nodup_iff, List.map_append, List.nodup_append]
  refine ⟨hadded, hs.sublist ((List.diff_sublist _ _).map _), ?_⟩
  intro x hx hx2
  obtain ⟨a, ha, rfl⟩ := List.mem_map.mp hx
  obtain ⟨b, hb, hab⟩ := List.mem_map.mp hx2
  rw [mem_addedApps_iff] at ha
  apply ha.2
  rw [← hab]
  exact List.mem_map_of_mem _ ((List.diff_sublist _ _).subset hb)

theorem singlePageOps_keepsItems : singlePageOps.KeepsItems where
  removeItem := fun _ _ _ => List.Perm.refl _
  addItem := fun icon _ _ s _ => by
    show (s.orderedItems ++ [icon]).Perm (icon :: s.orderedItems)
    exact List.perm_append_comm
  moveItem := fun _ _ _ _ => List.Perm.refl _

/-- C3 witness: in manual order the app `x` sits in the visible folder `F` and
is being dragged out of it, so `_loadApps` returns the folder icon, the icon of
`yy` and the placeholder for `x`; the grid held the icon of `yy`. -/
theorem redisplay_ids_nodup_witness :
    singlePageOps.KeepsItems ∧
    LoadEnv.WellFormed
      { installed := [⟨"x", true, true⟩, ⟨"yy", true, true⟩],
        runningApps := [], fav := [],
        folderChildren := [⟨"F", true, ["x"]⟩],
        items := fun _ => none,
        newFolderIcon := fun id => ⟨id.length + 10, id, id, .folderIcon, false⟩,
        newAppIcon := fun id => ⟨id.length + 20, id, id, .appIcon, false⟩,
        placeholder := some ⟨7, "x", "X", .appIcon, false⟩ } ∧
    PlaceholderFresh ⟨0, false, false, false, false⟩
      { installed := [⟨"x", true, true⟩, ⟨"yy", true, true⟩],
        runningApps := [], fav := [],
        folderChildren := [⟨"F", true, ["x"]⟩],
        items := fun _ => none,
        newFolderIcon := fun id => ⟨id.length + 10, id, id, .folderIcon, false⟩,
        newAppIcon := fun id => ⟨id.length + 20, id, id, .appIcon, false⟩,
        placeholder := some ⟨7, "x", "X", .appIcon, false⟩ }
      ⟨7, "x", "X", .appIcon, false⟩ ∧
    ((redisplay singlePageOps ⟨fun n => n, fun _ _ => 0, fun _ _ => 0⟩
        ⟨0, false, false, false, false⟩ [] (fun _ _ => 0) (fun _ => (-1, -1))
        (loadApps ⟨0, false, false, false, false⟩
          { installed := [⟨"x", true, true⟩, ⟨"yy", true, true⟩],
            runningApps := [], fav := [],
            folderChildren := [⟨"F", true, ["x"]⟩],
            items := fun _ => none,
            newFolderIcon := fun id => ⟨id.length + 10, id, id, .folderIcon, false⟩,
            newAppIcon := fun id => ⟨id.length + 20, id, id, .appIcon, false⟩,
            placeholder := some ⟨7, "x", "X", .appIcon, false⟩ })
        ⟨[⟨22, "yy", "yy", .appIcon, false⟩], [[⟨22, "yy", "yy", .appIcon, false⟩]], 24⟩
      ).orderedItems.map (fun i => i.id)).Nodup :=
  have hwf : LoadEnv.WellFormed
      { installed := [⟨"x", true, true⟩, ⟨"yy", true, true⟩],
        runningApps := [], fav := [],
        folderChildren := [⟨"F", true, ["x"]⟩],
        items := fun _ => none,
        newFolderIcon := fun id => ⟨id.length + 10, id, id, .folderIcon, false⟩,
        newAppIcon := fun id => ⟨id.length + 20, id, id, .appIcon, false⟩,
        placeholder := some ⟨7, "x", "X", .appIcon, false⟩ } :=
    { installed_nodup := by decide
      folders_nodup := by decide
      folders_not_apps := by decide
      items_id := fun _ _ hi => by simp at hi
      newFolderIcon_id := fun _ => rfl
      newAppIcon_id := fun _ => rfl }
  have hfresh : PlaceholderFresh ⟨0, false, false, false, false⟩
      { installed := [⟨"x", true, true⟩, ⟨"yy", true, true⟩],
        runningApps := [], fav := [],
        folderChildren := [⟨"F", true, ["x"]⟩],
        items := fun _ => none,
        newFolderIcon := fun id => ⟨id.length + 10, id, id, .folderIcon, false⟩,
        newAppIcon := fun id => ⟨id.length + 20, id, id, .appIcon, false⟩,
        placeholder := some ⟨7, "x", "X", .appIcon, false⟩ }
      ⟨7, "x", "X", .appIcon, false⟩ :=
    ⟨by decide, ViewClass.folderView, by decide, fun _ => ⟨rfl, by decide⟩⟩
  ⟨singlePageOps_keepsItems, hwf, hfresh,
   redisplay_ids_nodup singlePageOps singlePageOps_keepsItems
     ⟨fun n => n, fun _ _ => 0, fun _ _ => 0⟩ ⟨0, false, false, false, false⟩
     (fun _ _ => 0) (fun _ => (-1, -1)) _ hwf
     ⟨[⟨22, "yy", "yy", .appIcon, false⟩], [[⟨22, "yy", "yy", .appIcon, false⟩]], 24⟩
     (fun ph hp => Or.inr (by
       simp only [Option.some.injEq] at hp
       subst hp
       exact hfresh))
     (by decide)⟩

/-! ### Complete pages -/

theorem dropItems_length_le (n : Nat) (later : List (List Icon)) :
    (dropItems n later).length ≤ later.length := by
  induction later generalizing n with
  | nil => simp [dropItems]
  | cons page rest ih =>
    unfold dropItems
    split
    · exact Nat.le_succ_of_le (ih _)
    · simp

theorem dropItems_mem (n : Nat) (later : List (List Icon)) (pg : List Icon)
    (h : pg ∈ dropItems n later) : ∃ pg' ∈ later, pg.length ≤ pg'.length := by
  induction later generalizing n with
  | nil => simp [dropItems] at h
  | cons page rest ih =>
    unfold dropItems at h
    split at h
    · obtain ⟨pg', h1, h2⟩ := ih _ h
      exact ⟨pg', List.mem_cons_of_mem _ h1, h2⟩
    · rcases List.mem_cons.mp h with rfl | h
      · exact ⟨page, List.mem_cons_self _ _, by simp⟩
      · exact ⟨pg, List.mem_cons_of_mem _ h, le_refl _⟩

theorem dropItems_ne_nil (n : Nat) (later : List (List Icon)) (h : dropItems n later ≠ []) :
    n ≤ later.flatten.length := by
  induction later generalizing n with
  | nil => simp [dropItems] at h
  | cons page rest ih =>
    unfold dropItems at h
    simp only [List.flatten_cons, List.length_append]
    split at h
    · have := ih _ h
      omega
    · omega

theorem fillPages_length_le (k p : Nat) (pages : List (List Icon)) :
    (fillPages k p pages).length ≤ pages.length := by
  induction p generalizing pages with
  | zero =>
    match pages with
    | [] => simp [fillPages]
    | [page] => simp [fillPages]
    | page :: next :: rest =>
      unfold fillPages
      split
      · exact le_refl _
      · have := dropItems_length_le (k - page.length) (next :: rest)
        simp only [List.length_cons] at this ⊢
        omega
  | succ p ih =>
    match pages with
    | [] => simp [fillPages]
    | page :: later =>
      simp only [fillPages, List.length_cons]
      exact Nat.succ_le_succ (ih later)

theorem fillPages_capacity (k p : Nat) (pages : List (List Icon))
    (hcap : ∀ pg ∈ pages, pg.length ≤ k) : ∀ pg ∈ fillPages k p pages, pg.length ≤ k := by
  induction p generalizing pages with
  | zero =>
    match pages with
    | [] => simp [fillPages]
    | [page] => simpa [fillPages] using hcap
    | page :: next :: rest =>
      unfold fillPages
      split
      · exact hcap
      · intro pg hpg
        rcases List.mem_cons.mp hpg with rfl | hpg
        · simp only [List.length_append, List.length_take]
          omega
        · obtain ⟨pg', h1, h2⟩ := dropItems_mem _ _ _ hpg
          exact le_trans h2 (hcap pg' (List.mem_cons_of_mem _ h1))
  | succ p ih =>
    match pages with
    | [] => simp [fillPages]
    | page :: later =>
      intro pg hpg
      simp only [fillPages] at hpg
      rcases List.mem_cons.mp hpg with rfl | hpg
      · exact hcap _ (List.mem_cons_self _ _)
      · exact ih later (fun q hq => hcap q (List.mem_cons_of_mem _ hq)) pg hpg

theorem fillPages_fullUpTo (k p : Nat) (pages : List (List Icon))
    (hcap : ∀ pg ∈ pages, pg.length ≤ k) (hfull : FullUpTo k p pages) :
    FullUpTo k (p + 1) (fillPages k p pages) := by
  induction p generalizing pages with
  | zero =>
    match pages with
    | [] => simp [fillPages, FullUpTo]
    | [page] => simp [fillPages, FullUpTo]
    | page :: next :: rest =>
      unfold fillPages
      have hpage := hcap page (List.mem_cons_self _ _)
      split
      · exact ⟨by omega, trivial⟩
      · cases hd : dropItems (k - page.length) (next :: rest) with
        | nil => simp [FullUpTo]
        | cons d ds =>
          have hne : dropItems (k - page.length) (next :: rest) ≠ [] := by simp [hd]
          have := dropItems_ne_nil _ _ hne
          refine ⟨?_, trivial⟩
          simp only [List.length_append, List.length_take]
          omega
  | succ p ih =>
    match pages with
    | [] => simp [fillPages, FullUpTo]
    | [page] => simp [fillPages, FullUpTo]
    | page :: next :: rest =>
      simp only [fillPages]
      have hrest := ih (next :: rest) (fun q hq => hcap q (List.mem_cons_of_mem _ hq)) hfull.2
      cases hx : fillPages k p (next :: rest) with
      | nil => simp [FullUpTo]
      | cons x xs =>
        rw [hx] at hrest
        exact ⟨hfull.1, hrest⟩

theorem allButLastFull_of_fullUpTo (k p : Nat) (pages : List (List Icon))
    (hfull : FullUpTo k p pages) (hlen : pages.length ≤ p + 1) : AllButLastFull k pages := by
  induction p generalizing pages with
  | zero =>
    match pages, hlen with
    | [], _ => trivial
    | [_], _ => trivial
  | succ p ih =>
    match pages, hfull, hlen with
    | [], _, _ => trivial
    | [_], _, _ => trivial
    | page :: next :: rest, hfull, hlen =>
      refine ⟨hfull.1, ih _ hfull.2 ?_⟩
      simp only [List.length_cons] at hlen ⊢
      omega

theorem fillLoop_itemsPerPage (fuel i : Nat) (s : Grid) :
    (fillLoop fuel i s).itemsPerPage = s.itemsPerPage := by
  induction fuel generalizing i s with
  | zero => rfl
  | succ fuel ih =>
    unfold fillLoop
    split
    · rw [ih]; rfl
    · rfl

theorem fillLoop_allButLastFull (fuel i : Nat) (s : Grid)
    (hcap : ∀ pg ∈ s.pages, pg.length ≤ s.itemsPerPage)
    (hfull : FullUpTo s.itemsPerPage i s.pages) (hfuel : s.pages.length ≤ i + fuel) :
    AllButLastFull s.itemsPerPage (fillLoop fuel i s).pages := by
  induction fuel generalizing i s with
  | zero =>
    show AllButLastFull s.itemsPerPage s.pages
    exact allButLastFull_of_fullUpTo _ i _ hfull (by omega)
  | succ fuel ih =>
    unfold fillLoop
    split
    · have h1 := ih (i + 1) (fillItemVacancies i s)
        (fillPages_capacity _ _ _ hcap) (fillPages_fullUpTo _ _ _ hcap hfull)
        (by
          have := fillPages_length_le s.itemsPerPage i s.pages
          show (fillPages s.itemsPerPage i s.pages).length ≤ i + 1 + fuel
          omega)
      exact h1
    · exact allButLastFull_of_fullUpTo _ i _ hfull (by omega)

theorem fillLoopVisited_eq_range (fuel i : Nat) (s : Grid) :
    fillLoopVisited fuel i s = List.range' i (fillLoopVisited fuel i s).length := by
  induction fuel generalizing i s with
  | zero => rfl
  | succ fuel ih =>
    unfold fillLoopVisited
    split
    · simp only [List.length_cons, List.range'_succ]
      rw [← ih]
    · rfl

theorem fillLoop_exit (fuel i : Nat) (s : Grid) (hfuel : s.pages.length ≤ i + fuel) :
    (fillLoop fuel i s).pages.length ≤ i + (fillLoopVisited fuel i s).length := by
  induction fuel generalizing i s with
  | zero => simpa [fillLoop, fillLoopVisited] using hfuel
  | succ fuel ih =>
    unfold fillLoop fillLoopVisited
    split
    · have := ih (i + 1) (fillItemVacancies i s) (by
        have := fillPages_length_le s.itemsPerPage i s.pages
        show (fillPages s.itemsPerPage i s.pages).length ≤ i + 1 + fuel
        omega)
      simp only [List.length_cons]
      omega
    · simp only [List.length_nil]
      omega

/-- C4. When incomplete pages are not allowed, after `_redisplay` every page
except the last holds exactly `itemsPerPage` items, provided the grid methods of
the shell left no page above its capacity; the vacancy-filling pass is applied to
the page indices `0, 1, 2, …` in turn and stops only at an index that is no longer
below the current number of pages. -/
theorem redisplay_complete_pages (G : GridOps) (h : Host) (o : Opts) (fav : List String)
    (compareItems : Icon → Icon → Int) (getItemPosition : Icon → Int × Int)
    (loaded : List Icon) (s : Grid)
    (hallow : o.APP_GRID_ALLOW_INCOMPLETE_PAGES = false)
    (hcap : ∀ page ∈
        (redisplayBeforeFill G h o fav compareItems getItemPosition loaded s).pages,
      page.length ≤
        (redisplayBeforeFill G h o fav compareItems getItemPosition loaded s).itemsPerPage) :
    AllButLastFull
        (redisplay G h o fav compareItems getItemPosition loaded s).itemsPerPage
        (redisplay G h o fav compareItems getItemPosition loaded s).pages ∧
    fillLoopVisited
        (redisplayBeforeFill G h o fav compareItems getItemPosition loaded s).pages.length 0
        (redisplayBeforeFill G h o fav compareItems getItemPosition loaded s) =
      List.range (fillLoopVisited
        (redisplayBeforeFill G h o fav compareItems getItemPosition loaded s).pages.length 0
        (redisplayBeforeFill G h o fav compareItems getItemPosition loaded s)).length ∧
    (redisplay G h o fav compareItems getItemPosition loaded s).pages.length ≤
      (fillLoopVisited
        (redisplayBeforeFill G h o fav compareItems getItemPosition loaded s).pages.length 0
        (redisplayBeforeFill G h o fav compareItems getItemPosition loaded s)).length := by
  unfold redisplay redisplayFill
  generalize redisplayBeforeFill G h o fav compareItems getItemPosition loaded s = s2 at hcap ⊢
  simp only [hallow, Bool.false_eq_true, if_false]
  refine ⟨?_, ?_, ?_⟩
  · rw [fillLoop_itemsPerPage]
    exact fillLoop_allButLastFull _ 0 s2 hcap trivial (by omega)
  · rw [List.range_eq_range']
    exact fillLoopVisited_eq_range _ 0 s2
  · have := fillLoop_exit s2.pages.length 0 s2 (by omega)
    omega

/-- C4 witness: three pages of one icon each and two slots per page become one
full page followed by the last page. -/
theorem redisplay_complete_pages_witness :
    (⟨0, false, false, false, false⟩ : Opts).APP_GRID_ALLOW_INCOMPLETE_PAGES = false ∧
    (redisplay singlePageOps ⟨fun n => n, fun _ _ => 0, fun _ _ => 0⟩
        ⟨0, false, false, false, false⟩ [] (fun _ _ => 0) (fun _ => (-1, -1))
        [⟨0, "a", "A", .appIcon, false⟩, ⟨1, "b", "B", .appIcon, false⟩,
          ⟨2, "c", "C", .appIcon, false⟩]
        ⟨[⟨0, "a", "A", .appIcon, false⟩, ⟨1, "b", "B", .appIcon, false⟩,
            ⟨2, "c", "C", .appIcon, false⟩],
          [[⟨0, "a", "A", .appIcon, false⟩], [⟨1, "b", "B", .appIcon, false⟩],
            [⟨2, "c", "C", .appIcon, false⟩]], 2⟩).pages =
      [[⟨0, "a", "A", .appIcon, false⟩, ⟨1, "b", "B", .appIcon, false⟩],
        [⟨2, "c", "C", .appIcon, false⟩]] ∧
    AllButLastFull 2
      (redisplay singlePageOps ⟨fun n => n, fun _ _ => 0, fun _ _ => 0⟩
        ⟨0, false, false, false, false⟩ [] (fun _ _ => 0) (fun _ => (-1, -1))
        [⟨0, "a", "A", .appIcon, false⟩, ⟨1, "b", "B", .appIcon, false⟩,
          ⟨2, "c", "C", .appIcon, false⟩]
        ⟨[⟨0, "a", "A", .appIcon, false⟩, ⟨1, "b", "B", .appIcon, false⟩,
            ⟨2, "c", "C", .appIcon, false⟩],
          [[⟨0, "a", "A", .appIcon, false⟩], [⟨1, "b", "B", .appIcon, false⟩],
            [⟨2, "c", "C", .appIcon, false⟩]], 2⟩).pages :=
  ⟨rfl, by decide,
   (redisplay_complete_pages singlePageOps ⟨fun n => n, fun _ _ => 0, fun _ _ => 0⟩
      ⟨0, false, false, false, false⟩ [] (fun _ _ => 0) (fun _ => (-1, -1))
      [⟨0, "a", "A", .appIcon, false⟩, ⟨1, "b", "B", .appIcon, false⟩,
        ⟨2, "c", "C", .appIcon, false⟩]
      ⟨[⟨0, "a", "A", .appIcon, false⟩, ⟨1, "b", "B", .appIcon, false⟩,
          ⟨2, "c", "C", .appIcon, false⟩],
        [[⟨0, "a", "A", .appIcon, false⟩], [⟨1, "b", "B", .appIcon, false⟩],
          [⟨2, "c", "C", .appIcon, false⟩]], 2⟩
      rfl (by decide)).1⟩

/-! ### Accepting drops -/

/-- C7. `AppIcon._canAccept` returns true if and only if the source (after an
active-preview source has been replaced by its `_sourceItem`) is not the icon
itself, is an instance of the icon's own class, lives in the root app grid view,
and manual order is in force (`APP_GRID_ORDER = 0`). -/
theorem appIcon_canAccept_iff (o : Opts) (self : Icon) (source : DragSource) :
    AppIcon.canAccept o self source = true ↔
      (source.unwrap.icon.ref ≠ self.ref ∧
        source.unwrap.icon.cls.isA self.cls = true ∧
        source.unwrap.view = ViewClass.appDisplay ∧
        o.APP_GRID_ORDER = 0) := by
  simp [AppIcon.canAccept, and_assoc]

/-- C8. Whenever the order is not manual (`APP_GRID_ORDER ≠ 0`), the view-level
`_canAccept` returns false for every source, and the `acceptDrop` of the root
grid, of the base view and of an item each reject the drop (they return `false`,
the item returns `NO_DROP`, which counts as false) without making any call: no
item is moved, no layout saved, no app removed from a folder or from the
favorites, so whatever state the calls act on is the same after the drop. -/
theorem drops_rejected_when_sorted (o : Opts) (h : o.APP_GRID_ORDER ≠ 0)
    (fav : List String) (st : DropState) (source : DragSource)
    (canAccept withinLeeways : Bool) :
    (∀ item : DragItem, BaseAppViewCommon.canAccept o item = false) ∧
    AppDisplayCommon.acceptDrop o fav st source =
      (DropResult.returns (JsValue.bool false), []) ∧
    BaseAppViewCommon.acceptDrop o st source =
      (DropResult.returns (JsValue.bool false), []) ∧
    AppViewItemCommon.acceptDrop o canAccept withinLeeways source =
      (DropResult.returns (JsValue.number DragMotionResult.NO_DROP), []) ∧
    (JsValue.number DragMotionResult.NO_DROP).truthy = false ∧
    (∀ (σ : Type) (step : DropEffect → σ → σ) (s : σ),
      runEffects step (AppDisplayCommon.acceptDrop o fav st source).2 s = s ∧
      runEffects step (BaseAppViewCommon.acceptDrop o st source).2 s = s ∧
      runEffects step (AppViewItemCommon.acceptDrop o canAccept withinLeeways source).2 s = s) := by
  have hc : ∀ item : DragItem, BaseAppViewCommon.canAccept o item = false := by
    intro item
    simp [BaseAppViewCommon.canAccept, h]
  have h1 : AppDisplayCommon.acceptDrop o fav st source =
      (DropResult.returns (JsValue.bool false), []) := by
    simp [AppDisplayCommon.acceptDrop, h]
  have h2 : BaseAppViewCommon.acceptDrop o st source =
      (DropResult.returns (JsValue.bool false), []) := by
    simp [BaseAppViewCommon.acceptDrop, hc]
  have h3 : AppViewItemCommon.acceptDrop o canAccept withinLeeways source =
      (DropResult.returns (JsValue.number DragMotionResult.NO_DROP), []) := by
    simp [AppViewItemCommon.acceptDrop, h]
  refine ⟨hc, h1, h2, h3, by decide, ?_⟩
  intro σ step s
  rw [h1, h2, h3]
  exact ⟨rfl, rfl, rfl⟩

/-- C8 witness: alphabetical order, a drop of an app icon on the next-page
indicator with a pending move. -/
theorem drops_rejected_when_sorted_witness :
    (⟨1, false, false, false, false⟩ : Opts).APP_GRID_ORDER ≠ 0 ∧
    AppDisplayCommon.acceptDrop ⟨1, false, false, false, false⟩ ["a"]
        ⟨44, DropTarget.nextPageIndicator, 0, some (1, 2), 0, 3, true, false⟩
        ⟨⟨⟨0, "a", "A", .appIcon, false⟩, ViewClass.appDisplay⟩, none⟩ =
      (DropResult.returns (JsValue.bool false), []) :=
  ⟨by decide,
   (drops_rejected_when_sorted ⟨1, false, false, false, false⟩ (by decide) ["a"]
      ⟨44, DropTarget.nextPageIndicator, 0, some (1, 2), 0, 3, true, false⟩
      ⟨⟨⟨0, "a", "A", .appIcon, false⟩, ViewClass.appDisplay⟩, none⟩ true false).2.1⟩

/-! ### Alphabetical order -/

theorem sortOrderedItemsAlphabetically_eq (h : Host) (icons : List Icon) :
    sortOrderedItemsAlphabetically h icons = jsSort (alphabeticalCompare h) icons := rfl

theorem consistentLocale_symm (h : Host) (hc : h.ConsistentLocale) (s t : String)
    (h0 : h.localeCompare s t = 0) : h.localeCompare t s = 0 := by
  have h1 := hc.antisymm s t
  have h2 := hc.antisymm t s
  rcases lt_trichotomy (h.localeCompare t s) 0 with hlt | heq | hgt
  · have := h1.mpr hlt
    omega
  · exact heq
  · have := h2.mp hgt
    omega

theorem alphabeticalCompare_total (h : Host) (hc : h.ConsistentLocale) :
    CmpTotal (alphabeticalCompare h) := by
  intro a b
  unfold alphabeticalCompare
  by_cases hab : h.localeCompare (h.toLowerCase a.name) (h.toLowerCase b.name) ≤ 0
  · exact Or.inl hab
  · exact Or.inr (le_of_lt ((hc.antisymm _ _).mp (by omega)))

theorem alphabeticalCompare_trans (h : Host) (hc : h.ConsistentLocale) :
    CmpTrans (alphabeticalCompare h) :=
  fun _ _ _ hab hbc => hc.trans _ _ _ hab hbc

theorem alphabeticalCompare_class (h : Host) (hc : h.ConsistentLocale) (key : String) :
    CmpClass (alphabeticalCompare h)
      (fun a => decide (h.localeCompare (h.toLowerCase a.name) key = 0)) := by
  intro a b ha hb
  have ha0 : h.localeCompare (h.toLowerCase a.name) key = 0 := by simpa using ha
  have hb0 : h.localeCompare (h.toLowerCase b.name) key = 0 := by simpa using hb
  have hb1 := consistentLocale_symm h hc _ _ hb0
  exact hc.trans _ _ _ (le_of_eq ha0) (le_of_eq hb1)

theorem lengthHost_consistentLocale : lengthHost.ConsistentLocale where
  antisymm := by
    intro s t
    show 0 < (s.length : Int) - (t.length : Int) ↔ (t.length : Int) - (s.length : Int) < 0
    omega
  trans := by
    intro s t u
    show (s.length : Int) - (t.length : Int) ≤ 0 → (t.length : Int) - (u.length : Int) ≤ 0 →
      (s.length : Int) - (u.length : Int) ≤ 0
    omega

/-- C11. For a host whose `localeCompare` is a consistent comparator, the result
of `_sortOrderedItemsAlphabetically` is a rearrangement of the input, it is
non-decreasing under the locale comparison of the lower-cased names, and the
items whose lower-cased names compare equal (to each other, hence to a common
key) keep their input order. -/
theorem sortOrderedItemsAlphabetically_stable_sort (h : Host) (hc : h.ConsistentLocale)
    (icons : List Icon) :
    (sortOrderedItemsAlphabetically h icons).Perm icons ∧
    (sortOrderedItemsAlphabetically h icons).Pairwise
      (fun a b => h.localeCompare (h.toLowerCase a.name) (h.toLowerCase b.name) ≤ 0) ∧
    (∀ key : String,
      (sortOrderedItemsAlphabetically h icons).filter
          (fun a => decide (h.localeCompare (h.toLowerCase a.name) key = 0)) =
        icons.filter (fun a => decide (h.localeCompare (h.toLowerCase a.name) key = 0))) :=
  ⟨jsSort_perm _ _,
   jsSort_sorted (alphabeticalCompare h) (alphabeticalCompare_total h hc)
     (alphabeticalCompare_trans h hc) icons,
   fun key => jsSort_filter (alphabeticalCompare h) (alphabeticalCompare_total h hc)
     (alphabeticalCompare_trans h hc) _ (alphabeticalCompare_class h hc key) icons⟩

/-- C11 witness: three names of lengths 3, 1, 3 under the length host; the two
names of length 3 tie with the key `"abc"` and keep their order. -/
theorem sortOrderedItemsAlphabetically_stable_sort_witness :
    lengthHost.ConsistentLocale ∧
    (sortOrderedItemsAlphabetically lengthHost
        [⟨0, "a", "xyz", .appIcon, false⟩, ⟨1, "b", "q", .appIcon, false⟩,
          ⟨2, "c", "abc", .appIcon, false⟩]).filter
        (fun a => decide (lengthHost.localeCompare (lengthHost.toLowerCase a.name) "abc" = 0)) =
      [⟨0, "a", "xyz", .appIcon, false⟩, ⟨2, "c", "abc", .appIcon, false⟩] :=
  ⟨lengthHost_consistentLocale,
   ((sortOrderedItemsAlphabetically_stable_sort lengthHost lengthHost_consistentLocale
      [⟨0, "a", "xyz", .appIcon, false⟩, ⟨1, "b", "q", .appIcon, false⟩,
        ⟨2, "c", "abc", .appIcon, false⟩]).2.2 "abc").trans (by decide)⟩

/-! ### Sorting an array that is already in order -/

section SortedInput
variable {α : Type} (cmp : α → α → Int)

theorem insertItem_of_le (x : α) (acc : List α) (h : ∀ a ∈ acc, cmp a x ≤ 0) :
    insertItem cmp x acc = x :: acc := by
  cases acc with
  | nil => rfl
  | cons swap rest =>
    unfold insertItem
    rw [if_pos (h swap (List.mem_cons_self _ _))]

theorem insertionFold_of_sorted (l : List α) :
    ∀ acc : List α, (∀ a ∈ acc, ∀ b ∈ l, cmp a b ≤ 0) →
      l.Pairwise (fun a b => cmp a b ≤ 0) →
      l.foldl (fun acc item => insertItem cmp item acc) acc = l.reverse ++ acc := by
  induction l with
  | nil => intro acc _ _; rfl
  | cons x xs ih =>
    intro acc hacc hl
    rw [List.foldl_cons, insertItem_of_le cmp x acc (fun a ha => hacc a ha x (List.mem_cons_self _ _))]
    rw [List.pairwise_cons] at hl
    rw [ih (x :: acc) _ hl.2]
    · simp
    · intro a ha b hb
      rcases List.mem_cons.mp ha with rfl | ha
      · exact hl.1 b hb
      · exact hacc a ha b (List.mem_cons_of_mem _ hb)

theorem insertionSort_of_sorted (l : List α) (hl : l.Pairwise (fun a b => cmp a b ≤ 0)) :
    insertionSort cmp l = l := by
  unfold insertionSort
  rw [insertionFold_of_sorted cmp l [] (fun a ha => by simp at ha) hl]
  simp

theorem mergeStep_of_sorted (left right : List α)
    (h : (left ++ right).Pairwise (fun a b => cmp a b ≤ 0)) :
    mergeStep cmp left right = left ++ right := by
  unfold mergeStep
  split
  · rename_i a b ha hb
    have ha1 : a ∈ left := List.mem_of_getLast?_eq_some ha
    have hb1 : b ∈ right := List.mem_of_mem_head? hb
    rw [if_pos ((List.pairwise_append.mp h).2.2 a ha1 b hb1)]
  · rfl

theorem mergePairs_of_sorted (runs : List (List α))
    (h : runs.flatten.Pairwise (fun a b => cmp a b ≤ 0)) :
    (mergePairs cmp runs).flatten = runs.flatten := by
  induction runs using mergePairs.induct cmp with
  | case1 left right rest ih =>
    simp only [List.flatten_cons, ← List.append_assoc] at h
    simp only [mergePairs, List.flatten_cons, ← List.append_assoc]
    rw [mergeStep_of_sorted cmp left right (List.pairwise_append.mp h).1,
      ih (List.pairwise_append.mp h).2.1]
  | case2 rest hne =>
    rw [mergePairs]
    exact hne

theorem mergeRounds_of_sorted (fuel : Nat) (runs : List (List α))
    (h : runs.flatten.Pairwise (fun a b => cmp a b ≤ 0)) :
    (mergeRounds cmp fuel runs).flatten = runs.flatten := by
  induction fuel generalizing runs with
  | zero => rfl
  | succ fuel ih =>
    unfold mergeRounds
    split
    · rfl
    · rw [ih _ (by rw [mergePairs_of_sorted cmp runs h]; exact h),
        mergePairs_of_sorted cmp runs h]

/-- Sorting leaves an array alone when every element already compares `<= 0`
with every later one; nothing is required of the comparator. -/
theorem jsSort_of_sorted (l : List α) (hl : l.Pairwise (fun a b => cmp a b ≤ 0)) :
    jsSort cmp l = l := by
  unfold jsSort
  split
  · exact insertionSort_of_sorted cmp l hl
  · have hw : (windows4 l).map (insertionSort cmp) = windows4 l := by
      have hmem : ∀ w ∈ windows4 l, insertionSort cmp w = w := by
        intro w hw
        apply insertionSort_of_sorted
        have hsub : w.Sublist (windows4 l).flatten := List.sublist_flatten_of_mem hw
        rw [windows4_flatten] at hsub
        exact hl.sublist hsub
      exact (List.map_congr_left hmem).trans (List.map_id _)
    rw [hw, mergeRounds_of_sorted cmp _ _ (by rw [windows4_flatten]; exact hl),
      windows4_flatten]

end SortedInput

/-! ### Manual order -/

/-- C12 (as stated) fails: in manual mode, with the loaded list `[B, A]` and a
`_compareItems` that puts `A` before `B`, the icons are added in the order
`A, B` and the view ends with the order `[A, B]`, not with the order of the
loaded list: the loaded list is sorted with `_compareItems` in every mode. -/
theorem redisplay_manual_sorts_loaded :
    redisplayOps (fun _ => (0, 0)) []
        (jsSort (fun a b => (a.ref : Int) - (b.ref : Int))
          [⟨1, "b", "B", .appIcon, false⟩, ⟨0, "a", "A", .appIcon, false⟩]) =
      [GridOp.addItem ⟨0, "a", "A", .appIcon, false⟩ 0 0,
        GridOp.addItem ⟨1, "b", "B", .appIcon, false⟩ 0 0] ∧
    (redisplay singlePageOps lengthHost ⟨0, false, true, false, false⟩ []
        (fun a b => (a.ref : Int) - (b.ref : Int)) (fun _ => (0, 0))
        [⟨1, "b", "B", .appIcon, false⟩, ⟨0, "a", "A", .appIcon, false⟩]
        ⟨[], [], 24⟩).orderedItems ≠
      [⟨1, "b", "B", .appIcon, false⟩, ⟨0, "a", "A", .appIcon, false⟩] := by
  decide

/-- C12 (amended). In manual mode (`APP_GRID_ORDER = 0`) `_redisplay` applies
none of the alphabetical, usage, favorites and running sorts to the ordered
items and does not call `_setLinearPositions`: the view is left as the
reconciliation loops produced it, up to the vacancy-filling pass.  The loaded
list itself is sorted with `_compareItems` in every mode; the order of the
loaded items is the order of reconciliation exactly when it is already in
`_compareItems` order, and is a rearrangement of it otherwise. -/
theorem redisplay_manual_order (G : GridOps) (h : Host) (o : Opts) (fav : List String)
    (compareItems : Icon → Icon → Int) (getItemPosition : Icon → Int × Int)
    (loaded : List Icon) (s : Grid) (hmode : o.APP_GRID_ORDER = 0) :
    redisplaySorted G h o fav s = s ∧
    redisplayBeforeFill G h o fav compareItems getItemPosition loaded s =
      redisplayReconciled G compareItems getItemPosition loaded s ∧
    redisplay G h o fav compareItems getItemPosition loaded s =
      redisplayFill o (redisplayReconciled G compareItems getItemPosition loaded s) ∧
    (jsSort compareItems loaded).Perm loaded ∧
    (loaded.Pairwise (fun a b => compareItems a b ≤ 0) →
      redisplayReconciled G compareItems getItemPosition loaded s =
        (redisplayOps getItemPosition s.orderedItems loaded).foldl
          (fun s op => applyOp G op s) s) := by
  have hs : ∀ s' : Grid, redisplaySorted G h o fav s' = s' := by
    intro s'
    unfold redisplaySorted
    rw [if_neg (by omega)]
  refine ⟨hs s, ?_, ?_, jsSort_perm _ _, ?_⟩
  · exact hs _
  · unfold redisplay
    exact congrArg _ (hs _)
  · intro hl
    unfold redisplayReconciled
    rw [jsSort_of_sorted compareItems loaded hl]

/-- C12 (amended) witness: manual mode, one icon held and one loaded in
addition. -/
theorem redisplay_manual_order_witness :
    (⟨0, false, true, false, false⟩ : Opts).APP_GRID_ORDER = 0 ∧
    redisplay singlePageOps lengthHost ⟨0, false, true, false, false⟩ []
        (fun a b => (a.ref : Int) - (b.ref : Int)) (fun _ => (0, 0))
        [⟨0, "a", "A", .appIcon, false⟩, ⟨1, "b", "B", .appIcon, false⟩]
        ⟨[⟨0, "a", "A", .appIcon, false⟩], [[⟨0, "a", "A", .appIcon, false⟩]], 24⟩ =
      redisplayFill ⟨0, false, true, false, false⟩
        (redisplayReconciled singlePageOps (fun a b => (a.ref : Int) - (b.ref : Int))
          (fun _ => (0, 0))
          [⟨0, "a", "A", .appIcon, false⟩, ⟨1, "b", "B", .appIcon, false⟩]
          ⟨[⟨0, "a", "A", .appIcon, false⟩], [[⟨0, "a", "A", .appIcon, false⟩]], 24⟩) :=
  ⟨rfl,
   (redisplay_manual_order singlePageOps lengthHost ⟨0, false, true, false, false⟩ []
      (fun a b => (a.ref : Int) - (b.ref : Int)) (fun _ => (0, 0))
      [⟨0, "a", "A", .appIcon, false⟩, ⟨1, "b", "B", .appIcon, false⟩]
      ⟨[⟨0, "a", "A", .appIcon, false⟩], [[⟨0, "a", "A", .appIcon, false⟩]], 24⟩ rfl).2.2.1⟩

/-! ### The moves of the reconciliation -/

theorem removeOps_filterMap_moveTarget (l : List Icon) :
    ((l.map (fun icon => [GridOp.removeItem icon, GridOp.destroy icon])).flatten).filterMap
      GridOp.moveTarget = [] := by
  induction l with
  | nil => rfl
  | cons a l ih =>
    simp only [List.map_cons, List.flatten_cons, List.filterMap_append, ih]
    rfl

theorem addOps_filterMap_moveTarget (g : Icon → Int × Int) (added l : List Icon) :
    (l.filterMap (addOrMove g added)).filterMap GridOp.moveTarget =
      (l.filter (fun icon =>
          !added.contains icon && decide ((g icon).1 ≠ -1 ∧ (g icon).2 ≠ -1))).map
        (fun icon => (⟨icon, (g icon).1, (g icon).2⟩ : MoveRequest)) := by
  induction l with
  | nil => rfl
  | cons a l ih =>
    cases hc : added.contains a
    · by_cases hp : (g a).1 ≠ -1 ∧ (g a).2 ≠ -1
      · have h1 : addOrMove g added a = some (GridOp.moveItem a (g a).1 (g a).2) := by
          simp only [addOrMove, hc]
          simp [hp]
        simp only [List.filterMap_cons, h1, GridOp.moveTarget, List.filter_cons, hc, ih]
        simp [hp]
      · have h1 : addOrMove g added a = none := by
          simp only [addOrMove, hc, if_neg hp]
          simp
        simp only [List.filterMap_cons, h1, List.filter_cons, hc, ih]
        simp [hp]
    · have h1 : addOrMove g added a = some (GridOp.addItem a (g a).1 (g a).2) := by
        simp only [addOrMove, hc]
        simp
      simp only [List.filterMap_cons, h1, GridOp.moveTarget, List.filter_cons, hc, ih]
      simp

theorem redisplayOps_moves (g : Icon → Int × Int) (oldApps newApps : List Icon) :
    (redisplayOps g oldApps newApps).filterMap GridOp.moveTarget =
      (newApps.filter (fun icon =>
          decide (icon.id ∈ oldApps.map (fun i => i.id) ∧
            (g icon).1 ≠ -1 ∧ (g icon).2 ≠ -1))).map
        (fun icon => (⟨icon, (g icon).1, (g icon).2⟩ : MoveRequest)) := by
  simp only [redisplayOps, List.filterMap_append, removeOps_filterMap_moveTarget,
    addOps_filterMap_moveTarget, List.nil_append]
  congr 1
  apply List.filter_congr
  intro icon hicon
  by_cases h : icon.id ∈ oldApps.map (fun i => i.id)
  · have : icon ∉ addedApps oldApps newApps := by
      rw [mem_addedApps_iff]; exact fun hh => hh.2 h
    rw [contains_eq_decide_mem, decide_eq_false this]
    simp [h]
  · have : icon ∈ addedApps oldApps newApps := by
      rw [mem_addedApps_iff]; exact ⟨hicon, h⟩
    rw [contains_eq_decide_mem, decide_eq_true this]
    simp [h]

/-- C13 (as stated) fails: with previous `[A, B, C]` and loaded `[B, C, D]`, the
icons `B` and `C` sit at their targets `(0, 0)` and `(0, 1)` once `A` has been
removed, and `_redisplay` still issues a move for each of them; likewise with
previous and loaded `[B, C]`, where nothing changes at all. -/
theorem redisplay_moves_items_in_place :
    redisplayOps (fun icon => if icon.ref = 0 then (-1, -1) else (0, (icon.ref : Int) - 1))
        [⟨0, "a", "A", .appIcon, false⟩, ⟨1, "b", "B", .appIcon, false⟩,
          ⟨2, "c", "C", .appIcon, false⟩]
        (jsSort (fun a b => (a.ref : Int) - (b.ref : Int))
          [⟨1, "b", "B", .appIcon, false⟩, ⟨2, "c", "C", .appIcon, false⟩,
            ⟨3, "d", "D", .appIcon, false⟩]) =
      [GridOp.removeItem ⟨0, "a", "A", .appIcon, false⟩,
        GridOp.destroy ⟨0, "a", "A", .appIcon, false⟩,
        GridOp.moveItem ⟨1, "b", "B", .appIcon, false⟩ 0 0,
        GridOp.moveItem ⟨2, "c", "C", .appIcon, false⟩ 0 1,
        GridOp.addItem ⟨3, "d", "D", .appIcon, false⟩ 0 2] ∧
    gridPosition
        (singlePageOps.removeItem ⟨0, "a", "A", .appIcon, false⟩
          ⟨[⟨0, "a", "A", .appIcon, false⟩, ⟨1, "b", "B", .appIcon, false⟩,
              ⟨2, "c", "C", .appIcon, false⟩],
            [[⟨0, "a", "A", .appIcon, false⟩, ⟨1, "b", "B", .appIcon, false⟩,
              ⟨2, "c", "C", .appIcon, false⟩]], 24⟩).pages
        ⟨1, "b", "B", .appIcon, false⟩ = (0, 0) ∧
    gridPosition
        (singlePageOps.removeItem ⟨0, "a", "A", .appIcon, false⟩
          ⟨[⟨0, "a", "A", .appIcon, false⟩, ⟨1, "b", "B", .appIcon, false⟩,
              ⟨2, "c", "C", .appIcon, false⟩],
            [[⟨0, "a", "A", .appIcon, false⟩, ⟨1, "b", "B", .appIcon, false⟩,
              ⟨2, "c", "C", .appIcon, false⟩]], 24⟩).pages
        ⟨2, "c", "C", .appIcon, false⟩ = (0, 1) ∧
    redisplayOps (gridPosition [[⟨1, "b", "B", .appIcon, false⟩, ⟨2, "c", "C", .appIcon, false⟩]])
        [⟨1, "b", "B", .appIcon, false⟩, ⟨2, "c", "C", .appIcon, false⟩]
        (jsSort (fun a b => (a.ref : Int) - (b.ref : Int))
          [⟨1, "b", "B", .appIcon, false⟩, ⟨2, "c", "C", .appIcon, false⟩]) =
      [GridOp.moveItem ⟨1, "b", "B", .appIcon, false⟩ 0 0,
        GridOp.moveItem ⟨2, "c", "C", .appIcon, false⟩ 0 1] := by
  decide

/-- C13 (amended). `_redisplay` issues a move for every icon of the new order
whose id was among the previous ids and for which `_getItemPosition` returns a
page and a position other than `-1`, whether or not the icon already sits
there, to the page and position `_getItemPosition` returns; no other move is
issued by the reconciliation loops.  The moves are issued in the order of the
new list, i.e. of the loaded list sorted with `_compareItems`; this is ascending
target-index order when `_compareItems` is a consistent comparator that agrees
with the target index. -/
theorem redisplay_moves_in_new_order (getItemPosition : Icon → Int × Int)
    (compareItems : Icon → Icon → Int) (oldApps loaded : List Icon) :
    (redisplayOps getItemPosition oldApps (jsSort compareItems loaded)).filterMap
        GridOp.moveTarget =
      ((jsSort compareItems loaded).filter (fun icon =>
          decide (icon.id ∈ oldApps.map (fun i => i.id) ∧
            (getItemPosition icon).1 ≠ -1 ∧ (getItemPosition icon).2 ≠ -1))).map
        (fun icon => (⟨icon, (getItemPosition icon).1, (getItemPosition icon).2⟩ :
          MoveRequest)) ∧
    (∀ itemsPerPage : Nat, CmpTotal compareItems → CmpTrans compareItems →
      (∀ a b, compareItems a b ≤ 0 →
        linearIndex itemsPerPage ⟨a, (getItemPosition a).1, (getItemPosition a).2⟩ ≤
          linearIndex itemsPerPage ⟨b, (getItemPosition b).1, (getItemPosition b).2⟩) →
      ((redisplayOps getItemPosition oldApps (jsSort compareItems loaded)).filterMap
          GridOp.moveTarget).Pairwise
        (fun r₁ r₂ => linearIndex itemsPerPage r₁ ≤ linearIndex itemsPerPage r₂)) := by
  refine ⟨redisplayOps_moves _ _ _, ?_⟩
  intro itemsPerPage htot htr hagree
  rw [redisplayOps_moves, List.pairwise_map]
  exact ((jsSort_sorted compareItems htot htr loaded).imp
    (fun {a b} hab => hagree a b hab)).sublist (List.filter_sublist _)

/-! ### Calls that throw -/

theorem runReconciliation_prefix (step : GridOp → Grid → Option Grid) (ops : List GridOp) :
    ∀ s : Grid, (runReconciliation step ops s).executed <+: ops ∧
      ((runReconciliation step ops s).escaped = true →
        (runReconciliation step ops s).executed.length < ops.length) ∧
      ((runReconciliation step ops s).escaped = false →
        (runReconciliation step ops s).executed = ops) := by
  induction ops with
  | nil => intro s; simp [runReconciliation]
  | cons op rest ih =>
    intro s
    unfold runReconciliation
    cases hstep : step op s with
    | none => simp
    | some s' =>
      obtain ⟨h1, h2, h3⟩ := ih s'
      refine ⟨?_, ?_, ?_⟩
      · simpa using h1
      · intro hesc
        have := h2 hesc
        simp only [List.length_cons]
        omega
      · intro hesc
        simp only [h3 hesc]

theorem runSetLinearPositions_complete (step : GridOp → Grid → Option Grid)
    (requests : List MoveRequest) :
    ∀ s : Grid, (runSetLinearPositions step requests s).escaped = false ∧
      (runSetLinearPositions step requests s).executed.length +
        (runSetLinearPositions step requests s).logged.length = requests.length := by
  induction requests with
  | nil => intro s; simp [runSetLinearPositions]
  | cons r rest ih =>
    intro s
    unfold runSetLinearPositions
    cases hstep : step (GridOp.moveItem r.icon r.page r.position) s with
    | none =>
      obtain ⟨h1, h2⟩ := ih s
      refine ⟨h1, ?_⟩
      simp only [List.length_cons]
      omega
    | some s' =>
      obtain ⟨h1, h2⟩ := ih s'
      refine ⟨h1, ?_⟩
      simp only [List.length_cons]
      omega

/-- When no call throws, the loops with calls that can throw do what the loops
of `redisplayReconciled` do. -/
theorem runReconciliation_total (G : GridOps) (ops : List GridOp) :
    ∀ s : Grid, runReconciliation (fun op s => some (applyOp G op s)) ops s =
      ⟨ops.foldl (fun s op => applyOp G op s) s, ops, [], false⟩ := by
  induction ops with
  | nil => intro s; rfl
  | cons op rest ih =>
    intro s
    simp only [runReconciliation, ih, List.foldl_cons]

/-- C14 fails for the loops of `_redisplay`.  With previous `[A, B, C]` and
loaded `[B, C, D]`, when `_removeItem(A)` throws no call of the reconciliation
is completed, the exception leaves `_redisplay`, and `D` is never added; when
`_moveItem(B, 0, 0)` throws the calls for `C` and `D` are not made.  In
general an exception leaves the loops as soon as one call throws, and the calls
completed are then a proper initial part of the calls due.  The loop of
`_setLinearPositions` does catch: it attempts every move and no exception
leaves it. -/
theorem redisplay_aborts_on_failure :
    runReconciliation (throwingOn (GridOp.removeItem ⟨0, "a", "A", .appIcon, false⟩))
        (redisplayOps (fun icon => if icon.ref = 0 then (-1, -1) else (0, (icon.ref : Int) - 1))
          [⟨0, "a", "A", .appIcon, false⟩, ⟨1, "b", "B", .appIcon, false⟩,
            ⟨2, "c", "C", .appIcon, false⟩]
          (jsSort (fun a b => (a.ref : Int) - (b.ref : Int))
            [⟨1, "b", "B", .appIcon, false⟩, ⟨2, "c", "C", .appIcon, false⟩,
              ⟨3, "d", "D", .appIcon, false⟩]))
        ⟨[⟨0, "a", "A", .appIcon, false⟩, ⟨1, "b", "B", .appIcon, false⟩,
            ⟨2, "c", "C", .appIcon, false⟩],
          [[⟨0, "a", "A", .appIcon, false⟩, ⟨1, "b", "B", .appIcon, false⟩,
            ⟨2, "c", "C", .appIcon, false⟩]], 24⟩ =
      ⟨⟨[⟨0, "a", "A", .appIcon, false⟩, ⟨1, "b", "B", .appIcon, false⟩,
            ⟨2, "c", "C", .appIcon, false⟩],
          [[⟨0, "a", "A", .appIcon, false⟩, ⟨1, "b", "B", .appIcon, false⟩,
            ⟨2, "c", "C", .appIcon, false⟩]], 24⟩, [], [], true⟩ ∧
    (runReconciliation (throwingOn (GridOp.moveItem ⟨1, "b", "B", .appIcon, false⟩ 0 0))
        (redisplayOps (fun icon => if icon.ref = 0 then (-1, -1) else (0, (icon.ref : Int) - 1))
          [⟨0, "a", "A", .appIcon, false⟩, ⟨1, "b", "B", .appIcon, false⟩,
            ⟨2, "c", "C", .appIcon, false⟩]
          (jsSort (fun a b => (a.ref : Int) - (b.ref : Int))
            [⟨1, "b", "B", .appIcon, false⟩, ⟨2, "c", "C", .appIcon, false⟩,
              ⟨3, "d", "D", .appIcon, false⟩]))
        ⟨[⟨0, "a", "A", .appIcon, false⟩, ⟨1, "b", "B", .appIcon, false⟩,
            ⟨2, "c", "C", .appIcon, false⟩],
          [[⟨0, "a", "A", .appIcon, false⟩, ⟨1, "b", "B", .appIcon, false⟩,
            ⟨2, "c", "C", .appIcon, false⟩]], 24⟩) =
      ⟨⟨[⟨1, "b", "B", .appIcon, false⟩, ⟨2, "c", "C", .appIcon, false⟩],
          [[⟨1, "b", "B", .appIcon, false⟩, ⟨2, "c", "C", .appIcon, false⟩]], 24⟩,
        [GridOp.removeItem ⟨0, "a", "A", .appIcon, false⟩,
          GridOp.destroy ⟨0, "a", "A", .appIcon, false⟩], [], true⟩ ∧
    (∀ (step : GridOp → Grid → Option Grid) (ops : List GridOp) (s : Grid),
      (runReconciliation step ops s).executed <+: ops ∧
      ((runReconciliation step ops s).escaped = true →
        (runReconciliation step ops s).executed.length < ops.length) ∧
      ((runReconciliation step ops s).escaped = false →
        (runReconciliation step ops s).executed = ops)) ∧
    (∀ (step : GridOp → Grid → Option Grid) (requests : List MoveRequest) (s : Grid),
      (runSetLinearPositions step requests s).escaped = false ∧
      (runSetLinearPositions step requests s).executed.length +
        (runSetLinearPositions step requests s).logged.length = requests.length) ∧
    runSetLinearPositions (throwingOn (GridOp.moveItem ⟨0, "a", "A", .appIcon, false⟩ 0 0))
        (setLinearPositions 24
          [⟨0, "a", "A", .appIcon, false⟩, ⟨1, "b", "B", .appIcon, false⟩])
        ⟨[⟨0, "a", "A", .appIcon, false⟩, ⟨1, "b", "B", .appIcon, false⟩],
          [[⟨0, "a", "A", .appIcon, false⟩, ⟨1, "b", "B", .appIcon, false⟩]], 24⟩ =
      ⟨⟨[⟨0, "a", "A", .appIcon, false⟩, ⟨1, "b", "B", .appIcon, false⟩],
          [[⟨0, "a", "A", .appIcon, false⟩, ⟨1, "b", "B", .appIcon, false⟩]], 24⟩,
        [GridOp.moveItem ⟨1, "b", "B", .appIcon, false⟩ 0 1],
        [GridOp.moveItem ⟨0, "a", "A", .appIcon, false⟩ 0 0], false⟩ :=
  ⟨by decide, by decide,
   fun step ops s => runReconciliation_prefix step ops s,
   fun step requests s => runSetLinearPositions_complete step requests s,
   by decide⟩

/-! ### Folder members and the root grid -/

theorem loadEnv_icon_id (e : LoadEnv) (he : e.WellFormed) (mk : String → Icon)
    (hmk : ∀ id, (mk id).id = id) (id : String) : ((e.items id).getD (mk id)).id = id := by
  cases hi : e.items id with
  | none => simpa using hmk id
  | some icon => simpa using he.items_id id icon hi

theorem folderDragEnv_wellFormed : folderDragEnv.WellFormed where
  installed_nodup := by decide
  folders_nodup := by decide
  folders_not_apps := by decide
  items_id := fun _ _ hi => by simp [folderDragEnv] at hi
  newFolderIcon_id := fun _ => rfl
  newAppIcon_id := fun _ => rfl

/-- C15 (as stated) fails: in manual mode, while the app `x` of the visible
folder `F` is dragged, the root `_loadApps` returns the placeholder, which is an
app icon for `x`. -/
theorem loadApps_returns_placeholder_of_folder_member :
    "x" ∈ appsInsideFolders ⟨0, false, false, false, false⟩ folderDragEnv ∧
    loadApps ⟨0, false, false, false, false⟩ folderDragEnv =
      [⟨11, "F", "F", .folderIcon, false⟩, ⟨22, "yy", "yy", .appIcon, false⟩,
        ⟨7, "x", "X", .appIcon, false⟩] ∧
    (⟨7, "x", "X", .appIcon, false⟩ : Icon) ∈
      loadApps ⟨0, false, false, false, false⟩ folderDragEnv := by
  decide

/-- C15 (amended). For consistent data: in manual mode an app id that belongs
to a visible folder gets no app icon of its own from the root `_loadApps`, and
the only icon with that id the method can return is the drag placeholder (or
the icon of a visible folder, should a folder carry that id).  In the sorted
modes no folder is looked at: the result is one icon for every filtered
installed app, in the order of the installed list, followed by the placeholder
if there is one; it holds no folder icon when neither the stored icons of the
installed apps, nor the new app icons, nor the placeholder are folder icons. -/
theorem loadApps_folder_members (o : Opts) (e : LoadEnv) (he : e.WellFormed) :
    (o.APP_GRID_ORDER = 0 → ∀ appId ∈ appsInsideFolders o e,
      appId ∉ rootAppIds o e ∧
      ∀ icon ∈ loadApps o e, icon.id = appId →
        e.placeholder = some icon ∨ appId ∈ (visibleFolders o e).map (fun f => f.id)) ∧
    (o.APP_GRID_ORDER ≠ 0 →
      visibleFolders o e = [] ∧
      loadApps o e =
        (appInfoList o e).map (fun a => (e.items a.id).getD (e.newAppIcon a.id)) ++
          e.placeholder.toList ∧
      ((∀ a ∈ e.installed, ∀ icon, e.items a.id = some icon → icon.cls ≠ .folderIcon) →
        (∀ id, (e.newAppIcon id).cls ≠ .folderIcon) →
        (∀ ph, e.placeholder = some ph → ph.cls ≠ .folderIcon) →
        ∀ icon ∈ loadApps o e, icon.cls ≠ .folderIcon)) := by
  constructor
  · intro hmode appId hin
    have hroot : appId ∉ rootAppIds o e := by
      intro hmem
      unfold rootAppIds at hmem
      have hp := (List.mem_filter.mp hmem).2
      rw [contains_eq_decide_mem, decide_eq_true hmode, decide_eq_true hin] at hp
      exact absurd hp (by decide)
    refine ⟨hroot, ?_⟩
    intro icon hicon hid
    unfold loadApps at hicon
    rcases List.mem_append.mp hicon with h1 | h1
    · rcases List.mem_append.mp h1 with h2 | h2
      · right
        obtain ⟨f, hf, rfl⟩ := List.mem_map.mp h2
        rw [loadEnv_icon_id e he e.newFolderIcon he.newFolderIcon_id f.id] at hid
        exact List.mem_map.mpr ⟨f, hf, hid⟩
      · obtain ⟨a, ha, rfl⟩ := List.mem_map.mp h2
        rw [loadEnv_icon_id e he e.newAppIcon he.newAppIcon_id a] at hid
        exact absurd (hid ▸ ha) hroot
    · left
      cases hp : e.placeholder with
      | none => rw [hp] at h1; simp at h1
      | some ph =>
        rw [hp] at h1
        simp only [Option.toList, List.mem_singleton] at h1
        rw [h1]
  · intro hmode
    have hvis : visibleFolders o e = [] := by
      unfold visibleFolders
      rw [if_neg hmode]
    have hroot : rootAppIds o e = (appInfoList o e).map (fun a => a.id) := by
      unfold rootAppIds
      rw [List.filter_eq_self]
      intro a _
      rw [decide_eq_false hmode]
      rfl
    have hload : loadApps o e =
        (appInfoList o e).map (fun a => (e.items a.id).getD (e.newAppIcon a.id)) ++
          e.placeholder.toList := by
      unfold loadApps
      rw [hvis, hroot, List.map_map]
      rfl
    refine ⟨hvis, hload, ?_⟩
    intro hitems hnew hph icon hicon
    rw [hload] at hicon
    rcases List.mem_append.mp hicon with h1 | h1
    · obtain ⟨a, ha, rfl⟩ := List.mem_map.mp h1
      have hinst : a ∈ e.installed := (List.filter_sublist _).subset ha
      cases hi : e.items a.id with
      | none => simpa using hnew a.id
      | some ic => simpa using hitems a hinst ic hi
    · cases hp : e.placeholder with
      | none => rw [hp] at h1; simp at h1
      | some ph =>
        rw [hp] at h1
        simp only [Option.toList, List.mem_singleton] at h1
        rw [h1]
        exact hph ph hp

/-- C15 (amended) witness: the folder drag example in manual mode; the only icon
with the id `x` is the placeholder, as `x` is not the id of a folder. -/
theorem loadApps_folder_members_witness :
    folderDragEnv.WellFormed ∧
    ("x" ∉ rootAppIds ⟨0, false, false, false, false⟩ folderDragEnv ∧
      ∀ icon ∈ loadApps ⟨0, false, false, false, false⟩ folderDragEnv, icon.id = "x" →
        folderDragEnv.placeholder = some icon ∨
          "x" ∈ (visibleFolders ⟨0, false, false, false, false⟩ folderDragEnv).map
            (fun f => f.id)) :=
  ⟨folderDragEnv_wellFormed,
   (loadApps_folder_members ⟨0, false, false, false, false⟩ folderDragEnv
      folderDragEnv_wellFormed).1 rfl "x" (by decide)⟩

/-! ### The derived folder dimension -/

theorem fdiv_neg_natCast_eq_floor (n : Nat) (c : Int) (hc : c ≠ 0) :
    Int.fdiv (-(n : Int)) c = ⌊(-(n : ℚ)) / (c : ℚ)⌋ := by
  cases c with
  | ofNat k =>
    have h0 : Int.fdiv (-(n : Int)) (Int.ofNat k) = -(n : Int) / (k : Int) :=
      Int.fdiv_eq_ediv _ (Int.ofNat_nonneg k)
    have h := Rat.floor_intCast_div_natCast (-(n : Int)) k
    rw [h0, ← h]
    push_cast
    rfl
  | negSucc k =>
    cases n with
    | zero => simp
    | succ m =>
      have h1 : Int.fdiv (-((m + 1 : Nat) : Int)) (Int.negSucc k) =
          (((m + 1) / (k + 1) : Nat) : Int) := rfl
      rw [h1]
      have h2 : (-((m + 1 : Nat) : ℚ)) / ((Int.negSucc k : Int) : ℚ) =
          (((m + 1 : Nat) : Int) : ℚ) / (((k + 1 : Nat)) : ℚ) := by
        rw [Int.cast_negSucc]
        push_cast
        rw [neg_div_neg_eq]
      rw [h2, Rat.floor_intCast_div_natCast]
      norm_cast

/-- The integer `ceilDiv n c` is `Math.ceil(n / c)`: the ceiling of the quotient
of the two numbers. -/
theorem ceilDiv_eq_ceil (n : Nat) (c : Int) (hc : c ≠ 0) :
    ceilDiv (n : Int) c = ⌈(n : ℚ) / (c : ℚ)⌉ := by
  unfold ceilDiv
  rw [fdiv_neg_natCast_eq_floor n c hc, neg_div, Int.floor_neg, neg_neg]

theorem le_ceilDiv_mul (n : Nat) (c : Int) (hc : 0 < c) :
    (n : Int) ≤ ceilDiv (n : Int) c * c := by
  unfold ceilDiv
  rw [Int.fdiv_eq_ediv _ (le_of_lt hc)]
  have h := Int.ediv_mul_le (-(n : Int)) (ne_of_gt hc)
  linarith

/-- C16. When exactly one of `APP_GRID_FOLDER_COLUMNS` and `APP_GRID_FOLDER_ROWS`
is set (non-zero), `_updateFolderSize` enters its size computation with the set
dimension unchanged and the other one equal to the ceiling of the item count
divided by the set one; the settings being counts (not negative), the initial
`columns * rows` is at least the item count, for every item count. -/
theorem initialGrid_derived_dimension (o : FolderOpts) (n : Nat)
    (hone : (o.APP_GRID_FOLDER_COLUMNS ≠ 0 ∧ o.APP_GRID_FOLDER_ROWS = 0) ∨
      (o.APP_GRID_FOLDER_COLUMNS = 0 ∧ o.APP_GRID_FOLDER_ROWS ≠ 0)) :
    (o.APP_GRID_FOLDER_ROWS = 0 →
      initialGrid o n =
        (o.APP_GRID_FOLDER_COLUMNS, ⌈(n : ℚ) / (o.APP_GRID_FOLDER_COLUMNS : ℚ)⌉)) ∧
    (o.APP_GRID_FOLDER_COLUMNS = 0 →
      initialGrid o n =
        (⌈(n : ℚ) / (o.APP_GRID_FOLDER_ROWS : ℚ)⌉, o.APP_GRID_FOLDER_ROWS)) ∧
    (0 ≤ o.APP_GRID_FOLDER_COLUMNS → 0 ≤ o.APP_GRID_FOLDER_ROWS →
      (n : Int) ≤ (initialGrid o n).1 * (initialGrid o n).2) := by
  have hcols : o.APP_GRID_FOLDER_COLUMNS ≠ 0 → o.APP_GRID_FOLDER_ROWS = 0 →
      initialGrid o n =
        (o.APP_GRID_FOLDER_COLUMNS, ceilDiv (n : Int) o.APP_GRID_FOLDER_COLUMNS) := by
    intro hc hr
    have hfa : fullAdaptive o = false := by simp [fullAdaptive, hc]
    simp [initialGrid, hfa, hc, hr]
  have hrows : o.APP_GRID_FOLDER_COLUMNS = 0 → o.APP_GRID_FOLDER_ROWS ≠ 0 →
      initialGrid o n =
        (ceilDiv (n : Int) o.APP_GRID_FOLDER_ROWS, o.APP_GRID_FOLDER_ROWS) := by
    intro hc hr
    have hfa : fullAdaptive o = false := by simp [fullAdaptive, hr]
    simp [initialGrid, hfa, hc, hr]
  refine ⟨?_, ?_, ?_⟩
  · intro hr
    rcases hone with ⟨hc, _⟩ | ⟨_, hr'⟩
    · rw [hcols hc hr, ceilDiv_eq_ceil n _ hc]
    · exact absurd hr hr'
  · intro hc
    rcases hone with ⟨hc', _⟩ | ⟨_, hr⟩
    · exact absurd hc hc'
    · rw [hrows hc hr, ceilDiv_eq_ceil n _ hr]
  · intro hc0 hr0
    rcases hone with ⟨hc, hr⟩ | ⟨hc, hr⟩
    · rw [hcols hc hr]
      have := le_ceilDiv_mul n o.APP_GRID_FOLDER_COLUMNS (lt_of_le_of_ne hc0 (Ne.symm hc))
      show (n : Int) ≤ o.APP_GRID_FOLDER_COLUMNS * ceilDiv (n : Int) o.APP_GRID_FOLDER_COLUMNS
      linarith
    · rw [hrows hc hr]
      exact le_ceilDiv_mul n o.APP_GRID_FOLDER_ROWS (lt_of_le_of_ne hr0 (Ne.symm hr))

/-- C16 witness: three columns set, seven icons: three rows, nine cells. -/
theorem initialGrid_derived_dimension_witness :
    (((⟨3, 0, 64⟩ : FolderOpts).APP_GRID_FOLDER_COLUMNS ≠ 0 ∧
        (⟨3, 0, 64⟩ : FolderOpts).APP_GRID_FOLDER_ROWS = 0) ∨
      ((⟨3, 0, 64⟩ : FolderOpts).APP_GRID_FOLDER_COLUMNS = 0 ∧
        (⟨3, 0, 64⟩ : FolderOpts).APP_GRID_FOLDER_ROWS ≠ 0)) ∧
    initialGrid ⟨3, 0, 64⟩ 7 = (3, 3) ∧
    ((7 : Nat) : Int) ≤ (initialGrid ⟨3, 0, 64⟩ 7).1 * (initialGrid ⟨3, 0, 64⟩ 7).2 :=
  ⟨by decide, by decide,
   (initialGrid_derived_dimension ⟨3, 0, 64⟩ 7 (by decide)).2.2 (by decide) (by decide)⟩

/-! ### The adaptive rule and the icon size -/

/-- C17 (as stated) fails: with neither columns nor rows set and the folder icon
size set to 64, `_updateFolderSize` does not apply the adaptive rule to nine
icons; it enters the size computation with 0 columns and 0 rows. -/
theorem initialGrid_fixed_icon_size_starts_from_zero :
    fullAdaptive ⟨0, 0, 64⟩ = false ∧
    initialGrid ⟨0, 0, 64⟩ 9 = (0, 0) ∧
    adaptiveGrid 9 = (3, 3) := by
  decide

/-- C17 (amended). With neither columns nor rows set, `_updateFolderSize` starts
from `columns = rows = ceil(sqrt(itemCount))` and applies the adaptive rule
exactly when the folder icon size is adaptive too (negative setting); with a
fixed icon size it enters the size computation with 0 columns and 0 rows. -/
theorem initialGrid_nothing_configured (o : FolderOpts) (n : Nat)
    (hcols : o.APP_GRID_FOLDER_COLUMNS = 0) (hrows : o.APP_GRID_FOLDER_ROWS = 0) :
    (o.APP_GRID_FOLDER_ICON_SIZE < 0 →
      initialGrid o n = adaptiveGrid n ∧
      ((initialGrid o n).1 = ceilSqrt n ∨ (initialGrid o n).1 = (ceilSqrt n : Int) + 1) ∧
      ((initialGrid o n).2 = ceilSqrt n ∨ (initialGrid o n).2 = (ceilSqrt n : Int) - 1)) ∧
    (0 ≤ o.APP_GRID_FOLDER_ICON_SIZE → initialGrid o n = (0, 0)) := by
  constructor
  · intro hsize
    have hfa : fullAdaptive o = true := by simp [fullAdaptive, hcols, hrows, hsize]
    rw [initialGrid_of_fullAdaptive o hfa n]
    refine ⟨rfl, ?_, ?_⟩ <;>
    · simp only [adaptiveGrid]
      split_ifs <;> simp
  · intro hsize
    have hfa : fullAdaptive o = false := by
      simp only [fullAdaptive, hcols, hrows, decide_eq_false (not_lt.mpr hsize)]
      rfl
    simp [initialGrid, hfa, hcols, hrows]

/-- C17 (amended) witness: nothing set and adaptive icon size, ten icons: four
columns and three rows. -/
theorem initialGrid_nothing_configured_witness :
    (⟨0, 0, -1⟩ : FolderOpts).APP_GRID_FOLDER_COLUMNS = 0 ∧
    (⟨0, 0, -1⟩ : FolderOpts).APP_GRID_FOLDER_ROWS = 0 ∧
    initialGrid ⟨0, 0, -1⟩ 10 = adaptiveGrid 10 ∧ adaptiveGrid 10 = (4, 3) :=
  ⟨rfl, rfl,
   ((initialGrid_nothing_configured ⟨0, 0, -1⟩ 10 rfl rfl).1 (by decide)).1, by decide⟩

/-! ### The loops of `_updateFolderSize` -/

theorem shrinkLoop_fuel_mono (scale step available : ℚ) (fuel : Nat) :
    ∀ (size : ℚ) (count : Int) (r : ℚ × Int),
      shrinkLoop scale step available fuel size count = some r →
      ∀ fuel', fuel ≤ fuel' → shrinkLoop scale step available fuel' size count = some r := by
  induction fuel with
  | zero =>
    intro size count r h fuel' _
    unfold shrinkLoop at h
    split at h
    · exact absurd h (by simp)
    · rename_i hc
      cases fuel' with
      | zero => unfold shrinkLoop; rw [if_neg hc]; exact h
      | succ k => unfold shrinkLoop; rw [if_neg hc]; exact h
  | succ fuel ih =>
    intro size count r h fuel' hle
    obtain ⟨k, rfl⟩ : ∃ k, fuel' = k + 1 := ⟨fuel' - 1, by omega⟩
    unfold shrinkLoop at h ⊢
    split at h
    · rename_i hc
      rw [if_pos hc]
      exact ih _ _ _ h k (by omega)
    · rename_i hc
      rw [if_neg hc]
      exact h

theorem shrinkLoop_some_of_bound (scale step available : ℚ) (fuel : Nat) :
    ∀ (size : ℚ) (count : Int), size * scale - available ≤ (fuel : ℚ) * (step * scale) →
      ∃ r, shrinkLoop scale step available fuel size count = some r := by
  induction fuel with
  | zero =>
    intro size count hb
    unfold shrinkLoop
    have : ¬ size * scale > available := by
      simp only [Nat.cast_zero, zero_mul] at hb
      linarith
    rw [if_neg this]
    exact ⟨_, rfl⟩
  | succ fuel ih =>
    intro size count hb
    unfold shrinkLoop
    split
    · apply ih
      push_cast at hb
      nlinarith
    · exact ⟨_, rfl⟩

/-- The shrinking loop ends when a column or row takes up room (`itemSize +
spacing > 0`) and the scale factor is positive. -/
theorem shrinkLoop_terminates (scale step available : ℚ) (hscale : 0 < scale)
    (hstep : 0 < step) (size : ℚ) (count : Int) :
    ∃ fuel₀ r, ∀ fuel, fuel₀ ≤ fuel →
      shrinkLoop scale step available fuel size count = some r := by
  obtain ⟨n, hn⟩ := exists_nat_gt ((size * scale - available) / (step * scale))
  have hpos : 0 < step * scale := mul_pos hstep hscale
  have hb : size * scale - available ≤ (n : ℚ) * (step * scale) := by
    have := (div_lt_iff₀ hpos).mp hn
    linarith
  obtain ⟨r, hr⟩ := shrinkLoop_some_of_bound scale step available n size count hb
  exact ⟨n, r, fun fuel hle => shrinkLoop_fuel_mono scale step available n size count r hr fuel hle⟩

/-- What the shrinking loop leaves: the scaled size fits, the size has been
reduced by one step for every unit of the count, and the count has been reduced
only as long as the size did not fit. -/
theorem shrinkLoop_spec (scale step available : ℚ) (fuel : Nat) :
    ∀ (size : ℚ) (count : Int) (r : ℚ × Int),
      shrinkLoop scale step available fuel size count = some r →
      r.1 * scale ≤ available ∧ r.1 - (r.2 : ℚ) * step = size - (count : ℚ) * step ∧
        r.2 ≤ count ∧ (r.2 < count → (r.1 + step) * scale > available) := by
  induction fuel with
  | zero =>
    intro size count r h
    unfold shrinkLoop at h
    split at h
    · exact absurd h (by simp)
    · rename_i hc
      simp only [Option.some.injEq] at h
      subst h
      exact ⟨not_lt.mp hc, rfl, le_refl _, fun hlt => absurd hlt (lt_irrefl _)⟩
  | succ fuel ih =>
    intro size count r h
    unfold shrinkLoop at h
    split at h
    · rename_i hc
      obtain ⟨h1, h2, h3, h4⟩ := ih _ _ _ h
      refine ⟨h1, ?_, by omega, ?_⟩
      · rw [h2]; push_cast; ring
      · intro _
        rcases lt_or_eq_of_le h3 with hlt | heq
        · exact h4 hlt
        · have hsize : r.1 = size - step := by
            rw [heq] at h2
            linarith
          rw [hsize]
          simpa using hc
    · rename_i hc
      simp only [Option.some.injEq] at h
      subst h
      exact ⟨not_lt.mp hc, rfl, le_refl _, fun hlt => absurd hlt (lt_irrefl _)⟩

/-- The shrinking loop has no lower bound of its own: from a count of at least 1
it leaves a count of at least 1 exactly when the size for a count of 1 fits. -/
theorem shrinkLoop_ge_one_iff (scale step available : ℚ) (hscale : 0 < scale)
    (hstep : 0 < step) (fuel : Nat) :
    ∀ (size : ℚ) (count : Int) (r : ℚ × Int), 1 ≤ count →
      shrinkLoop scale step available fuel size count = some r →
      (1 ≤ r.2 ↔ (size - ((count : ℚ) - 1) * step) * scale ≤ available) := by
  induction fuel with
  | zero =>
    intro size count r hcount h
    unfold shrinkLoop at h
    split at h
    · exact absurd h (by simp)
    · rename_i hc
      simp only [Option.some.injEq] at h
      subst h
      refine ⟨fun _ => ?_, fun _ => hcount⟩
      have h1 : (1 : ℚ) ≤ (count : ℚ) := by exact_mod_cast hcount
      have h2 : size * scale ≤ available := not_lt.mp hc
      nlinarith [mul_nonneg (mul_nonneg (sub_nonneg.mpr h1) hstep.le) hscale.le]
  | succ fuel ih =>
    intro size count r hcount h
    unfold shrinkLoop at h
    split at h
    · rename_i hc
      rcases eq_or_lt_of_le hcount with heq | hlt
      · subst heq
        have hle := (shrinkLoop_spec scale step available fuel _ _ r h).2.2.1
        constructor
        · intro h1; omega
        · intro hfit
          simp only [Int.cast_one, sub_self, zero_mul, sub_zero] at hfit
          exact absurd hc (not_lt.mpr hfit)
      · have := ih (size - step) (count - 1) r (by omega) h
        rw [this]
        push_cast
        have e : size - step - ((count : ℚ) - 1 - 1) * step = size - ((count : ℚ) - 1) * step := by
          ring
        rw [e]
    · rename_i hc
      simp only [Option.some.injEq] at h
      subst h
      refine ⟨fun _ => ?_, fun _ => hcount⟩
      have h1 : (1 : ℚ) ≤ (count : ℚ) := by exact_mod_cast hcount
      have h2 : size * scale ≤ available := not_lt.mp hc
      nlinarith [mul_nonneg (mul_nonneg (sub_nonneg.mpr h1) hstep.le) hscale.le]

theorem expandLoop_fuel_mono (scale step available : ℚ) (nItems : Nat) (other : Int)
    (fuel : Nat) :
    ∀ (size : ℚ) (count : Int) (r : ℚ × Int),
      expandLoop scale step available nItems other fuel size count = some r →
      ∀ fuel', fuel ≤ fuel' →
        expandLoop scale step available nItems other fuel' size count = some r := by
  induction fuel with
  | zero =>
    intro size count r h fuel' _
    unfold expandLoop at h
    split at h
    · exact absurd h (by simp)
    · rename_i hc
      cases fuel' with
      | zero => unfold expandLoop; rw [if_neg hc]; exact h
      | succ k => unfold expandLoop; rw [if_neg hc]; exact h
  | succ fuel ih =>
    intro size count r h fuel' hle
    obtain ⟨k, rfl⟩ : ∃ k, fuel' = k + 1 := ⟨fuel' - 1, by omega⟩
    unfold expandLoop at h ⊢
    split at h
    · rename_i hc
      rw [if_pos hc]
      exact ih _ _ _ h k (by omega)
    · rename_i hc
      rw [if_neg hc]
      exact h

theorem expandLoop_some_of_bound (scale step available : ℚ) (nItems : Nat) (other : Int)
    (fuel : Nat) :
    ∀ (size : ℚ) (count : Int), available - step - size * scale < (fuel : ℚ) * (step * scale) →
      ∃ r, expandLoop scale step available nItems other fuel size count = some r := by
  induction fuel with
  | zero =>
    intro size count hb
    unfold expandLoop
    have : ¬ ((nItems : Int) > count * other ∧ size * scale + step ≤ available) := by
      simp only [Nat.cast_zero, zero_mul] at hb
      intro hc
      linarith [hc.2]
    rw [if_neg this]
    exact ⟨_, rfl⟩
  | succ fuel ih =>
    intro size count hb
    unfold expandLoop
    split
    · apply ih
      push_cast at hb
      nlinarith
    · exact ⟨_, rfl⟩

/-- The loop that adds columns or rows back ends when a column or row takes up
room and the scale factor is positive, also when `nItems > columns * rows` can
never become false: the size outgrows what is available. -/
theorem expandLoop_terminates (scale step available : ℚ) (nItems : Nat) (other : Int)
    (hscale : 0 < scale) (hstep : 0 < step) (size : ℚ) (count : Int) :
    ∃ fuel₀ r, ∀ fuel, fuel₀ ≤ fuel →
      expandLoop scale step available nItems other fuel size count = some r := by
  obtain ⟨n, hn⟩ := exists_nat_gt ((available - step - size * scale) / (step * scale))
  have hpos : 0 < step * scale := mul_pos hstep hscale
  have hb : available - step - size * scale < (n : ℚ) * (step * scale) :=
    (div_lt_iff₀ hpos).mp hn
  obtain ⟨r, hr⟩ :=
    expandLoop_some_of_bound scale step available nItems other n size count hb
  exact ⟨n, r, fun fuel hle =>
    expandLoop_fuel_mono scale step available nItems other n size count r hr fuel hle⟩

theorem shrinkRows_terminates (i : FolderSizeInput) (itemSize : ℚ)
    (hscale : 0 < i.scaleFactor) (hstep : 0 < itemSize + (i.APP_GRID_SPACING : ℚ))
    (v : SizeVars) :
    ∃ fuel₀ v', ∀ fuel, fuel₀ ≤ fuel → shrinkRows i itemSize fuel v = some v' := by
  unfold shrinkRows
  split
  · obtain ⟨k, r, hr⟩ := shrinkLoop_terminates i.scaleFactor _ i.appDisplayHeight hscale hstep
      v.height v.rows
    exact ⟨k, _, fun fuel hle => by rw [hr fuel hle]; rfl⟩
  · exact ⟨0, v, fun _ _ => rfl⟩

theorem shrinkColumns_terminates (i : FolderSizeInput) (itemSize : ℚ)
    (hscale : 0 < i.scaleFactor) (hstep : 0 < itemSize + (i.APP_GRID_SPACING : ℚ))
    (v : SizeVars) :
    ∃ fuel₀ v', ∀ fuel, fuel₀ ≤ fuel → shrinkColumns i itemSize fuel v = some v' := by
  unfold shrinkColumns
  split
  · obtain ⟨k, r, hr⟩ := shrinkLoop_terminates i.scaleFactor _ i.appDisplayWidth hscale hstep
      v.width v.columns
    exact ⟨k, _, fun fuel hle => by rw [hr fuel hle]; rfl⟩
  · exact ⟨0, v, fun _ _ => rfl⟩

theorem expandColumns_terminates (i : FolderSizeInput) (itemSize : ℚ)
    (hscale : 0 < i.scaleFactor) (hstep : 0 < itemSize + (i.APP_GRID_SPACING : ℚ))
    (v : SizeVars) :
    ∃ fuel₀ v', ∀ fuel, fuel₀ ≤ fuel → expandColumns i itemSize fuel v = some v' := by
  unfold expandColumns
  split
  · obtain ⟨k, r, hr⟩ := expandLoop_terminates i.scaleFactor _ i.appDisplayWidth i.nItems
      v.rows hscale hstep v.width v.columns
    exact ⟨k, _, fun fuel hle => by rw [hr fuel hle]; rfl⟩
  · exact ⟨0, v, fun _ _ => rfl⟩

theorem expandRows_terminates (i : FolderSizeInput) (itemSize : ℚ)
    (hscale : 0 < i.scaleFactor) (hstep : 0 < itemSize + (i.APP_GRID_SPACING : ℚ))
    (v : SizeVars) :
    ∃ fuel₀ v', ∀ fuel, fuel₀ ≤ fuel → expandRows i itemSize fuel v = some v' := by
  unfold expandRows
  split
  · obtain ⟨k, r, hr⟩ := expandLoop_terminates i.scaleFactor _ i.appDisplayHeight i.nItems
      v.columns hscale hstep v.height v.rows
    exact ⟨k, _, fun fuel hle => by rw [hr fuel hle]; rfl⟩
  · exact ⟨0, v, fun _ _ => rfl⟩

/-- With a positive scale factor and `itemSize + spacing > 0` the size
computation ends: from some amount of fuel on it yields one and the same
result. -/
theorem solveSize_terminates (i : FolderSizeInput) (itemSize : ℚ)
    (hscale : 0 < i.scaleFactor) (hstep : 0 < itemSize + (i.APP_GRID_SPACING : ℚ)) :
    ∃ fuel₀ v, ∀ fuel, fuel₀ ≤ fuel → solveSize i itemSize fuel = some v := by
  obtain ⟨k1, v1, h1⟩ := shrinkRows_terminates i itemSize hscale hstep (initialSizeVars i itemSize)
  obtain ⟨k2, v2, h2⟩ := shrinkColumns_terminates i itemSize hscale hstep v1
  obtain ⟨k3, v3, h3⟩ := expandColumns_terminates i itemSize hscale hstep v2
  obtain ⟨k4, v4, h4⟩ := expandRows_terminates i itemSize hscale hstep (capColumns i v3)
  refine ⟨max (max k1 k2) (max k3 k4), clampSize i (capRows i v4), fun fuel hle => ?_⟩
  have e1 := h1 fuel (le_trans (le_trans (le_max_left _ _) (le_max_left _ _)) hle)
  have e2 := h2 fuel (le_trans (le_trans (le_max_right _ _) (le_max_left _ _)) hle)
  have e3 := h3 fuel (le_trans (le_trans (le_max_left _ _) (le_max_right _ _)) hle)
  have e4 := h4 fuel (le_trans (le_trans (le_max_right _ _) (le_max_right _ _)) hle)
  simp only [solveSize, e1, e2, e3, e4, Option.bind_some, Option.some_bind]

/-- With a positive scale factor and `itemSize + spacing > 0`, a call that does
not return early installs a layout: from some amount of fuel on the model yields
one and the same layout. -/
theorem updateFolderSize_terminates (i : FolderSizeInput) (firstItemWidth : ℚ)
    (hfirst : i.firstItemWidth = some firstItemWidth) (hwidth : i.width ≠ 0)
    (hfinite : i.x2Infinite = false) (hscale : 0 < i.scaleFactor)
    (hstep : 0 < i.itemSize firstItemWidth + (i.APP_GRID_SPACING : ℚ)) :
    ∃ fuel₀ layout, ∀ fuel, fuel₀ ≤ fuel →
      updateFolderSize i fuel = some (SizeOutcome.installed layout) := by
  obtain ⟨k, v, hv⟩ := solveSize_terminates i (i.itemSize firstItemWidth) hscale hstep
  refine ⟨k, ⟨v.columns, v.rows, v.width, v.height, i.nItems⟩, fun fuel hle => ?_⟩
  unfold updateFolderSize
  rw [hfirst]
  have hne : ¬ (i.width = 0 ∨ i.x2Infinite = true) := by
    rw [hfinite]
    simp [hwidth]
  simp only [hne, if_false, hv fuel hle, Option.map_some']

/-! ### Configured dimensions -/

theorem initialGrid_configured (o : FolderOpts) (n : Nat) :
    (o.APP_GRID_FOLDER_COLUMNS ≠ 0 → (initialGrid o n).1 = o.APP_GRID_FOLDER_COLUMNS) ∧
    (o.APP_GRID_FOLDER_ROWS ≠ 0 → (initialGrid o n).2 = o.APP_GRID_FOLDER_ROWS) := by
  constructor
  · intro hc
    have hfa : fullAdaptive o = false := by simp [fullAdaptive, hc]
    by_cases hr : o.APP_GRID_FOLDER_ROWS = 0 <;> simp [initialGrid, hfa, hc, hr]
  · intro hr
    have hfa : fullAdaptive o = false := by simp [fullAdaptive, hr]
    by_cases hc : o.APP_GRID_FOLDER_COLUMNS = 0 <;> simp [initialGrid, hfa, hc, hr]

theorem shrinkRows_frame (i : FolderSizeInput) (itemSize : ℚ) (fuel : Nat) (v v' : SizeVars)
    (h : shrinkRows i itemSize fuel v = some v') :
    v'.columns = v.columns ∧ v'.width = v.width ∧
      (i.opts.APP_GRID_FOLDER_ROWS ≠ 0 → v' = v) := by
  unfold shrinkRows at h
  split at h
  · rename_i h0
    obtain ⟨r, _, rfl⟩ := Option.map_eq_some'.mp h
    exact ⟨rfl, rfl, fun hne => absurd h0 hne⟩
  · simp only [Option.some.injEq] at h
    subst h
    exact ⟨rfl, rfl, fun _ => rfl⟩

theorem expandRows_frame (i : FolderSizeInput) (itemSize : ℚ) (fuel : Nat) (v v' : SizeVars)
    (h : expandRows i itemSize fuel v = some v') :
    v'.columns = v.columns ∧ v'.width = v.width ∧
      (i.opts.APP_GRID_FOLDER_ROWS ≠ 0 → v' = v) := by
  unfold expandRows at h
  split at h
  · rename_i h0
    obtain ⟨r, _, rfl⟩ := Option.map_eq_some'.mp h
    exact ⟨rfl, rfl, fun hne => absurd h0 hne⟩
  · simp only [Option.some.injEq] at h
    subst h
    exact ⟨rfl, rfl, fun _ => rfl⟩

theorem shrinkColumns_frame (i : FolderSizeInput) (itemSize : ℚ) (fuel : Nat)
    (v v' : SizeVars) (h : shrinkColumns i itemSize fuel v = some v') :
    v'.rows = v.rows ∧ v'.height = v.height ∧
      (i.opts.APP_GRID_FOLDER_COLUMNS ≠ 0 → v' = v) := by
  unfold shrinkColumns at h
  split at h
  · rename_i h0
    obtain ⟨r, _, rfl⟩ := Option.map_eq_some'.mp h
    exact ⟨rfl, rfl, fun hne => absurd h0 hne⟩
  · simp only [Option.some.injEq] at h
    subst h
    exact ⟨rfl, rfl, fun _ => rfl⟩

theorem expandColumns_frame (i : FolderSizeInput) (itemSize : ℚ) (fuel : Nat)
    (v v' : SizeVars) (h : expandColumns i itemSize fuel v = some v') :
    v'.rows = v.rows ∧ v'.height = v.height ∧
      (i.opts.APP_GRID_FOLDER_COLUMNS ≠ 0 → v' = v) := by
  unfold expandColumns at h
  split at h
  · rename_i h0
    obtain ⟨r, _, rfl⟩ := Option.map_eq_some'.mp h
    exact ⟨rfl, rfl, fun hne => absurd h0 hne⟩
  · simp only [Option.some.injEq] at h
    subst h
    exact ⟨rfl, rfl, fun _ => rfl⟩

theorem capColumns_frame (i : FolderSizeInput) (v : SizeVars) :
    (capColumns i v).rows = v.rows ∧ (capColumns i v).width = v.width ∧
      (capColumns i v).height = v.height ∧
      (i.opts.APP_GRID_FOLDER_COLUMNS ≠ 0 → capColumns i v = v) := by
  unfold capColumns
  split
  · rename_i h0
    split
    · exact ⟨rfl, rfl, rfl, fun hne => absurd h0 hne⟩
    · exact ⟨rfl, rfl, rfl, fun _ => rfl⟩
  · exact ⟨rfl, rfl, rfl, fun _ => rfl⟩

theorem capRows_frame (i : FolderSizeInput) (v : SizeVars) :
    (capRows i v).columns = v.columns ∧ (capRows i v).width = v.width ∧
      (capRows i v).height = v.height ∧
      (i.opts.APP_GRID_FOLDER_ROWS ≠ 0 → capRows i v = v) := by
  unfold capRows
  split
  · rename_i h0
    split
    · exact ⟨rfl, rfl, rfl, fun hne => absurd h0 hne⟩
    · exact ⟨rfl, rfl, rfl, fun _ => rfl⟩
  · exact ⟨rfl, rfl, rfl, fun _ => rfl⟩

/-- The stages of the size computation that lead to a result. -/
theorem solveSize_stages (i : FolderSizeInput) (itemSize : ℚ) (fuel : Nat) (v : SizeVars)
    (h : solveSize i itemSize fuel = some v) :
    ∃ v1 v2 v3 v4, shrinkRows i itemSize fuel (initialSizeVars i itemSize) = some v1 ∧
      shrinkColumns i itemSize fuel v1 = some v2 ∧
      expandColumns i itemSize fuel v2 = some v3 ∧
      expandRows i itemSize fuel (capColumns i v3) = some v4 ∧
      v = clampSize i (capRows i v4) := by
  unfold solveSize at h
  obtain ⟨v1, h1, h⟩ := Option.bind_eq_some.mp h
  obtain ⟨v2, h2, h⟩ := Option.bind_eq_some.mp h
  obtain ⟨v3, h3, h⟩ := Option.bind_eq_some.mp h
  obtain ⟨v4, h4, h⟩ := Option.bind_eq_some.mp h
  simp only [Option.some.injEq] at h
  exact ⟨v1, v2, v3, v4, h1, h2, h3, h4, h.symm⟩

theorem solveSize_configured (i : FolderSizeInput) (itemSize : ℚ) (fuel : Nat) (v : SizeVars)
    (h : solveSize i itemSize fuel = some v) :
    (i.opts.APP_GRID_FOLDER_COLUMNS ≠ 0 → v.columns = i.opts.APP_GRID_FOLDER_COLUMNS) ∧
    (i.opts.APP_GRID_FOLDER_ROWS ≠ 0 → v.rows = i.opts.APP_GRID_FOLDER_ROWS) := by
  obtain ⟨v1, v2, v3, v4, h1, h2, h3, h4, rfl⟩ := solveSize_stages i itemSize fuel v h
  have f1 := shrinkRows_frame i itemSize fuel _ _ h1
  have f2 := shrinkColumns_frame i itemSize fuel _ _ h2
  have f3 := expandColumns_frame i itemSize fuel _ _ h3
  have f4 := expandRows_frame i itemSize fuel _ _ h4
  have c3 := capColumns_frame i v3
  have c4 := capRows_frame i v4
  constructor
  · intro hc
    show (capRows i v4).columns = _
    rw [c4.1, f4.1, c3.2.2.2 hc, f3.2.2 hc, f2.2.2 hc, f1.1]
    exact (initialGrid_configured i.opts i.nItems).1 hc
  · intro hr
    show (capRows i v4).rows = _
    rw [c4.2.2.2 hr, f4.2.2 hr, c3.1, f3.1, f2.1, f1.2.2 hr]
    exact (initialGrid_configured i.opts i.nItems).2 hr

theorem solveSize_of_configured (i : FolderSizeInput) (itemSize : ℚ) (fuel : Nat)
    (hc : i.opts.APP_GRID_FOLDER_COLUMNS ≠ 0) (hr : i.opts.APP_GRID_FOLDER_ROWS ≠ 0) :
    solveSize i itemSize fuel = some (clampSize i (initialSizeVars i itemSize)) := by
  simp only [solveSize, shrinkRows, shrinkColumns, expandColumns, expandRows, capColumns,
    capRows, if_neg hc, if_neg hr, Option.some_bind]

theorem updateFolderSize_installed (i : FolderSizeInput) (fuel : Nat) (layout : FolderLayout)
    (h : updateFolderSize i fuel = some (SizeOutcome.installed layout)) :
    ∃ firstItemWidth v, i.firstItemWidth = some firstItemWidth ∧
      solveSize i (i.itemSize firstItemWidth) fuel = some v ∧
      layout = ⟨v.columns, v.rows, v.width, v.height, i.nItems⟩ := by
  unfold updateFolderSize at h
  split at h
  · simp at h
  · rename_i w hw
    split at h
    · simp at h
    · obtain ⟨v, hv, hl⟩ := Option.map_eq_some'.mp h
      simp only [SizeOutcome.installed.injEq] at hl
      exact ⟨w, v, hw, hv, hl.symm⟩

/-- C18. In a call of `_updateFolderSize` that does not return early: when both
`APP_GRID_FOLDER_COLUMNS` and `APP_GRID_FOLDER_ROWS` are set (non-zero), the
`columns_per_page` and `rows_per_page` installed are the set values, whatever
the item count, item size, scale factor and app display (no loop runs, so any
fuel will do).  More generally a set dimension is left alone by the shrinking,
the adding back and the "cannot be displayed" step, and every layout installed
carries it; a layout is installed whenever the scale factor and
`itemSize + spacing` are positive. -/
theorem updateFolderSize_configured_dimensions (i : FolderSizeInput) (fuel : Nat)
    (firstItemWidth : ℚ) (hfirst : i.firstItemWidth = some firstItemWidth)
    (hwidth : i.width ≠ 0) (hfinite : i.x2Infinite = false) :
    (i.opts.APP_GRID_FOLDER_COLUMNS ≠ 0 → i.opts.APP_GRID_FOLDER_ROWS ≠ 0 →
      ∃ layout, updateFolderSize i fuel = some (SizeOutcome.installed layout) ∧
        layout.columns_per_page = i.opts.APP_GRID_FOLDER_COLUMNS ∧
        layout.rows_per_page = i.opts.APP_GRID_FOLDER_ROWS) ∧
    (i.opts.APP_GRID_FOLDER_COLUMNS ≠ 0 →
      (∀ (itemSize : ℚ) (v : SizeVars), shrinkColumns i itemSize fuel v = some v ∧
        expandColumns i itemSize fuel v = some v ∧ capColumns i v = v) ∧
      ∀ layout, updateFolderSize i fuel = some (SizeOutcome.installed layout) →
        layout.columns_per_page = i.opts.APP_GRID_FOLDER_COLUMNS) ∧
    (i.opts.APP_GRID_FOLDER_ROWS ≠ 0 →
      (∀ (itemSize : ℚ) (v : SizeVars), shrinkRows i itemSize fuel v = some v ∧
        expandRows i itemSize fuel v = some v ∧ capRows i v = v) ∧
      ∀ layout, updateFolderSize i fuel = some (SizeOutcome.installed layout) →
        layout.rows_per_page = i.opts.APP_GRID_FOLDER_ROWS) ∧
    (0 < i.scaleFactor → 0 < i.itemSize firstItemWidth + (i.APP_GRID_SPACING : ℚ) →
      ∃ fuel₀ layout, ∀ fuel', fuel₀ ≤ fuel' →
        updateFolderSize i fuel' = some (SizeOutcome.installed layout)) := by
  have hne : ¬ (i.width = 0 ∨ i.x2Infinite = true) := by
    rw [hfinite]
    simp [hwidth]
  refine ⟨?_, ?_, ?_, ?_⟩
  · intro hc hr
    have hs := solveSize_of_configured i (i.itemSize firstItemWidth) fuel hc hr
    have hcfg := solveSize_configured i _ fuel _ hs
    refine ⟨⟨(clampSize i (initialSizeVars i (i.itemSize firstItemWidth))).columns,
      (clampSize i (initialSizeVars i (i.itemSize firstItemWidth))).rows,
      (clampSize i (initialSizeVars i (i.itemSize firstItemWidth))).width,
      (clampSize i (initialSizeVars i (i.itemSize firstItemWidth))).height, i.nItems⟩,
      ?_, hcfg.1 hc, hcfg.2 hr⟩
    unfold updateFolderSize
    rw [hfirst]
    simp only [hne, if_false, hs, Option.map_some']
  · intro hc
    refine ⟨fun itemSize v => ?_, fun layout hl => ?_⟩
    · simp only [shrinkColumns, expandColumns, capColumns, if_neg hc, and_self]
    · obtain ⟨w, v, _, hv, rfl⟩ := updateFolderSize_installed i fuel layout hl
      exact (solveSize_configured i _ fuel v hv).1 hc
  · intro hr
    refine ⟨fun itemSize v => ?_, fun layout hl => ?_⟩
    · simp only [shrinkRows, expandRows, capRows, if_neg hr, and_self]
    · obtain ⟨w, v, _, hv, rfl⟩ := updateFolderSize_installed i fuel layout hl
      exact (solveSize_configured i _ fuel v hv).2 hr
  · intro hscale hstep
    exact updateFolderSize_terminates i firstItemWidth hfirst hwidth hfinite hscale hstep

/-- C18 witness: three columns and two rows set, seven icons, on an app display
of 1000 by 800. -/
theorem updateFolderSize_configured_dimensions_witness :
    (exampleFolder ⟨3, 2, 64⟩ 7 1000 800).firstItemWidth = some 0 ∧
    (exampleFolder ⟨3, 2, 64⟩ 7 1000 800).width ≠ 0 ∧
    (exampleFolder ⟨3, 2, 64⟩ 7 1000 800).x2Infinite = false ∧
    ∃ layout, updateFolderSize (exampleFolder ⟨3, 2, 64⟩ 7 1000 800) 0 =
        some (SizeOutcome.installed layout) ∧
      layout.columns_per_page = 3 ∧ layout.rows_per_page = 2 :=
  ⟨rfl, by simp [exampleFolder], rfl,
   (updateFolderSize_configured_dimensions (exampleFolder ⟨3, 2, 64⟩ 7 1000 800) 0 0 rfl
      (by simp [exampleFolder]) rfl).1 (by decide) (by decide)⟩

/-! ### The shrinking step -/

theorem mathRound_intCast (z : Int) : mathRound (z : ℚ) = z := by
  unfold mathRound
  rw [Int.floor_eq_iff]
  constructor <;> norm_num

theorem exampleFolder_itemSize (opts : FolderOpts) (n : Nat) (w h : ℚ)
    (hsize : opts.APP_GRID_FOLDER_ICON_SIZE = -1 ∨ opts.APP_GRID_FOLDER_ICON_SIZE = 64) :
    (exampleFolder opts n w h).itemSize 0 = 119 := by
  rcases hsize with hs | hs <;>
    norm_num [FolderSizeInput.itemSize, FolderSizeInput.realSize, FolderSizeInput.iconSize,
      exampleFolder, hs]

/-- C19 (as stated) fails: one icon in a fully adaptive folder (item size 119,
spacing 12) on an app display of 1000 by 200.  The computation starts from one
column and one row with a height of 306; the shrinking step takes the only row
away, and the layout installed has 0 rows per page. -/
theorem updateFolderSize_installs_zero_rows :
    (exampleFolder ⟨0, 0, -1⟩ 1 1000 200).itemSize 0 = 119 ∧
    initialSizeVars (exampleFolder ⟨0, 0, -1⟩ 1 1000 200) 119 = ⟨1, 1, 355, 306⟩ ∧
    shrinkRows (exampleFolder ⟨0, 0, -1⟩ 1 1000 200) 119 5 ⟨1, 1, 355, 306⟩ =
      some ⟨1, 0, 355, 175⟩ ∧
    updateFolderSize (exampleFolder ⟨0, 0, -1⟩ 1 1000 200) 5 =
      some (SizeOutcome.installed ⟨5, 0, 879, 175, 1⟩) := by
  have hitem : (exampleFolder ⟨0, 0, -1⟩ 1 1000 200).itemSize 0 = 119 :=
    exampleFolder_itemSize _ _ _ _ (Or.inl rfl)
  have hinit : initialSizeVars (exampleFolder ⟨0, 0, -1⟩ 1 1000 200) 119 =
      ⟨1, 1, 355, 306⟩ := by
    have h0 : initialGrid ⟨0, 0, -1⟩ 1 = (1, 1) := by decide
    have h1 : mathRound 355 = 355 := by exact_mod_cast mathRound_intCast 355
    simp only [initialSizeVars, exampleFolder, h0]
    norm_num [h1]
  have h1 : shrinkRows (exampleFolder ⟨0, 0, -1⟩ 1 1000 200) 119 5 ⟨1, 1, 355, 306⟩ =
      some ⟨1, 0, 355, 175⟩ := by
    norm_num [shrinkRows, exampleFolder, FolderSizeInput.appDisplayHeight, shrinkLoop]
  have h2 : shrinkColumns (exampleFolder ⟨0, 0, -1⟩ 1 1000 200) 119 5 ⟨1, 0, 355, 175⟩ =
      some ⟨1, 0, 355, 175⟩ := by
    norm_num [shrinkColumns, exampleFolder, FolderSizeInput.appDisplayWidth, shrinkLoop]
  have h3 : expandColumns (exampleFolder ⟨0, 0, -1⟩ 1 1000 200) 119 5 ⟨1, 0, 355, 175⟩ =
      some ⟨5, 0, 879, 175⟩ := by
    norm_num [expandColumns, exampleFolder, FolderSizeInput.appDisplayWidth, expandLoop]
  have h4 : capColumns (exampleFolder ⟨0, 0, -1⟩ 1 1000 200) ⟨5, 0, 879, 175⟩ =
      ⟨5, 0, 879, 175⟩ := by
    norm_num [capColumns, exampleFolder, FolderSizeInput.appDisplayWidth, minItemSize,
      itemPadding]
  have h5 : expandRows (exampleFolder ⟨0, 0, -1⟩ 1 1000 200) 119 5 ⟨5, 0, 879, 175⟩ =
      some ⟨5, 0, 879, 175⟩ := by
    norm_num [expandRows, exampleFolder, FolderSizeInput.appDisplayHeight, expandLoop]
  have h6 : capRows (exampleFolder ⟨0, 0, -1⟩ 1 1000 200) ⟨5, 0, 879, 175⟩ =
      ⟨5, 0, 879, 175⟩ := by
    norm_num [capRows, exampleFolder, FolderSizeInput.appDisplayHeight, minItemSize,
      itemPadding]
  have h7 : clampSize (exampleFolder ⟨0, 0, -1⟩ 1 1000 200) ⟨5, 0, 879, 175⟩ =
      ⟨5, 0, 879, 175⟩ := by
    norm_num [clampSize, exampleFolder, FolderSizeInput.appDisplayWidth,
      FolderSizeInput.appDisplayHeight, shellClamp]
  have hsolve : solveSize (exampleFolder ⟨0, 0, -1⟩ 1 1000 200) 119 5 =
      some ⟨5, 0, 879, 175⟩ := by
    simp only [solveSize, hinit, h1, h2, h3, h4, h5, h6, h7, Option.some_bind]
  refine ⟨hitem, hinit, h1, ?_⟩
  have hne : ¬ ((exampleFolder ⟨0, 0, -1⟩ 1 1000 200).width = 0 ∨
      (exampleFolder ⟨0, 0, -1⟩ 1 1000 200).x2Infinite = true) := by
    simp [exampleFolder]
  have hfirst : (exampleFolder ⟨0, 0, -1⟩ 1 1000 200).firstItemWidth = some 0 := rfl
  unfold updateFolderSize
  rw [hfirst]
  simp only [hne, if_false, hitem, hsolve, Option.map_some']
  rfl

/-- C19 (amended). With a positive scale factor and `itemSize + spacing > 0`,
the shrinking step of `_updateFolderSize` ends and takes rows (columns) away
one at a time, with one step of height (width) each, only as long as the scaled
height (width) does not fit the app display; it has no lower bound of its own.
From at least one row (column) it leaves at least one exactly when the dialog
with a single row (column) fits; otherwise it goes on to 0 and below, and the
values installed can be less than 1. -/
theorem shrink_keeps_one_iff_fits (i : FolderSizeInput) (itemSize : ℚ) (v : SizeVars)
    (hscale : 0 < i.scaleFactor) (hstep : 0 < itemSize + (i.APP_GRID_SPACING : ℚ)) :
    (i.opts.APP_GRID_FOLDER_ROWS = 0 →
      ∃ fuel₀ v', (∀ fuel, fuel₀ ≤ fuel → shrinkRows i itemSize fuel v = some v') ∧
        v'.columns = v.columns ∧ v'.width = v.width ∧
        v'.height * i.scaleFactor ≤ i.appDisplayHeight ∧ v'.rows ≤ v.rows ∧
        v'.height - (v'.rows : ℚ) * (itemSize + (i.APP_GRID_SPACING : ℚ)) =
          v.height - (v.rows : ℚ) * (itemSize + (i.APP_GRID_SPACING : ℚ)) ∧
        (v'.rows < v.rows →
          (v'.height + (itemSize + (i.APP_GRID_SPACING : ℚ))) * i.scaleFactor >
            i.appDisplayHeight) ∧
        (1 ≤ v.rows →
          (1 ≤ v'.rows ↔
            (v.height - ((v.rows : ℚ) - 1) * (itemSize + (i.APP_GRID_SPACING : ℚ))) *
              i.scaleFactor ≤ i.appDisplayHeight))) ∧
    (i.opts.APP_GRID_FOLDER_COLUMNS = 0 →
      ∃ fuel₀ v', (∀ fuel, fuel₀ ≤ fuel → shrinkColumns i itemSize fuel v = some v') ∧
        v'.rows = v.rows ∧ v'.height = v.height ∧
        v'.width * i.scaleFactor ≤ i.appDisplayWidth ∧ v'.columns ≤ v.columns ∧
        v'.width - (v'.columns : ℚ) * (itemSize + (i.APP_GRID_SPACING : ℚ)) =
          v.width - (v.columns : ℚ) * (itemSize + (i.APP_GRID_SPACING : ℚ)) ∧
        (v'.columns < v.columns →
          (v'.width + (itemSize + (i.APP_GRID_SPACING : ℚ))) * i.scaleFactor >
            i.appDisplayWidth) ∧
        (1 ≤ v.columns →
          (1 ≤ v'.columns ↔
            (v.width - ((v.columns : ℚ) - 1) * (itemSize + (i.APP_GRID_SPACING : ℚ))) *
              i.scaleFactor ≤ i.appDisplayWidth))) := by
  constructor
  · intro h0
    obtain ⟨k, r, hr⟩ := shrinkLoop_terminates i.scaleFactor
      (itemSize + (i.APP_GRID_SPACING : ℚ)) i.appDisplayHeight hscale hstep v.height v.rows
    have hk := hr k (le_refl _)
    obtain ⟨s1, s2, s3, s4⟩ := shrinkLoop_spec _ _ _ k _ _ r hk
    refine ⟨k, { v with height := r.1, rows := r.2 }, fun fuel hle => ?_, rfl, rfl, s1, s3,
      s2, s4, fun hone => shrinkLoop_ge_one_iff _ _ _ hscale hstep k _ _ r hone hk⟩
    unfold shrinkRows
    rw [if_pos h0, hr fuel hle]
    rfl
  · intro h0
    obtain ⟨k, r, hr⟩ := shrinkLoop_terminates i.scaleFactor
      (itemSize + (i.APP_GRID_SPACING : ℚ)) i.appDisplayWidth hscale hstep v.width v.columns
    have hk := hr k (le_refl _)
    obtain ⟨s1, s2, s3, s4⟩ := shrinkLoop_spec _ _ _ k _ _ r hk
    refine ⟨k, { v with width := r.1, columns := r.2 }, fun fuel hle => ?_, rfl, rfl, s1, s3,
      s2, s4, fun hone => shrinkLoop_ge_one_iff _ _ _ hscale hstep k _ _ r hone hk⟩
    unfold shrinkColumns
    rw [if_pos h0, hr fuel hle]
    rfl

/-- C19 (amended) witness: the fully adaptive example on an app display of 1000
by 200, from one column and one row. -/
theorem shrink_keeps_one_iff_fits_witness :
    0 < (exampleFolder ⟨0, 0, -1⟩ 1 1000 200).scaleFactor ∧
    (0 : ℚ) < 119 + (((exampleFolder ⟨0, 0, -1⟩ 1 1000 200).APP_GRID_SPACING : Int) : ℚ) ∧
    ∃ fuel₀ v', (∀ fuel, fuel₀ ≤ fuel →
        shrinkColumns (exampleFolder ⟨0, 0, -1⟩ 1 1000 200) 119 fuel ⟨1, 1, 355, 306⟩ =
          some v') ∧
      v'.rows = 1 ∧ v'.height = 306 ∧
      v'.width * (exampleFolder ⟨0, 0, -1⟩ 1 1000 200).scaleFactor ≤
        (exampleFolder ⟨0, 0, -1⟩ 1 1000 200).appDisplayWidth ∧ v'.columns ≤ 1 ∧
      v'.width - (v'.columns : ℚ) *
          (119 + (((exampleFolder ⟨0, 0, -1⟩ 1 1000 200).APP_GRID_SPACING : Int) : ℚ)) =
        355 - ((1 : Int) : ℚ) *
          (119 + (((exampleFolder ⟨0, 0, -1⟩ 1 1000 200).APP_GRID_SPACING : Int) : ℚ)) ∧
      (v'.columns < 1 →
        (v'.width + (119 +
            (((exampleFolder ⟨0, 0, -1⟩ 1 1000 200).APP_GRID_SPACING : Int) : ℚ))) *
          (exampleFolder ⟨0, 0, -1⟩ 1 1000 200).scaleFactor >
            (exampleFolder ⟨0, 0, -1⟩ 1 1000 200).appDisplayWidth) ∧
      ((1 : Int) ≤ 1 →
        (1 ≤ v'.columns ↔
          ((355 : ℚ) - (((1 : Int) : ℚ) - 1) *
              (119 + (((exampleFolder ⟨0, 0, -1⟩ 1 1000 200).APP_GRID_SPACING : Int) : ℚ))) *
            (exampleFolder ⟨0, 0, -1⟩ 1 1000 200).scaleFactor ≤
              (exampleFolder ⟨0, 0, -1⟩ 1 1000 200).appDisplayWidth)) :=
  ⟨by simp [exampleFolder], by simp [exampleFolder]; norm_num,
   (shrink_keeps_one_iff_fits (exampleFolder ⟨0, 0, -1⟩ 1 1000 200) 119 ⟨1, 1, 355, 306⟩
      (by simp [exampleFolder]) (by simp [exampleFolder]; norm_num)).2 rfl⟩

/-! ### The final width -/

theorem solveSize_width (i : FolderSizeInput) (itemSize : ℚ) (fuel : Nat) (v : SizeVars)
    (h : solveSize i itemSize fuel = some v) :
    ∃ width, v.width = i.clamp width 540 i.appDisplayWidth := by
  obtain ⟨v1, v2, v3, v4, _, _, _, _, rfl⟩ := solveSize_stages i itemSize fuel v h
  exact ⟨(capRows i v4).width, rfl⟩

/-- C20. With the shell's `Math.clamp`, i.e. `Math.min(Math.max(x, lower),
upper)`, the dialog width that `_updateFolderSize` sets is at most the width of
the app display, and it is at least 540 whenever the app display is at least 540
wide; this holds for every layout the method installs, and it installs one
whenever it does not return early and the scale factor and `itemSize + spacing`
are positive. -/
theorem updateFolderSize_width_clamped (i : FolderSizeInput)
    (hclamp : ∀ x lower upper, i.clamp x lower upper = min (max x lower) upper) :
    (∀ fuel layout, updateFolderSize i fuel = some (SizeOutcome.installed layout) →
      layout.width ≤ i.appDisplayWidth ∧
        (540 ≤ i.appDisplayWidth → 540 ≤ layout.width)) ∧
    (∀ firstItemWidth, i.firstItemWidth = some firstItemWidth → i.width ≠ 0 →
      i.x2Infinite = false → 0 < i.scaleFactor →
      0 < i.itemSize firstItemWidth + (i.APP_GRID_SPACING : ℚ) →
      ∃ fuel₀ layout,
        (∀ fuel, fuel₀ ≤ fuel →
          updateFolderSize i fuel = some (SizeOutcome.installed layout)) ∧
        layout.width ≤ i.appDisplayWidth ∧
        (540 ≤ i.appDisplayWidth → 540 ≤ layout.width)) := by
  have hall : ∀ fuel layout, updateFolderSize i fuel = some (SizeOutcome.installed layout) →
      layout.width ≤ i.appDisplayWidth ∧
        (540 ≤ i.appDisplayWidth → 540 ≤ layout.width) := by
    intro fuel layout hl
    obtain ⟨w, v, _, hv, rfl⟩ := updateFolderSize_installed i fuel layout hl
    obtain ⟨x, hx⟩ := solveSize_width i _ fuel v hv
    show v.width ≤ _ ∧ (_ → 540 ≤ v.width)
    rw [hx, hclamp]
    exact ⟨min_le_right _ _, fun h540 => le_min (le_max_right _ _) h540⟩
  refine ⟨hall, ?_⟩
  intro w hfirst hwidth hfinite hscale hstep
  obtain ⟨k, layout, hk⟩ :=
    updateFolderSize_terminates i w hfirst hwidth hfinite hscale hstep
  exact ⟨k, layout, hk, hall k layout (hk k (le_refl _))⟩

/-- C20 witness: the fully adaptive example with one icon on an app display of
1000 by 200, where the layout installed is 879 wide. -/
theorem updateFolderSize_width_clamped_witness :
    (∀ x lower upper,
      (exampleFolder ⟨0, 0, -1⟩ 1 1000 200).clamp x lower upper = min (max x lower) upper) ∧
    ∀ fuel layout,
      updateFolderSize (exampleFolder ⟨0, 0, -1⟩ 1 1000 200) fuel =
          some (SizeOutcome.installed layout) →
        layout.width ≤ (exampleFolder ⟨0, 0, -1⟩ 1 1000 200).appDisplayWidth ∧
          (540 ≤ (exampleFolder ⟨0, 0, -1⟩ 1 1000 200).appDisplayWidth →
            540 ≤ layout.width) :=
  ⟨fun _ _ _ => rfl,
   (updateFolderSize_width_clamped (exampleFolder ⟨0, 0, -1⟩ 1 1000 200)
      (fun _ _ _ => rfl)).1⟩

/-! ### The final height -/

/-- The shrinking loop leaves a count of at least `m` (for `m` not above the
initial count) exactly when the size for a count of `m` fits. -/
theorem shrinkLoop_ge_iff (scale step available : ℚ) (hscale : 0 < scale)
    (hstep : 0 < step) (m : Int) (fuel : Nat) :
    ∀ (size : ℚ) (count : Int) (r : ℚ × Int), m ≤ count →
      shrinkLoop scale step available fuel size count = some r →
      (m ≤ r.2 ↔ (size - ((count : ℚ) - (m : ℚ)) * step) * scale ≤ available) := by
  induction fuel with
  | zero =>
    intro size count r hcount h
    unfold shrinkLoop at h
    split at h
    · exact absurd h (by simp)
    · rename_i hc
      simp only [Option.some.injEq] at h
      subst h
      refine ⟨fun _ => ?_, fun _ => hcount⟩
      have h1 : (m : ℚ) ≤ (count : ℚ) := by exact_mod_cast hcount
      have h2 : size * scale ≤ available := not_lt.mp hc
      nlinarith [mul_nonneg (mul_nonneg (sub_nonneg.mpr h1) hstep.le) hscale.le]
  | succ fuel ih =>
    intro size count r hcount h
    unfold shrinkLoop at h
    split at h
    · rename_i hc
      rcases eq_or_lt_of_le hcount with heq | hlt
      · subst heq
        have hle := (shrinkLoop_spec scale step available fuel _ _ r h).2.2.1
        constructor
        · intro h1; omega
        · intro hfit
          simp only [sub_self, zero_mul, sub_zero] at hfit
          exact absurd hc (not_lt.mpr hfit)
      · have := ih (size - step) (count - 1) r (by omega) h
        rw [this]
        push_cast
        have e : size - step - ((count : ℚ) - 1 - (m : ℚ)) * step =
            size - ((count : ℚ) - (m : ℚ)) * step := by ring
        rw [e]
    · rename_i hc
      simp only [Option.some.injEq] at h
      subst h
      refine ⟨fun _ => ?_, fun _ => hcount⟩
      have h1 : (m : ℚ) ≤ (count : ℚ) := by exact_mod_cast hcount
      have h2 : size * scale ≤ available := not_lt.mp hc
      nlinarith [mul_nonneg (mul_nonneg (sub_nonneg.mpr h1) hstep.le) hscale.le]

/-- What the loop that adds back leaves: the size has grown by one step for every
unit of the count, the count has not gone down, and the condition of the loop is
false. -/
theorem expandLoop_spec (scale step available : ℚ) (nItems : Nat) (other : Int)
    (fuel : Nat) :
    ∀ (size : ℚ) (count : Int) (r : ℚ × Int),
      expandLoop scale step available nItems other fuel size count = some r →
      r.1 - (r.2 : ℚ) * step = size - (count : ℚ) * step ∧ count ≤ r.2 ∧
        ¬ ((nItems : Int) > r.2 * other ∧ r.1 * scale + step ≤ available) := by
  induction fuel with
  | zero =>
    intro size count r h
    unfold expandLoop at h
    split at h
    · exact absurd h (by simp)
    · rename_i hc
      simp only [Option.some.injEq] at h
      subst h
      exact ⟨rfl, le_refl _, hc⟩
  | succ fuel ih =>
    intro size count r h
    unfold expandLoop at h
    split at h
    · obtain ⟨h1, h2, h3⟩ := ih _ _ _ h
      refine ⟨?_, by omega, h3⟩
      rw [h1]; push_cast; ring
    · rename_i hc
      simp only [Option.some.injEq] at h
      subst h
      exact ⟨rfl, le_refl _, hc⟩

theorem initialSizeVars_height (i : FolderSizeInput) (itemSize : ℚ) :
    (initialSizeVars i itemSize).height =
      i.chromeHeight + ((initialSizeVars i itemSize).rows : ℚ) *
        (itemSize + (i.APP_GRID_SPACING : ℚ)) ∧
    (initialSizeVars i itemSize).rows = (initialGrid i.opts i.nItems).2 ∧
    (initialSizeVars i itemSize).columns = (initialGrid i.opts i.nItems).1 := by
  refine ⟨?_, rfl, rfl⟩
  simp only [initialSizeVars, FolderSizeInput.chromeHeight]
  ring

theorem chromeHeight_pos (i : FolderSizeInput) : 0 < i.chromeHeight := by
  unfold FolderSizeInput.chromeHeight
  split <;> norm_num

theorem shrinkRows_spec (i : FolderSizeInput) (itemSize : ℚ) (fuel : Nat) (v v' : SizeVars)
    (h : shrinkRows i itemSize fuel v = some v') :
    v'.height - (v'.rows : ℚ) * (itemSize + (i.APP_GRID_SPACING : ℚ)) =
        v.height - (v.rows : ℚ) * (itemSize + (i.APP_GRID_SPACING : ℚ)) ∧
      (i.opts.APP_GRID_FOLDER_ROWS = 0 → 0 < i.scaleFactor →
        0 < itemSize + (i.APP_GRID_SPACING : ℚ) → ∀ m : Int, m ≤ v.rows →
          (m ≤ v'.rows ↔
            (v.height - ((v.rows : ℚ) - (m : ℚ)) * (itemSize + (i.APP_GRID_SPACING : ℚ))) *
              i.scaleFactor ≤ i.appDisplayHeight)) := by
  unfold shrinkRows at h
  split at h
  · obtain ⟨r, hr, rfl⟩ := Option.map_eq_some'.mp h
    refine ⟨(shrinkLoop_spec _ _ _ fuel _ _ r hr).2.1, fun _ hscale hstep m hm => ?_⟩
    exact shrinkLoop_ge_iff _ _ _ hscale hstep m fuel _ _ r hm hr
  · rename_i hne
    simp only [Option.some.injEq] at h
    subst h
    exact ⟨rfl, fun h0 => absurd h0 hne⟩

theorem expandRows_spec (i : FolderSizeInput) (itemSize : ℚ) (fuel : Nat) (v v' : SizeVars)
    (h : expandRows i itemSize fuel v = some v') :
    v'.height - (v'.rows : ℚ) * (itemSize + (i.APP_GRID_SPACING : ℚ)) =
        v.height - (v.rows : ℚ) * (itemSize + (i.APP_GRID_SPACING : ℚ)) ∧
      v.rows ≤ v'.rows := by
  unfold expandRows at h
  split at h
  · obtain ⟨r, hr, rfl⟩ := Option.map_eq_some'.mp h
    have hs := expandLoop_spec _ _ _ _ _ fuel _ _ r hr
    exact ⟨hs.1, hs.2.1⟩
  · simp only [Option.some.injEq] at h
    subst h
    exact ⟨rfl, le_refl _⟩

/-- The height at the end of the size computation: the smaller of the available
height and the header and padding plus one step for every row that the loops
left (the rows before the step "remove rows that cannot be displayed"). -/
theorem solveSize_height (i : FolderSizeInput) (itemSize : ℚ) (fuel : Nat) (v : SizeVars)
    (h : solveSize i itemSize fuel = some v) :
    ∃ rows₁ rows₄ : Int,
      v.height = min (i.chromeHeight + (rows₄ : ℚ) * (itemSize + (i.APP_GRID_SPACING : ℚ)))
        i.appDisplayHeight ∧
      rows₁ ≤ rows₄ ∧
      (i.opts.APP_GRID_FOLDER_ROWS ≠ 0 → rows₁ = i.opts.APP_GRID_FOLDER_ROWS ∧
        rows₄ = i.opts.APP_GRID_FOLDER_ROWS) ∧
      (i.opts.APP_GRID_FOLDER_ROWS = 0 → 0 < i.scaleFactor →
        0 < itemSize + (i.APP_GRID_SPACING : ℚ) → 0 ≤ (initialGrid i.opts i.nItems).2 →
        (0 ≤ rows₁ ↔ i.chromeHeight * i.scaleFactor ≤ i.appDisplayHeight)) := by
  obtain ⟨v1, v2, v3, v4, h1, h2, h3, h4, rfl⟩ := solveSize_stages i itemSize fuel v h
  obtain ⟨hi1, hi2, _⟩ := initialSizeVars_height i itemSize
  have s1 := shrinkRows_spec i itemSize fuel _ _ h1
  have f1 := shrinkRows_frame i itemSize fuel _ _ h1
  have f2 := shrinkColumns_frame i itemSize fuel _ _ h2
  have f3 := expandColumns_frame i itemSize fuel _ _ h3
  have c3 := capColumns_frame i v3
  have s4 := expandRows_spec i itemSize fuel _ _ h4
  have f4 := expandRows_frame i itemSize fuel _ _ h4
  have c4 := capRows_frame i v4
  have hrows3 : (capColumns i v3).rows = v1.rows := by rw [c3.1, f3.1, f2.1]
  have hheight3 : (capColumns i v3).height = v1.height := by rw [c3.2.2.1, f3.2.1, f2.2.1]
  have hv1 : v1.height = i.chromeHeight + (v1.rows : ℚ) * (itemSize + (i.APP_GRID_SPACING : ℚ)) := by
    have := s1.1
    rw [hi1] at this
    linarith
  have hv4 : v4.height = i.chromeHeight + (v4.rows : ℚ) * (itemSize + (i.APP_GRID_SPACING : ℚ)) := by
    have := s4.1
    rw [hrows3, hheight3] at this
    linarith
  refine ⟨v1.rows, v4.rows, ?_, ?_, ?_, ?_⟩
  · show min (capRows i v4).height _ = _
    rw [c4.2.2.1, hv4]
  · have := s4.2
    rw [hrows3] at this
    exact this
  · intro hr
    have e1 : v1.rows = i.opts.APP_GRID_FOLDER_ROWS := by
      rw [f1.2.2 hr, hi2]
      exact (initialGrid_configured i.opts i.nItems).2 hr
    refine ⟨e1, ?_⟩
    rw [f4.2.2 hr, hrows3, e1]
  · intro h0 hscale hstep hinit
    have := s1.2 h0 hscale hstep 0 (by rw [hi2]; exact hinit)
    rw [this, hi1]
    have e : i.chromeHeight + ((initialSizeVars i itemSize).rows : ℚ) *
          (itemSize + (i.APP_GRID_SPACING : ℚ)) -
        (((initialSizeVars i itemSize).rows : ℚ) - ((0 : Int) : ℚ)) *
          (itemSize + (i.APP_GRID_SPACING : ℚ)) = i.chromeHeight := by
      push_cast
      ring
    rw [e]

/-- C21 (as stated) fails: one icon in a fully adaptive folder (item size 119,
spacing 12) on an app display of 1000 by 40.  The header and padding alone (175)
do not fit, the shrinking step goes on to -2 rows and a height of -87, and that
negative height is what the method sets, although the available height is not
negative. -/
theorem updateFolderSize_sets_negative_height :
    (0 : ℚ) ≤ (exampleFolder ⟨0, 0, -1⟩ 1 1000 40).appDisplayHeight ∧
    shrinkRows (exampleFolder ⟨0, 0, -1⟩ 1 1000 40) 119 5 ⟨1, 1, 355, 306⟩ =
      some ⟨1, -2, 355, -87⟩ ∧
    updateFolderSize (exampleFolder ⟨0, 0, -1⟩ 1 1000 40) 5 =
      some (SizeOutcome.installed ⟨5, -2, 879, -87, 1⟩) := by
  have hitem : (exampleFolder ⟨0, 0, -1⟩ 1 1000 40).itemSize 0 = 119 :=
    exampleFolder_itemSize _ _ _ _ (Or.inl rfl)
  have hinit : initialSizeVars (exampleFolder ⟨0, 0, -1⟩ 1 1000 40) 119 =
      ⟨1, 1, 355, 306⟩ := by
    have h0 : initialGrid ⟨0, 0, -1⟩ 1 = (1, 1) := by decide
    have h1 : mathRound 355 = 355 := by exact_mod_cast mathRound_intCast 355
    simp only [initialSizeVars, exampleFolder, h0]
    norm_num [h1]
  have h1 : shrinkRows (exampleFolder ⟨0, 0, -1⟩ 1 1000 40) 119 5 ⟨1, 1, 355, 306⟩ =
      some ⟨1, -2, 355, -87⟩ := by
    norm_num [shrinkRows, exampleFolder, FolderSizeInput.appDisplayHeight, shrinkLoop]
  have h2 : shrinkColumns (exampleFolder ⟨0, 0, -1⟩ 1 1000 40) 119 5 ⟨1, -2, 355, -87⟩ =
      some ⟨1, -2, 355, -87⟩ := by
    norm_num [shrinkColumns, exampleFolder, FolderSizeInput.appDisplayWidth, shrinkLoop]
  have h3 : expandColumns (exampleFolder ⟨0, 0, -1⟩ 1 1000 40) 119 5 ⟨1, -2, 355, -87⟩ =
      some ⟨5, -2, 879, -87⟩ := by
    norm_num [expandColumns, exampleFolder, FolderSizeInput.appDisplayWidth, expandLoop]
  have h4 : capColumns (exampleFolder ⟨0, 0, -1⟩ 1 1000 40) ⟨5, -2, 879, -87⟩ =
      ⟨5, -2, 879, -87⟩ := by
    norm_num [capColumns, exampleFolder, FolderSizeInput.appDisplayWidth, minItemSize,
      itemPadding]
  have h5 : expandRows (exampleFolder ⟨0, 0, -1⟩ 1 1000 40) 119 5 ⟨5, -2, 879, -87⟩ =
      some ⟨5, -2, 879, -87⟩ := by
    norm_num [expandRows, exampleFolder, FolderSizeInput.appDisplayHeight, expandLoop]
  have h6 : capRows (exampleFolder ⟨0, 0, -1⟩ 1 1000 40) ⟨5, -2, 879, -87⟩ =
      ⟨5, -2, 879, -87⟩ := by
    norm_num [capRows, exampleFolder, FolderSizeInput.appDisplayHeight, minItemSize,
      itemPadding]
  have h7 : clampSize (exampleFolder ⟨0, 0, -1⟩ 1 1000 40) ⟨5, -2, 879, -87⟩ =
      ⟨5, -2, 879, -87⟩ := by
    norm_num [clampSize, exampleFolder, FolderSizeInput.appDisplayWidth,
      FolderSizeInput.appDisplayHeight, shellClamp]
  have hsolve : solveSize (exampleFolder ⟨0, 0, -1⟩ 1 1000 40) 119 5 =
      some ⟨5, -2, 879, -87⟩ := by
    simp only [solveSize, hinit, h1, h2, h3, h4, h5, h6, h7, Option.some_bind]
  refine ⟨by norm_num [exampleFolder, FolderSizeInput.appDisplayHeight], h1, ?_⟩
  have hne : ¬ ((exampleFolder ⟨0, 0, -1⟩ 1 1000 40).width = 0 ∨
      (exampleFolder ⟨0, 0, -1⟩ 1 1000 40).x2Infinite = true) := by
    simp [exampleFolder]
  have hfirst : (exampleFolder ⟨0, 0, -1⟩ 1 1000 40).firstItemWidth = some 0 := rfl
  unfold updateFolderSize
  rw [hfirst]
  simp only [hne, if_false, hitem, hsolve, Option.map_some']
  rfl

/-- C21 (amended). The dialog height that `_updateFolderSize` sets is at most the
available height: it is the smaller of the available height and the header and
padding (175 or 145) plus `itemSize + spacing` for every row left by the loops;
there is no lower clamp.  With an available height that is not negative it is
not negative when the computation starts from rows that are not negative and,
if the rows are not set, the header and padding alone fit the available height
(scaled); otherwise it can be negative.  A layout is installed whenever the call
does not return early and the scale factor and `itemSize + spacing` are
positive. -/
theorem updateFolderSize_height_bound (i : FolderSizeInput) (firstItemWidth : ℚ)
    (hfirst : i.firstItemWidth = some firstItemWidth) :
    (∀ fuel layout, updateFolderSize i fuel = some (SizeOutcome.installed layout) →
      layout.height ≤ i.appDisplayHeight ∧
      ∃ rows : Int, layout.height =
        min (i.chromeHeight + (rows : ℚ) *
          (i.itemSize firstItemWidth + (i.APP_GRID_SPACING : ℚ))) i.appDisplayHeight) ∧
    (0 ≤ i.appDisplayHeight → 0 < i.scaleFactor →
      0 < i.itemSize firstItemWidth + (i.APP_GRID_SPACING : ℚ) →
      0 ≤ (initialGrid i.opts i.nItems).2 →
      (i.opts.APP_GRID_FOLDER_ROWS = 0 →
        i.chromeHeight * i.scaleFactor ≤ i.appDisplayHeight) →
      ∀ fuel layout, updateFolderSize i fuel = some (SizeOutcome.installed layout) →
        0 ≤ layout.height) ∧
    (i.width ≠ 0 → i.x2Infinite = false → 0 < i.scaleFactor →
      0 < i.itemSize firstItemWidth + (i.APP_GRID_SPACING : ℚ) →
      ∃ fuel₀ layout,
        (∀ fuel, fuel₀ ≤ fuel →
          updateFolderSize i fuel = some (SizeOutcome.installed layout)) ∧
        layout.height ≤ i.appDisplayHeight) := by
  have hstages : ∀ fuel layout,
      updateFolderSize i fuel = some (SizeOutcome.installed layout) →
      ∃ v, solveSize i (i.itemSize firstItemWidth) fuel = some v ∧
        layout.height = v.height := by
    intro fuel layout hl
    obtain ⟨w, v, hw, hv, rfl⟩ := updateFolderSize_installed i fuel layout hl
    rw [hfirst] at hw
    simp only [Option.some.injEq] at hw
    subst hw
    exact ⟨v, hv, rfl⟩
  have hupper : ∀ fuel layout,
      updateFolderSize i fuel = some (SizeOutcome.installed layout) →
      layout.height ≤ i.appDisplayHeight ∧
      ∃ rows : Int, layout.height =
        min (i.chromeHeight + (rows : ℚ) *
          (i.itemSize firstItemWidth + (i.APP_GRID_SPACING : ℚ))) i.appDisplayHeight := by
    intro fuel layout hl
    obtain ⟨v, hv, hh⟩ := hstages fuel layout hl
    obtain ⟨_, rows₄, h4, _⟩ := solveSize_height i _ fuel v hv
    rw [hh, h4]
    exact ⟨min_le_right _ _, rows₄, rfl⟩
  refine ⟨hupper, ?_, ?_⟩
  · intro hH hscale hstep hinit hfit fuel layout hl
    obtain ⟨v, hv, hh⟩ := hstages fuel layout hl
    obtain ⟨rows₁, rows₄, h4, hle, hcfg, hshrink⟩ := solveSize_height i _ fuel v hv
    have hrows₁ : 0 ≤ rows₁ := by
      by_cases hr : i.opts.APP_GRID_FOLDER_ROWS = 0
      · exact (hshrink hr hscale hstep hinit).mpr (hfit hr)
      · rw [(hcfg hr).1, ← (initialGrid_configured i.opts i.nItems).2 hr]
        exact hinit
    have hrows₄ : (0 : ℚ) ≤ (rows₄ : ℚ) := by exact_mod_cast le_trans hrows₁ hle
    rw [hh, h4]
    refine le_min ?_ hH
    have := chromeHeight_pos i
    nlinarith [mul_nonneg hrows₄ hstep.le]
  · intro hwidth hfinite hscale hstep
    obtain ⟨k, layout, hk⟩ :=
      updateFolderSize_terminates i firstItemWidth hfirst hwidth hfinite hscale hstep
    exact ⟨k, layout, hk, (hupper k layout (hk k (le_refl _))).1⟩

/-- C21 (amended) witness: the fully adaptive example with one icon on an app
display of 1000 by 200. -/
theorem updateFolderSize_height_bound_witness :
    (exampleFolder ⟨0, 0, -1⟩ 1 1000 200).firstItemWidth = some 0 ∧
    ∀ fuel layout,
      updateFolderSize (exampleFolder ⟨0, 0, -1⟩ 1 1000 200) fuel =
          some (SizeOutcome.installed layout) →
        layout.height ≤ (exampleFolder ⟨0, 0, -1⟩ 1 1000 200).appDisplayHeight ∧
        ∃ rows : Int, layout.height =
          min ((exampleFolder ⟨0, 0, -1⟩ 1 1000 200).chromeHeight + (rows : ℚ) *
              ((exampleFolder ⟨0, 0, -1⟩ 1 1000 200).itemSize 0 +
                (((exampleFolder ⟨0, 0, -1⟩ 1 1000 200).APP_GRID_SPACING : Int) : ℚ)))
            (exampleFolder ⟨0, 0, -1⟩ 1 1000 200).appDisplayHeight :=
  ⟨rfl, (updateFolderSize_height_bound (exampleFolder ⟨0, 0, -1⟩ 1 1000 200) 0 rfl).1⟩

/-! ### The rows and columns that cannot be displayed -/

theorem floor_div_mul_le (x : ℚ) (d : Int) (hd : 0 < d) :
    ((⌊x / (d : ℚ)⌋ * d : Int) : ℚ) ≤ x := by
  have hd' : (0 : ℚ) < (d : ℚ) := by exact_mod_cast hd
  have h := Int.floor_le (x / (d : ℚ))
  have := mul_le_mul_of_nonneg_right h hd'.le
  rw [div_mul_cancel₀ x hd'.ne'] at this
  push_cast
  exact this

/-- After the step "remove columns that cannot be displayed" the columns fit the
available width at minimum item size, when the spacing is not negative. -/
theorem capColumns_fits (i : FolderSizeInput) (v : SizeVars)
    (h0 : i.opts.APP_GRID_FOLDER_COLUMNS = 0) (hspacing : 0 ≤ i.APP_GRID_SPACING) :
    ((((capColumns i v).columns * minItemSize +
        ((capColumns i v).columns - 1) * i.APP_GRID_SPACING : Int)) : ℚ) ≤
      i.appDisplayWidth := by
  unfold capColumns
  rw [if_pos h0]
  split
  · have hd : 0 < minItemSize + i.APP_GRID_SPACING := by
      have : minItemSize = 103 := rfl
      omega
    have h := floor_div_mul_le i.appDisplayWidth _ hd
    refine le_trans ?_ h
    have hs : (0 : ℚ) ≤ (i.APP_GRID_SPACING : ℚ) := by exact_mod_cast hspacing
    push_cast
    nlinarith
  · rename_i hc
    exact not_lt.mp hc

/-- When the step "remove rows that cannot be displayed" finds that the rows do
not fit, it sets them to the number of columns of minimum size that fit the
available width. -/
theorem capRows_of_exceeds (i : FolderSizeInput) (v : SizeVars)
    (h0 : i.opts.APP_GRID_FOLDER_ROWS = 0)
    (hc : ((v.rows * minItemSize + (v.rows - 1) * i.APP_GRID_SPACING : Int) : ℚ) >
      i.appDisplayHeight) :
    (capRows i v).rows =
      ⌊i.appDisplayWidth / ((minItemSize + i.APP_GRID_SPACING : Int) : ℚ)⌋ := by
  unfold capRows
  rw [if_pos h0, if_pos hc]

/-- C22 fails for the rows.  With a fixed icon size of 16 (item size 71, spacing
12), 45 icons and an app display of 1000 by 675, the loops leave 8 columns and 6
rows; 6 rows of minimum size (678) do not fit the height of 675, and the step
"remove rows that cannot be displayed" sets the rows to 8, the number computed
from the available width, which fit even less (908 > 675): 8 rows are
installed.  The step for the columns divides the width it tested, and after it
the columns do fit, for every input with a spacing that is not negative. -/
theorem capRows_sets_rows_from_width :
    (0 : Int) ≤ (exampleFolder ⟨0, 0, 16⟩ 45 1000 675).APP_GRID_SPACING ∧
    capRows (exampleFolder ⟨0, 0, 16⟩ 45 1000 675) ⟨8, 6, 971, 673⟩ = ⟨8, 8, 971, 673⟩ ∧
    ¬ ((((capRows (exampleFolder ⟨0, 0, 16⟩ 45 1000 675) ⟨8, 6, 971, 673⟩).rows * minItemSize +
          ((capRows (exampleFolder ⟨0, 0, 16⟩ 45 1000 675) ⟨8, 6, 971, 673⟩).rows - 1) *
            (exampleFolder ⟨0, 0, 16⟩ 45 1000 675).APP_GRID_SPACING : Int) : ℚ) ≤
        (exampleFolder ⟨0, 0, 16⟩ 45 1000 675).appDisplayHeight) ∧
    updateFolderSize (exampleFolder ⟨0, 0, 16⟩ 45 1000 675) 10 =
      some (SizeOutcome.installed ⟨8, 8, 971, 673, 45⟩) ∧
    (∀ (i : FolderSizeInput) (v : SizeVars), i.opts.APP_GRID_FOLDER_COLUMNS = 0 →
      0 ≤ i.APP_GRID_SPACING →
      ((((capColumns i v).columns * minItemSize +
          ((capColumns i v).columns - 1) * i.APP_GRID_SPACING : Int)) : ℚ) ≤
        i.appDisplayWidth) := by
  have hfloor : ⌊(1000 : ℚ) / 115⌋ = 8 := by
    rw [Int.floor_eq_iff]
    constructor <;> norm_num
  have hitem : (exampleFolder ⟨0, 0, 16⟩ 45 1000 675).itemSize 0 = 71 := by
    norm_num [FolderSizeInput.itemSize, FolderSizeInput.realSize, FolderSizeInput.iconSize,
      exampleFolder]
  have hinit : initialSizeVars (exampleFolder ⟨0, 0, 16⟩ 45 1000 675) 71 =
      ⟨0, 0, 224, 175⟩ := by
    have h0 : initialGrid ⟨0, 0, 16⟩ 45 = (0, 0) := by decide
    have h1 : mathRound 224 = 224 := by exact_mod_cast mathRound_intCast 224
    simp only [initialSizeVars, exampleFolder, h0]
    norm_num [h1]
  have h1 : shrinkRows (exampleFolder ⟨0, 0, 16⟩ 45 1000 675) 71 10 ⟨0, 0, 224, 175⟩ =
      some ⟨0, 0, 224, 175⟩ := by
    norm_num [shrinkRows, exampleFolder, FolderSizeInput.appDisplayHeight, shrinkLoop]
  have h2 : shrinkColumns (exampleFolder ⟨0, 0, 16⟩ 45 1000 675) 71 10 ⟨0, 0, 224, 175⟩ =
      some ⟨0, 0, 224, 175⟩ := by
    norm_num [shrinkColumns, exampleFolder, FolderSizeInput.appDisplayWidth, shrinkLoop]
  have h3 : expandColumns (exampleFolder ⟨0, 0, 16⟩ 45 1000 675) 71 10 ⟨0, 0, 224, 175⟩ =
      some ⟨9, 0, 971, 175⟩ := by
    norm_num [expandColumns, exampleFolder, FolderSizeInput.appDisplayWidth, expandLoop]
  have h4 : capColumns (exampleFolder ⟨0, 0, 16⟩ 45 1000 675) ⟨9, 0, 971, 175⟩ =
      ⟨8, 0, 971, 175⟩ := by
    norm_num [capColumns, exampleFolder, FolderSizeInput.appDisplayWidth, minItemSize,
      itemPadding, hfloor]
  have h5 : expandRows (exampleFolder ⟨0, 0, 16⟩ 45 1000 675) 71 10 ⟨8, 0, 971, 175⟩ =
      some ⟨8, 6, 971, 673⟩ := by
    norm_num [expandRows, exampleFolder, FolderSizeInput.appDisplayHeight, expandLoop]
  have h6 : capRows (exampleFolder ⟨0, 0, 16⟩ 45 1000 675) ⟨8, 6, 971, 673⟩ =
      ⟨8, 8, 971, 673⟩ := by
    norm_num [capRows, exampleFolder, FolderSizeInput.appDisplayHeight,
      FolderSizeInput.appDisplayWidth, minItemSize, itemPadding, hfloor]
  have h7 : clampSize (exampleFolder ⟨0, 0, 16⟩ 45 1000 675) ⟨8, 8, 971, 673⟩ =
      ⟨8, 8, 971, 673⟩ := by
    norm_num [clampSize, exampleFolder, FolderSizeInput.appDisplayWidth,
      FolderSizeInput.appDisplayHeight, shellClamp]
  have hsolve : solveSize (exampleFolder ⟨0, 0, 16⟩ 45 1000 675) 71 10 =
      some ⟨8, 8, 971, 673⟩ := by
    simp only [solveSize, hinit, h1, h2, h3, h4, h5, h6, h7, Option.some_bind]
  refine ⟨by decide, h6, ?_, ?_, fun i v h0 hs => capColumns_fits i v h0 hs⟩
  · rw [h6]
    norm_num [exampleFolder, FolderSizeInput.appDisplayHeight, minItemSize, itemPadding]
  · have hne : ¬ ((exampleFolder ⟨0, 0, 16⟩ 45 1000 675).width = 0 ∨
        (exampleFolder ⟨0, 0, 16⟩ 45 1000 675).x2Infinite = true) := by
      simp [exampleFolder]
    have hfirst : (exampleFolder ⟨0, 0, 16⟩ 45 1000 675).firstItemWidth = some 0 := rfl
    unfold updateFolderSize
    rw [hfirst]
    simp only [hne, if_false, hitem, hsolve, Option.map_some']
    rfl

/-! ### The empty folder -/

/-- C23 (as stated) fails: for a folder without items, whose grid has no child,
`_updateFolderSize` returns at once and installs no layout. -/
theorem updateFolderSize_empty_folder_installs_nothing :
    emptyFolder.nItems = 0 ∧
    updateFolderSize emptyFolder 0 = some SizeOutcome.skipped ∧
    ∀ fuel layout, updateFolderSize emptyFolder fuel ≠ some (SizeOutcome.installed layout) := by
  refine ⟨rfl, rfl, ?_⟩
  intro fuel layout h
  have : updateFolderSize emptyFolder fuel = some SizeOutcome.skipped := rfl
  rw [this] at h
  simp at h

/-- C23 (amended). When the grid of the folder has no child, `_updateFolderSize`
returns early: it does not fail, it runs no loop, and it installs nothing, so
that the layout installed before stays.  Should the method run with an item
count of 0 (a child in the grid, no ordered item), fully adaptive options start
from 0 columns and -1 rows; in the example the layout installed then has 0
columns, -1 rows, the minimum width 540 and the height 44. -/
theorem updateFolderSize_empty_grid (i : FolderSizeInput) (hempty : i.firstItemWidth = none) :
    (∀ fuel, updateFolderSize i fuel = some SizeOutcome.skipped) ∧
    (∀ o : FolderOpts, fullAdaptive o = true → initialGrid o 0 = (0, -1)) ∧
    updateFolderSize (exampleFolder ⟨0, 0, -1⟩ 0 1000 800) 0 =
      some (SizeOutcome.installed ⟨0, -1, 540, 44, 0⟩) := by
  refine ⟨fun fuel => ?_, fun o hfa => ?_, ?_⟩
  · unfold updateFolderSize
    rw [hempty]
  · rw [initialGrid_of_fullAdaptive o hfa 0]
    decide
  · have hitem : (exampleFolder ⟨0, 0, -1⟩ 0 1000 800).itemSize 0 = 119 :=
      exampleFolder_itemSize _ _ _ _ (Or.inl rfl)
    have hinit : initialSizeVars (exampleFolder ⟨0, 0, -1⟩ 0 1000 800) 119 =
        ⟨0, -1, 224, 44⟩ := by
      have h0 : initialGrid ⟨0, 0, -1⟩ 0 = (0, -1) := by decide
      have h1 : mathRound 224 = 224 := by exact_mod_cast mathRound_intCast 224
      simp only [initialSizeVars, exampleFolder, h0]
      norm_num [h1]
    have h1 : shrinkRows (exampleFolder ⟨0, 0, -1⟩ 0 1000 800) 119 0 ⟨0, -1, 224, 44⟩ =
        some ⟨0, -1, 224, 44⟩ := by
      norm_num [shrinkRows, exampleFolder, FolderSizeInput.appDisplayHeight, shrinkLoop]
    have h2 : shrinkColumns (exampleFolder ⟨0, 0, -1⟩ 0 1000 800) 119 0 ⟨0, -1, 224, 44⟩ =
        some ⟨0, -1, 224, 44⟩ := by
      norm_num [shrinkColumns, exampleFolder, FolderSizeInput.appDisplayWidth, shrinkLoop]
    have h3 : expandColumns (exampleFolder ⟨0, 0, -1⟩ 0 1000 800) 119 0 ⟨0, -1, 224, 44⟩ =
        some ⟨0, -1, 224, 44⟩ := by
      norm_num [expandColumns, exampleFolder, FolderSizeInput.appDisplayWidth, expandLoop]
    have h4 : capColumns (exampleFolder ⟨0, 0, -1⟩ 0 1000 800) ⟨0, -1, 224, 44⟩ =
        ⟨0, -1, 224, 44⟩ := by
      norm_num [capColumns, exampleFolder, FolderSizeInput.appDisplayWidth, minItemSize,
        itemPadding]
    have h5 : expandRows (exampleFolder ⟨0, 0, -1⟩ 0 1000 800) 119 0 ⟨0, -1, 224, 44⟩ =
        some ⟨0, -1, 224, 44⟩ := by
      norm_num [expandRows, exampleFolder, FolderSizeInput.appDisplayHeight, expandLoop]
    have h6 : capRows (exampleFolder ⟨0, 0, -1⟩ 0 1000 800) ⟨0, -1, 224, 44⟩ =
        ⟨0, -1, 224, 44⟩ := by
      norm_num [capRows, exampleFolder, FolderSizeInput.appDisplayHeight, minItemSize,
        itemPadding]
    have h7 : clampSize (exampleFolder ⟨0, 0, -1⟩ 0 1000 800) ⟨0, -1, 224, 44⟩ =
        ⟨0, -1, 540, 44⟩ := by
      norm_num [clampSize, exampleFolder, FolderSizeInput.appDisplayWidth,
        FolderSizeInput.appDisplayHeight, shellClamp]
    have hsolve : solveSize (exampleFolder ⟨0, 0, -1⟩ 0 1000 800) 119 0 =
        some ⟨0, -1, 540, 44⟩ := by
      simp only [solveSize, hinit, h1, h2, h3, h4, h5, h6, h7, Option.some_bind]
    have hne : ¬ ((exampleFolder ⟨0, 0, -1⟩ 0 1000 800).width = 0 ∨
        (exampleFolder ⟨0, 0, -1⟩ 0 1000 800).x2Infinite = true) := by
      simp [exampleFolder]
    have hfirst : (exampleFolder ⟨0, 0, -1⟩ 0 1000 800).firstItemWidth = some 0 := rfl
    unfold updateFolderSize
    rw [hfirst]
    simp only [hne, if_false, hitem, hsolve, Option.map_some']
    rfl

/-- C23 (amended) witness: the empty folder of the example. -/
theorem updateFolderSize_empty_grid_witness :
    emptyFolder.firstItemWidth = none ∧
    ∀ fuel, updateFolderSize emptyFolder fuel = some SizeOutcome.skipped :=
  ⟨rfl, (updateFolderSize_empty_grid emptyFolder rfl).1⟩

/-! ### Running the size computation again -/

theorem shrinkRows_fuel_mono (i : FolderSizeInput) (itemSize : ℚ) (fuel fuel' : Nat)
    (hle : fuel ≤ fuel') (v v' : SizeVars) (h : shrinkRows i itemSize fuel v = some v') :
    shrinkRows i itemSize fuel' v = some v' := by
  unfold shrinkRows at h ⊢
  split
  · rename_i h0
    rw [if_pos h0] at h
    obtain ⟨r, hr, rfl⟩ := Option.map_eq_some'.mp h
    rw [shrinkLoop_fuel_mono _ _ _ fuel _ _ r hr fuel' hle]
    rfl
  · rename_i h0
    rw [if_neg h0] at h
    exact h

theorem shrinkColumns_fuel_mono (i : FolderSizeInput) (itemSize : ℚ) (fuel fuel' : Nat)
    (hle : fuel ≤ fuel') (v v' : SizeVars) (h : shrinkColumns i itemSize fuel v = some v') :
    shrinkColumns i itemSize fuel' v = some v' := by
  unfold shrinkColumns at h ⊢
  split
  · rename_i h0
    rw [if_pos h0] at h
    obtain ⟨r, hr, rfl⟩ := Option.map_eq_some'.mp h
    rw [shrinkLoop_fuel_mono _ _ _ fuel _ _ r hr fuel' hle]
    rfl
  · rename_i h0
    rw [if_neg h0] at h
    exact h

theorem expandColumns_fuel_mono (i : FolderSizeInput) (itemSize : ℚ) (fuel fuel' : Nat)
    (hle : fuel ≤ fuel') (v v' : SizeVars) (h : expandColumns i itemSize fuel v = some v') :
    expandColumns i itemSize fuel' v = some v' := by
  unfold expandColumns at h ⊢
  split
  · rename_i h0
    rw [if_pos h0] at h
    obtain ⟨r, hr, rfl⟩ := Option.map_eq_some'.mp h
    rw [expandLoop_fuel_mono _ _ _ _ _ fuel _ _ r hr fuel' hle]
    rfl
  · rename_i h0
    rw [if_neg h0] at h
    exact h

theorem expandRows_fuel_mono (i : FolderSizeInput) (itemSize : ℚ) (fuel fuel' : Nat)
    (hle : fuel ≤ fuel') (v v' : SizeVars) (h : expandRows i itemSize fuel v = some v') :
    expandRows i itemSize fuel' v = some v' := by
  unfold expandRows at h ⊢
  split
  · rename_i h0
    rw [if_pos h0] at h
    obtain ⟨r, hr, rfl⟩ := Option.map_eq_some'.mp h
    rw [expandLoop_fuel_mono _ _ _ _ _ fuel _ _ r hr fuel' hle]
    rfl
  · rename_i h0
    rw [if_neg h0] at h
    exact h

/-- More fuel does not change a result of the size computation. -/
theorem solveSize_fuel_mono (i : FolderSizeInput) (itemSize : ℚ) (fuel fuel' : Nat)
    (hle : fuel ≤ fuel') (v : SizeVars) (h : solveSize i itemSize fuel = some v) :
    solveSize i itemSize fuel' = some v := by
  obtain ⟨v1, v2, v3, v4, h1, h2, h3, h4, rfl⟩ := solveSize_stages i itemSize fuel v h
  simp only [solveSize, shrinkRows_fuel_mono i itemSize fuel fuel' hle _ _ h1,
    shrinkColumns_fuel_mono i itemSize fuel fuel' hle _ _ h2,
    expandColumns_fuel_mono i itemSize fuel fuel' hle _ _ h3,
    expandRows_fuel_mono i itemSize fuel fuel' hle _ _ h4, Option.some_bind]

/-- Two results of the size computation for the same input are equal, whatever
the fuel. -/
theorem solveSize_unique (i : FolderSizeInput) (itemSize : ℚ) (fuel fuel' : Nat)
    (v v' : SizeVars) (h : solveSize i itemSize fuel = some v)
    (h' : solveSize i itemSize fuel' = some v') : v = v' := by
  have e1 := solveSize_fuel_mono i itemSize fuel (max fuel fuel') (le_max_left _ _) v h
  have e2 := solveSize_fuel_mono i itemSize fuel' (max fuel fuel') (le_max_right _ _) v' h'
  rw [e1] at e2
  exact Option.some.inj e2

theorem updateFolderSizeOn_cases (i : FolderSizeInput) (fuel : Nat) (s s₁ : DialogState)
    (h : updateFolderSizeOn i fuel s = some s₁) :
    ((i.firstItemWidth = none ∨ i.width = 0 ∨ i.x2Infinite = true) ∧ s₁ = s) ∨
    (∃ firstItemWidth v, i.firstItemWidth = some firstItemWidth ∧
      ¬ (i.width = 0 ∨ i.x2Infinite = true) ∧
      solveSize i (i.itemSize firstItemWidth) fuel = some v ∧
      s₁ = { fixedIconSize := i.opts.APP_GRID_FOLDER_ICON_SIZE,
             gridSpacing := i.APP_GRID_SPACING,
             firstItemIconSize := i.iconSize,
             needsUpdateSize :=
               if i.realSize firstItemWidth > (i.iconSize : ℚ) then s.needsUpdateSize
               else true,
             layout := ⟨v.columns, v.rows, v.width, v.height, i.nItems⟩ }) := by
  unfold updateFolderSizeOn at h
  split at h
  · rename_i hnone
    simp only [Option.some.injEq] at h
    exact Or.inl ⟨Or.inl hnone, h.symm⟩
  · rename_i w hw
    split at h
    · rename_i hearly
      simp only [Option.some.injEq] at h
      exact Or.inl ⟨Or.inr hearly, h.symm⟩
    · rename_i hearly
      obtain ⟨v, hv, hs⟩ := Option.map_eq_some'.mp h
      exact Or.inr ⟨w, v, hw, hearly, hv, hs.symm⟩

/-- C24. Running `_updateFolderSize` again on the state the first run left, with
the same input (options, item count, measured width of the first item, scale
factor, app display), leaves that state as it is: the same columns, rows, width,
height and design capacity are installed, and the other fields written keep
their values.  What a run installs does not depend on the state before it (nor
on the fuel of the model): it is the layout computed from the input alone.  When
the scale factor and `itemSize + spacing` are positive both runs do end. -/
theorem updateFolderSizeOn_idempotent (i : FolderSizeInput) :
    (∀ (fuel fuel' : Nat) (s s₁ s₂ : DialogState), updateFolderSizeOn i fuel s = some s₁ →
      updateFolderSizeOn i fuel' s₁ = some s₂ → s₂ = s₁) ∧
    (∀ (fuel fuel' : Nat) (s s' s₁ s₁' : DialogState) (layout : FolderLayout),
      updateFolderSize i fuel = some (SizeOutcome.installed layout) →
      updateFolderSizeOn i fuel s = some s₁ → updateFolderSizeOn i fuel' s' = some s₁' →
      s₁.layout = layout ∧ s₁'.layout = layout ∧
        s₁'.fixedIconSize = s₁.fixedIconSize ∧ s₁'.gridSpacing = s₁.gridSpacing ∧
        s₁'.firstItemIconSize = s₁.firstItemIconSize) ∧
    (∀ (fuel : Nat) (s : DialogState), updateFolderSize i fuel = some SizeOutcome.skipped →
      updateFolderSizeOn i fuel s = some s) ∧
    (0 < i.scaleFactor →
      (∀ firstItemWidth, i.firstItemWidth = some firstItemWidth →
        0 < i.itemSize firstItemWidth + (i.APP_GRID_SPACING : ℚ)) →
      ∃ fuel₀, ∀ fuel, fuel₀ ≤ fuel → ∀ s, ∃ s₁,
        updateFolderSizeOn i fuel s = some s₁ ∧ updateFolderSizeOn i fuel s₁ = some s₁) := by
  have hidem : ∀ (fuel fuel' : Nat) (s s₁ s₂ : DialogState),
      updateFolderSizeOn i fuel s = some s₁ →
      updateFolderSizeOn i fuel' s₁ = some s₂ → s₂ = s₁ := by
    intro fuel fuel' s s₁ s₂ h₁ h₂
    rcases updateFolderSizeOn_cases i fuel' s₁ s₂ h₂ with ⟨_, e⟩ | ⟨w', v', hw', hne', hv', e₂⟩
    · exact e
    · rcases updateFolderSizeOn_cases i fuel s s₁ h₁ with ⟨hearly, _⟩ | ⟨w, v, hw, hne, hv, e₁⟩
      · rcases hearly with hnone | hearly
        · rw [hnone] at hw'
          simp at hw'
        · exact absurd hearly hne'
      · rw [hw] at hw'
        simp only [Option.some.injEq] at hw'
        subst hw'
        have hvv := solveSize_unique i _ fuel fuel' v v' hv hv'
        subst hvv
        rw [e₂, e₁]
        by_cases hc : i.realSize w > (i.iconSize : ℚ)
        · simp only [if_pos hc]
        · simp only [if_neg hc]
  refine ⟨hidem, ?_, ?_, ?_⟩
  · intro fuel fuel' s s' s₁ s₁' layout hl h₁ h₁'
    obtain ⟨w, v, hw, hv, rfl⟩ := updateFolderSize_installed i fuel layout hl
    have hne : ¬ (i.width = 0 ∨ i.x2Infinite = true) := by
      intro hearly
      unfold updateFolderSize at hl
      rw [hw] at hl
      simp only [if_pos hearly] at hl
      simp at hl
    rcases updateFolderSizeOn_cases i fuel s s₁ h₁ with ⟨hearly, _⟩ | ⟨w₁, v₁, hw₁, _, hv₁, e₁⟩
    · rcases hearly with hnone | hearly
      · rw [hnone] at hw; simp at hw
      · exact absurd hearly hne
    rcases updateFolderSizeOn_cases i fuel' s' s₁' h₁' with ⟨hearly, _⟩ | ⟨w₂, v₂, hw₂, _, hv₂, e₂⟩
    · rcases hearly with hnone | hearly
      · rw [hnone] at hw; simp at hw
      · exact absurd hearly hne
    rw [hw] at hw₁ hw₂
    simp only [Option.some.injEq] at hw₁ hw₂
    subst hw₁
    subst hw₂
    have e := Option.some.inj (hv.symm.trans hv₁)
    have e' := solveSize_unique i _ fuel fuel' v v₂ hv hv₂
    subst e
    subst e'
    rw [e₁, e₂]
    exact ⟨rfl, rfl, rfl, rfl, rfl⟩
  · intro fuel s hskip
    unfold updateFolderSize at hskip
    unfold updateFolderSizeOn
    split
    · rfl
    · rename_i w hw
      rw [hw] at hskip
      by_cases hearly : i.width = 0 ∨ i.x2Infinite = true
      · rw [if_pos hearly]
      · simp only [if_neg hearly] at hskip
        obtain ⟨v, _, hv⟩ := Option.map_eq_some'.mp hskip
        simp at hv
  · intro hscale hstep
    have hex : ∃ fuel₀, ∀ fuel, fuel₀ ≤ fuel → ∀ s, ∃ s₁,
        updateFolderSizeOn i fuel s = some s₁ := by
      cases hw : i.firstItemWidth with
      | none =>
        refine ⟨0, fun fuel _ s => ⟨s, ?_⟩⟩
        unfold updateFolderSizeOn
        rw [hw]
      | some w =>
        by_cases hearly : i.width = 0 ∨ i.x2Infinite = true
        · refine ⟨0, fun fuel _ s => ⟨s, ?_⟩⟩
          unfold updateFolderSizeOn
          rw [hw]
          simp only [if_pos hearly]
        · obtain ⟨k, v, hk⟩ := solveSize_terminates i (i.itemSize w) hscale (hstep w hw)
          refine ⟨k, fun fuel hle s => ?_⟩
          have hrun : updateFolderSizeOn i fuel s =
              some { fixedIconSize := i.opts.APP_GRID_FOLDER_ICON_SIZE,
                     gridSpacing := i.APP_GRID_SPACING,
                     firstItemIconSize := i.iconSize,
                     needsUpdateSize :=
                       if i.realSize w > (i.iconSize : ℚ) then s.needsUpdateSize else true,
                     layout := ⟨v.columns, v.rows, v.width, v.height, i.nItems⟩ } := by
            unfold updateFolderSizeOn
            rw [hw]
            simp only [if_neg hearly, hk fuel hle, Option.map_some']
          exact ⟨_, hrun⟩
    obtain ⟨k, hk⟩ := hex
    refine ⟨k, fun fuel hle s => ?_⟩
    obtain ⟨s₁, h₁⟩ := hk fuel hle s
    obtain ⟨s₂, h₂⟩ := hk fuel hle s₁
    have := hidem fuel fuel s s₁ s₂ h₁ h₂
    subst this
    exact ⟨s₂, h₁, h₂⟩

/-! ### Termination of the loops -/

/-- C30. With a positive scale factor and `itemSize + spacing > 0`, for every
app display (its width and height are numbers, hence finite) each of the four
loops of `_updateFolderSize` ends, from whatever values of the variables it is
entered: from some amount of fuel on the model of the loop yields one and the
same result.  This includes the loops that add columns or rows back when the
other dimension is 0 or negative, so that `nItems > columns * rows` stays true:
the loop then ends because the size outgrows what is available.  Hence the whole
size computation ends. -/
theorem updateFolderSize_loops_terminate (i : FolderSizeInput) (itemSize : ℚ)
    (hscale : 0 < i.scaleFactor) (hstep : 0 < itemSize + (i.APP_GRID_SPACING : ℚ)) :
    (∀ v, ∃ fuel₀ v', ∀ fuel, fuel₀ ≤ fuel → shrinkRows i itemSize fuel v = some v') ∧
    (∀ v, ∃ fuel₀ v', ∀ fuel, fuel₀ ≤ fuel → shrinkColumns i itemSize fuel v = some v') ∧
    (∀ v, ∃ fuel₀ v', ∀ fuel, fuel₀ ≤ fuel → expandColumns i itemSize fuel v = some v') ∧
    (∀ v, ∃ fuel₀ v', ∀ fuel, fuel₀ ≤ fuel → expandRows i itemSize fuel v = some v') ∧
    (∀ (available size : ℚ) (count : Int), ∃ fuel₀ r, ∀ fuel, fuel₀ ≤ fuel →
      shrinkLoop i.scaleFactor (itemSize + (i.APP_GRID_SPACING : ℚ)) available fuel size
        count = some r) ∧
    (∀ (available size : ℚ) (nItems : Nat) (other count : Int),
      ∃ fuel₀ r, ∀ fuel, fuel₀ ≤ fuel →
        expandLoop i.scaleFactor (itemSize + (i.APP_GRID_SPACING : ℚ)) available nItems other
          fuel size count = some r) ∧
    (∃ fuel₀ v, ∀ fuel, fuel₀ ≤ fuel → solveSize i itemSize fuel = some v) :=
  ⟨fun v => shrinkRows_terminates i itemSize hscale hstep v,
   fun v => shrinkColumns_terminates i itemSize hscale hstep v,
   fun v => expandColumns_terminates i itemSize hscale hstep v,
   fun v => expandRows_terminates i itemSize hscale hstep v,
   fun available size count =>
     shrinkLoop_terminates i.scaleFactor _ available hscale hstep size count,
   fun available size nItems other count =>
     expandLoop_terminates i.scaleFactor _ available nItems other hscale hstep size count,
   solveSize_terminates i itemSize hscale hstep⟩

/-- C30 witness: the example with one icon on an app display of 1000 by 40, where
the rows are shrunk to -2 before the columns are added back. -/
theorem updateFolderSize_loops_terminate_witness :
    0 < (exampleFolder ⟨0, 0, -1⟩ 1 1000 40).scaleFactor ∧
    (0 : ℚ) < 119 + (((exampleFolder ⟨0, 0, -1⟩ 1 1000 40).APP_GRID_SPACING : Int) : ℚ) ∧
    ∃ fuel₀ v, ∀ fuel, fuel₀ ≤ fuel →
      solveSize (exampleFolder ⟨0, 0, -1⟩ 1 1000 40) 119 fuel = some v :=
  ⟨by simp [exampleFolder], by simp [exampleFolder]; norm_num,
   (updateFolderSize_loops_terminate (exampleFolder ⟨0, 0, -1⟩ 1 1000 40) 119
      (by simp [exampleFolder]) (by simp [exampleFolder]; norm_num)).2.2.2.2.2.2⟩

/-! ### Drops on the grid -/

theorem acceptDrop_indicator_eq (o : Opts) (fav : List String) (st : DropState)
    (source : DragSource) (hmode : o.APP_GRID_ORDER = 0)
    (hacc : BaseAppViewCommon.canAccept o source.unwrap = true)
    (hind : st.onPageIndicator) :
    AppDisplayCommon.acceptDrop o fav st source =
      if st.moveItemThrows then
        (DropResult.throws, st.deleteTarget ++
          [DropEffect.moveItem source.unwrap.icon
            (min (st.currentPage + st.increment) st.nPages)
            (if min (st.currentPage + st.increment) st.nPages < st.nPages then -1 else 0)])
      else
        (DropResult.returns (JsValue.bool true),
          st.deleteTarget ++
            [DropEffect.moveItem source.unwrap.icon
              (min (st.currentPage + st.increment) st.nPages)
              (if min (st.currentPage + st.increment) st.nPages < st.nPages then -1 else 0),
             DropEffect.goToPage (min (st.currentPage + st.increment) st.nPages)] ++
            AppDisplayCommon.commitDrop o fav st source.unwrap) := by
  unfold DropState.onPageIndicator at hind
  have hmode' : ¬ o.APP_GRID_ORDER ≠ 0 := not_not.mpr hmode
  unfold AppDisplayCommon.acceptDrop
  rw [if_neg hmode']
  simp only [hacc, Bool.not_true, Bool.false_eq_true, if_false, DropState.increment,
    DropState.deleteTarget]
  by_cases hv : st.shellVersion ≥ 43
  · have hv' : ¬ st.shellVersion < 43 := by omega
    have ht : st.dropTarget = DropTarget.prevPageIndicator ∨
        st.dropTarget = DropTarget.nextPageIndicator := by
      rcases hind with ⟨h, _⟩ | ⟨_, h⟩
      · exact absurd h hv'
      · exact h
    simp only [hv, hv', if_true, if_false, false_and, true_and, false_or, ht]
  · have hv' : st.shellVersion < 43 := by omega
    have hp : st.dropPage ≠ 0 := by
      rcases hind with ⟨_, h⟩ | ⟨h, _⟩
      · exact h
      · exact absurd h hv
    simp only [hv, hv', if_true, if_false, false_and, true_and, or_false, hp, ne_eq,
      not_false_eq_true]

theorem acceptDrop_not_indicator_eq (o : Opts) (fav : List String) (st : DropState)
    (source : DragSource) (hmode : o.APP_GRID_ORDER = 0)
    (hacc : BaseAppViewCommon.canAccept o source.unwrap = true)
    (hind : ¬ st.onPageIndicator) :
    AppDisplayCommon.acceptDrop o fav st source =
      match st.delayedMoveData with
      | some (page, position) =>
        (DropResult.returns (JsValue.bool true),
          st.deleteTarget ++ [DropEffect.moveItem source.unwrap.icon page position] ++
            (if st.moveItemThrows then [DropEffect.logWarning] else []) ++
            [DropEffect.removeDelayedMove] ++
            AppDisplayCommon.commitDrop o fav st source.unwrap)
      | none =>
        (DropResult.returns (JsValue.bool true),
          st.deleteTarget ++ AppDisplayCommon.commitDrop o fav st source.unwrap) := by
  unfold DropState.onPageIndicator at hind
  have hmode' : ¬ o.APP_GRID_ORDER ≠ 0 := not_not.mpr hmode
  unfold AppDisplayCommon.acceptDrop
  rw [if_neg hmode']
  simp only [hacc, Bool.not_true, Bool.false_eq_true, if_false, DropState.deleteTarget]
  by_cases hv : st.shellVersion ≥ 43
  · have hv' : ¬ st.shellVersion < 43 := by omega
    have ht : ¬ (st.dropTarget = DropTarget.prevPageIndicator ∨
        st.dropTarget = DropTarget.nextPageIndicator) := fun h => hind (Or.inr ⟨hv, h⟩)
    simp only [hv, hv', if_true, false_and, true_and, false_or, ht, if_false]
  · have hv' : st.shellVersion < 43 := by omega
    have hp : ¬ st.dropPage ≠ 0 := fun h => hind (Or.inl ⟨hv', h⟩)
    simp only [hv, hv', if_false, false_and, true_and, or_false, hp]

theorem acceptDrop_rejected_eq (o : Opts) (fav : List String) (st : DropState)
    (source : DragSource)
    (hrej : o.APP_GRID_ORDER ≠ 0 ∨ BaseAppViewCommon.canAccept o source.unwrap = false) :
    (AppDisplayCommon.acceptDrop o fav st source).1 = DropResult.returns (JsValue.bool false) ∧
    ∀ e ∈ (AppDisplayCommon.acceptDrop o fav st source).2, e = DropEffect.deleteDropTarget := by
  unfold AppDisplayCommon.acceptDrop
  by_cases hmode : o.APP_GRID_ORDER ≠ 0
  · rw [if_pos hmode]
    exact ⟨rfl, fun e he => by simp at he⟩
  · have hacc : BaseAppViewCommon.canAccept o source.unwrap = false := by
      rcases hrej with h | h
      · exact absurd h hmode
      · exact h
    rw [if_neg hmode]
    simp only [hacc, Bool.not_false, if_true]
    refine ⟨trivial, fun e he => ?_⟩
    split_ifs at he <;> simp at he
    exact he

theorem commitDrop_count_savePages (o : Opts) (fav : List String) (st : DropState)
    (src : DragItem) :
    (AppDisplayCommon.commitDrop o fav st src).count DropEffect.savePages = 1 ∧
    ∀ e ∈ AppDisplayCommon.commitDrop o fav st src,
      e.isMove = false ∧ e.targetPage = none := by
  unfold AppDisplayCommon.commitDrop
  constructor
  · split_ifs <;> simp
  · intro e he
    split_ifs at he <;> simp at he <;> rcases he with rfl | rfl | rfl | rfl <;>
      exact ⟨rfl, rfl⟩

/-- C25. When a drop that the root grid accepts (manual order, an app item) lands
on a page indicator and `_moveItem` does not throw, `acceptDrop` moves the source
to `page = min(currentPage + increment, nPages)`, where `increment` is -1 for
the previous-page indicator and 1 for the next-page indicator (before shell
version 43: 1 for the side page `NEXT`, -1 otherwise), with position -1 when
`page < nPages` and position 0 exactly when `page = nPages`, then calls
`goToPage(page)` with the same page, then commits.  The `acceptDrop` of the base
view does the same for a side page. -/
theorem acceptDrop_on_page_indicator (o : Opts) (fav : List String) (st : DropState)
    (source : DragSource) (hmode : o.APP_GRID_ORDER = 0)
    (hacc : BaseAppViewCommon.canAccept o source.unwrap = true)
    (hind : st.onPageIndicator) (hthrow : st.moveItemThrows = false) :
    AppDisplayCommon.acceptDrop o fav st source =
      (DropResult.returns (JsValue.bool true),
        st.deleteTarget ++
          [DropEffect.moveItem source.unwrap.icon
            (min (st.currentPage + st.increment) st.nPages)
            (if min (st.currentPage + st.increment) st.nPages < st.nPages then -1 else 0),
           DropEffect.goToPage (min (st.currentPage + st.increment) st.nPages)] ++
          AppDisplayCommon.commitDrop o fav st source.unwrap) ∧
    (st.shellVersion ≥ 43 → st.dropTarget = DropTarget.prevPageIndicator →
      st.increment = -1) ∧
    (st.shellVersion ≥ 43 → st.dropTarget = DropTarget.nextPageIndicator →
      st.increment = 1) ∧
    (st.shellVersion < 43 →
      st.increment = if st.dropPage = SidePages.NEXT then 1 else -1) ∧
    min (st.currentPage + st.increment) st.nPages ≤ st.nPages ∧
    ((if min (st.currentPage + st.increment) st.nPages < st.nPages then (-1 : Int) else 0) = 0 ↔
      min (st.currentPage + st.increment) st.nPages = st.nPages) ∧
    ((if min (st.currentPage + st.increment) st.nPages < st.nPages then (-1 : Int) else 0) = -1 ↔
      min (st.currentPage + st.increment) st.nPages < st.nPages) ∧
    (BaseAppViewCommon.canAccept o source.item = true → st.dropPage ≠ 0 →
      BaseAppViewCommon.acceptDrop o st source =
        (DropResult.returns (JsValue.bool true),
          [DropEffect.moveItem source.unwrap.icon
            (min (st.currentPage + (if st.dropPage = SidePages.NEXT then 1 else -1)) st.nPages)
            (if min (st.currentPage + (if st.dropPage = SidePages.NEXT then 1 else -1))
                st.nPages < st.nPages then -1 else 0),
           DropEffect.goToPage
            (min (st.currentPage + (if st.dropPage = SidePages.NEXT then 1 else -1))
              st.nPages)])) := by
  have hle : min (st.currentPage + st.increment) st.nPages ≤ st.nPages := min_le_right _ _
  refine ⟨?_, ?_, ?_, ?_, hle, ?_, ?_, ?_⟩
  · rw [acceptDrop_indicator_eq o fav st source hmode hacc hind, hthrow]
    rfl
  · intro hv ht
    have hv' : ¬ st.shellVersion < 43 := by omega
    simp [DropState.increment, hv', ht]
  · intro hv ht
    have hv' : ¬ st.shellVersion < 43 := by omega
    simp [DropState.increment, hv', ht]
  · intro hv
    simp [DropState.increment, hv]
  · generalize min (st.currentPage + st.increment) st.nPages = p at hle
    split_ifs with h
    · constructor
      · intro h'; exact absurd h' (by decide)
      · intro h'; omega
    · constructor
      · intro _; omega
      · intro _; rfl
  · generalize min (st.currentPage + st.increment) st.nPages = p at hle
    split_ifs with h
    · exact ⟨fun _ => h, fun _ => rfl⟩
    · constructor
      · intro h'; exact absurd h' (by decide)
      · intro h'; exact absurd h' h
  · intro hview hpage
    unfold BaseAppViewCommon.acceptDrop
    simp only [hview, Bool.not_true, Bool.false_eq_true, if_false, hpage, ne_eq,
      not_false_eq_true, if_true, hthrow]

/-- C25 witness: shell version 44, a drop on the next-page indicator on page 0 of
3. -/
theorem acceptDrop_on_page_indicator_witness :
    (⟨0, false, false, false, false⟩ : Opts).APP_GRID_ORDER = 0 ∧
    BaseAppViewCommon.canAccept ⟨0, false, false, false, false⟩
      (DragSource.unwrap ⟨⟨⟨0, "a", "A", .appIcon, false⟩, ViewClass.appDisplay⟩, none⟩) = true ∧
    DropState.onPageIndicator
      ⟨44, DropTarget.nextPageIndicator, 0, none, 0, 3, false, false⟩ ∧
    (⟨44, DropTarget.nextPageIndicator, 0, none, 0, 3, false, false⟩ :
      DropState).moveItemThrows = false ∧
    AppDisplayCommon.acceptDrop ⟨0, false, false, false, false⟩ []
        ⟨44, DropTarget.nextPageIndicator, 0, none, 0, 3, false, false⟩
        ⟨⟨⟨0, "a", "A", .appIcon, false⟩, ViewClass.appDisplay⟩, none⟩ =
      (DropResult.returns (JsValue.bool true),
        [DropEffect.deleteDropTarget, DropEffect.moveItem ⟨0, "a", "A", .appIcon, false⟩ 1 (-1),
          DropEffect.goToPage 1, DropEffect.savePages]) :=
  ⟨rfl, by decide, Or.inr ⟨by decide, Or.inr rfl⟩, rfl,
   (acceptDrop_on_page_indicator ⟨0, false, false, false, false⟩ []
      ⟨44, DropTarget.nextPageIndicator, 0, none, 0, 3, false, false⟩
      ⟨⟨⟨0, "a", "A", .appIcon, false⟩, ViewClass.appDisplay⟩, none⟩ rfl (by decide)
      (Or.inr ⟨by decide, Or.inr rfl⟩) rfl).1.trans (by decide)⟩

/-- C26 (as stated) fails: on shell version 44, with 3 pages and the grid on page
0, an accepted drop on the previous-page indicator passes the page -1 to
`_moveItem` and to `goToPage`. -/
theorem acceptDrop_passes_page_minus_one :
    (1 : Int) ≤ 3 ∧ (0 : Int) ≤ 0 ∧ (0 : Int) < 3 ∧
    AppDisplayCommon.acceptDrop ⟨0, false, false, false, false⟩ []
        ⟨44, DropTarget.prevPageIndicator, 0, none, 0, 3, false, false⟩
        ⟨⟨⟨0, "a", "A", .appIcon, false⟩, ViewClass.appDisplay⟩, none⟩ =
      (DropResult.returns (JsValue.bool true),
        [DropEffect.deleteDropTarget,
          DropEffect.moveItem ⟨0, "a", "A", .appIcon, false⟩ (-1) (-1),
          DropEffect.goToPage (-1), DropEffect.savePages]) := by
  decide

/-- C26 (amended). For an accepted drop on a page indicator, the page that the
root `acceptDrop` passes to `_moveItem` and to `goToPage` is
`min(currentPage + increment, nPages)` with `increment` 1 or -1: it is at most
`nPages` (a request beyond the last page is cut down to the new trailing page),
but there is no lower bound.  With `currentPage` in `[0, nPages)` the page is a
valid index in `[0, nPages]` unless the drop is on the previous-page indicator
while the grid is on page 0, where the page passed is -1. -/
theorem acceptDrop_page_bounds (o : Opts) (fav : List String) (st : DropState)
    (source : DragSource) (hmode : o.APP_GRID_ORDER = 0)
    (hacc : BaseAppViewCommon.canAccept o source.unwrap = true)
    (hind : st.onPageIndicator) :
    (∃ e ∈ (AppDisplayCommon.acceptDrop o fav st source).2,
      e.isMove = true ∧
      e.targetPage = some (min (st.currentPage + st.increment) st.nPages)) ∧
    (∀ e ∈ (AppDisplayCommon.acceptDrop o fav st source).2, ∀ page,
      e.targetPage = some page → page = min (st.currentPage + st.increment) st.nPages) ∧
    (st.increment = 1 ∨ st.increment = -1) ∧
    min (st.currentPage + st.increment) st.nPages ≤ st.nPages ∧
    (0 ≤ st.currentPage → st.currentPage < st.nPages →
      (0 ≤ min (st.currentPage + st.increment) st.nPages ↔
        ¬ (st.currentPage = 0 ∧ st.increment = -1)) ∧
      (st.currentPage = 0 → st.increment = -1 →
        min (st.currentPage + st.increment) st.nPages = -1)) := by
  have hinc : st.increment = 1 ∨ st.increment = -1 := by
    unfold DropState.increment
    split_ifs <;> simp
  have heq := acceptDrop_indicator_eq o fav st source hmode hacc hind
  have hcommit := (commitDrop_count_savePages o fav st source.unwrap).2
  have hdel : ∀ e ∈ st.deleteTarget, e.targetPage = none := by
    intro e he
    unfold DropState.deleteTarget at he
    split_ifs at he <;> simp at he
    rw [he]; rfl
  have hmove : (DropEffect.moveItem source.unwrap.icon
        (min (st.currentPage + st.increment) st.nPages)
        (if min (st.currentPage + st.increment) st.nPages < st.nPages then -1 else 0)).isMove =
          true ∧
      (DropEffect.moveItem source.unwrap.icon
        (min (st.currentPage + st.increment) st.nPages)
        (if min (st.currentPage + st.increment) st.nPages < st.nPages then -1 else 0)).targetPage =
          some (min (st.currentPage + st.increment) st.nPages) := ⟨rfl, rfl⟩
  refine ⟨?_, ?_, hinc, min_le_right _ _, ?_⟩
  · by_cases ht : st.moveItemThrows = true
    · rw [if_pos ht] at heq
      rw [heq]
      exact ⟨_, List.mem_append_right _ (List.mem_singleton_self _), hmove⟩
    · rw [if_neg ht] at heq
      rw [heq]
      exact ⟨_, List.mem_append_left _ (List.mem_append_right _ (List.mem_cons_self _ _)),
        hmove⟩
  · intro e he page hp
    by_cases ht : st.moveItemThrows = true
    · rw [if_pos ht] at heq
      rw [heq] at he
      rcases List.mem_append.mp he with h | h
      · rw [hdel e h] at hp; simp at hp
      · rw [List.mem_singleton] at h
        rw [h, hmove.2] at hp
        exact (Option.some.inj hp).symm
    · rw [if_neg ht] at heq
      rw [heq] at he
      rcases List.mem_append.mp he with h | h
      · rcases List.mem_append.mp h with h | h
        · rw [hdel e h] at hp; simp at hp
        · simp only [List.mem_cons, List.mem_singleton, List.not_mem_nil, or_false] at h
          rcases h with h | h
          · rw [h, hmove.2] at hp
            exact (Option.some.inj hp).symm
          · rw [h] at hp
            exact (Option.some.inj hp).symm
      · rw [(hcommit e h).2] at hp; simp at hp
  · intro h0 hlt
    rcases hinc with h | h <;> rw [h]
    · refine ⟨⟨fun _ => fun hh => absurd hh.2 (by decide), fun _ => ?_⟩,
        fun _ hh => absurd hh (by decide)⟩
      exact le_min (by omega) (by omega)
    · refine ⟨⟨fun hp hh => ?_, fun hh => ?_⟩, fun hc _ => ?_⟩
      · rw [hh.1] at hp
        have : min ((0 : Int) + -1) st.nPages ≤ 0 + -1 := min_le_left _ _
        omega
      · have hne : st.currentPage ≠ 0 := fun hc => hh ⟨hc, rfl⟩
        exact le_min (by omega) (by omega)
      · rw [hc]
        exact min_eq_left (by omega)

/-- C26 (amended) witness: shell version 44, the next-page indicator on the last
of 3 pages: the page passed is 3, the new trailing page. -/
theorem acceptDrop_page_bounds_witness :
    (⟨0, false, false, false, false⟩ : Opts).APP_GRID_ORDER = 0 ∧
    BaseAppViewCommon.canAccept ⟨0, false, false, false, false⟩
      (DragSource.unwrap ⟨⟨⟨0, "a", "A", .appIcon, false⟩, ViewClass.appDisplay⟩, none⟩) = true ∧
    DropState.onPageIndicator
      ⟨44, DropTarget.nextPageIndicator, 0, none, 2, 3, false, false⟩ ∧
    min ((⟨44, DropTarget.nextPageIndicator, 0, none, 2, 3, false, false⟩ :
          DropState).currentPage +
        (⟨44, DropTarget.nextPageIndicator, 0, none, 2, 3, false, false⟩ :
          DropState).increment)
      (⟨44, DropTarget.nextPageIndicator, 0, none, 2, 3, false, false⟩ : DropState).nPages ≤
      (⟨44, DropTarget.nextPageIndicator, 0, none, 2, 3, false, false⟩ : DropState).nPages :=
  ⟨rfl, by decide, Or.inr ⟨by decide, Or.inr rfl⟩,
   (acceptDrop_page_bounds ⟨0, false, false, false, false⟩ []
      ⟨44, DropTarget.nextPageIndicator, 0, none, 2, 3, false, false⟩
      ⟨⟨⟨0, "a", "A", .appIcon, false⟩, ViewClass.appDisplay⟩, none⟩ rfl (by decide)
      (Or.inr ⟨by decide, Or.inr rfl⟩)).2.2.2.1⟩

/-- C27. When a drop that the root grid accepts does not land on a page indicator
and a delayed move `{page, position}` is pending, `acceptDrop` calls `_moveItem`
with the source and exactly that page and position, then
`_removeDelayedMove()`, then commits and returns true; when `_moveItem` throws,
the exception is caught and logged and `_removeDelayedMove()` is still called.
When no delayed move is pending no `_moveItem` is called. -/
theorem acceptDrop_pending_move (o : Opts) (fav : List String) (st : DropState)
    (source : DragSource) (hmode : o.APP_GRID_ORDER = 0)
    (hacc : BaseAppViewCommon.canAccept o source.unwrap = true)
    (hind : ¬ st.onPageIndicator) :
    (∀ page position, st.delayedMoveData = some (page, position) →
      AppDisplayCommon.acceptDrop o fav st source =
        (DropResult.returns (JsValue.bool true),
          st.deleteTarget ++ [DropEffect.moveItem source.unwrap.icon page position] ++
            (if st.moveItemThrows then [DropEffect.logWarning] else []) ++
            [DropEffect.removeDelayedMove] ++
            AppDisplayCommon.commitDrop o fav st source.unwrap) ∧
      ((AppDisplayCommon.acceptDrop o fav st source).2.filter DropEffect.isMove =
        [DropEffect.moveItem source.unwrap.icon page position]) ∧
      (AppDisplayCommon.acceptDrop o fav st source).2.count DropEffect.removeDelayedMove = 1) ∧
    (st.delayedMoveData = none →
      AppDisplayCommon.acceptDrop o fav st source =
        (DropResult.returns (JsValue.bool true),
          st.deleteTarget ++ AppDisplayCommon.commitDrop o fav st source.unwrap) ∧
      (AppDisplayCommon.acceptDrop o fav st source).2.filter DropEffect.isMove = []) := by
  have heq := acceptDrop_not_indicator_eq o fav st source hmode hacc hind
  have hcommit : (AppDisplayCommon.commitDrop o fav st source.unwrap).filter DropEffect.isMove =
      [] := by
    rw [List.filter_eq_nil_iff]
    intro e he
    rw [((commitDrop_count_savePages o fav st source.unwrap).2 e he).1]
    decide
  have hcommit2 : (AppDisplayCommon.commitDrop o fav st source.unwrap).count
      DropEffect.removeDelayedMove = 0 := by
    unfold AppDisplayCommon.commitDrop
    split_ifs <;> simp
  have hdel : st.deleteTarget.filter DropEffect.isMove = [] ∧
      st.deleteTarget.count DropEffect.removeDelayedMove = 0 := by
    unfold DropState.deleteTarget
    split_ifs <;> exact ⟨rfl, rfl⟩
  constructor
  · intro page position hd
    rw [hd] at heq
    refine ⟨heq, ?_, ?_⟩
    · rw [heq]
      simp only [List.filter_append, hdel.1, hcommit, List.nil_append, List.append_nil]
      split_ifs <;> rfl
    · rw [heq]
      simp only [List.count_append, hdel.2, hcommit2]
      split_ifs <;> rfl
  · intro hd
    rw [hd] at heq
    refine ⟨heq, ?_⟩
    rw [heq]
    simp only [List.filter_append, hdel.1, hcommit, List.append_nil]

/-- C27 witness: shell version 44, a drop on something other than a page
indicator, a pending move to page 1, position 2, and a `_moveItem` that
throws. -/
theorem acceptDrop_pending_move_witness :
    (⟨0, false, false, false, false⟩ : Opts).APP_GRID_ORDER = 0 ∧
    BaseAppViewCommon.canAccept ⟨0, false, false, false, false⟩
      (DragSource.unwrap ⟨⟨⟨0, "a", "A", .appIcon, false⟩, ViewClass.appDisplay⟩, none⟩) = true ∧
    ¬ DropState.onPageIndicator ⟨44, DropTarget.other, 0, some (1, 2), 0, 3, false, true⟩ ∧
    AppDisplayCommon.acceptDrop ⟨0, false, false, false, false⟩ []
        ⟨44, DropTarget.other, 0, some (1, 2), 0, 3, false, true⟩
        ⟨⟨⟨0, "a", "A", .appIcon, false⟩, ViewClass.appDisplay⟩, none⟩ =
      (DropResult.returns (JsValue.bool true),
        [DropEffect.deleteDropTarget, DropEffect.moveItem ⟨0, "a", "A", .appIcon, false⟩ 1 2,
          DropEffect.logWarning, DropEffect.removeDelayedMove, DropEffect.savePages]) :=
  ⟨rfl, by decide, by simp [DropState.onPageIndicator],
   ((acceptDrop_pending_move ⟨0, false, false, false, false⟩ []
      ⟨44, DropTarget.other, 0, some (1, 2), 0, 3, false, true⟩
      ⟨⟨⟨0, "a", "A", .appIcon, false⟩, ViewClass.appDisplay⟩, none⟩ rfl (by decide)
      (by simp [DropState.onPageIndicator])).1 1 2 rfl).1.trans (by decide)⟩

/-- C28. For every source and state, the `acceptDrop` of the root grid calls
`_savePages` exactly once when it returns true and not at all when it returns
false; it returns false exactly when the order is not manual or `_canAccept`
rejects the source.  (When `_moveItem` throws on the page-indicator path the
method returns nothing, and `_savePages` has not been called.) -/
theorem acceptDrop_saves_once_on_commit (o : Opts) (fav : List String) (st : DropState)
    (source : DragSource) :
    ((AppDisplayCommon.acceptDrop o fav st source).1 = DropResult.returns (JsValue.bool true) →
      (AppDisplayCommon.acceptDrop o fav st source).2.count DropEffect.savePages = 1) ∧
    ((AppDisplayCommon.acceptDrop o fav st source).1 = DropResult.returns (JsValue.bool false) →
      (AppDisplayCommon.acceptDrop o fav st source).2.count DropEffect.savePages = 0) ∧
    ((AppDisplayCommon.acceptDrop o fav st source).1 = DropResult.throws →
      (AppDisplayCommon.acceptDrop o fav st source).2.count DropEffect.savePages = 0) ∧
    ((AppDisplayCommon.acceptDrop o fav st source).1 = DropResult.returns (JsValue.bool true) ∨
      (AppDisplayCommon.acceptDrop o fav st source).1 = DropResult.returns (JsValue.bool false) ∨
      (AppDisplayCommon.acceptDrop o fav st source).1 = DropResult.throws) ∧
    ((AppDisplayCommon.acceptDrop o fav st source).1 = DropResult.returns (JsValue.bool false) ↔
      (o.APP_GRID_ORDER ≠ 0 ∨ BaseAppViewCommon.canAccept o source.unwrap = false)) := by
  have hcommit := (commitDrop_count_savePages o fav st source.unwrap).1
  have hdel : st.deleteTarget.count DropEffect.savePages = 0 := by
    unfold DropState.deleteTarget
    split_ifs <;> rfl
  by_cases hrej : o.APP_GRID_ORDER ≠ 0 ∨ BaseAppViewCommon.canAccept o source.unwrap = false
  · obtain ⟨h1, h2⟩ := acceptDrop_rejected_eq o fav st source hrej
    have hcount : (AppDisplayCommon.acceptDrop o fav st source).2.count DropEffect.savePages =
        0 := by
      rw [List.count_eq_zero]
      intro hmem
      exact absurd (h2 _ hmem) (by decide)
    rw [h1]
    exact ⟨fun h => absurd h (by decide), fun _ => hcount, fun _ => hcount,
      Or.inr (Or.inl rfl), ⟨fun _ => hrej, fun _ => rfl⟩⟩
  · have hmode : o.APP_GRID_ORDER = 0 := by
      by_contra h
      exact hrej (Or.inl h)
    have hacc : BaseAppViewCommon.canAccept o source.unwrap = true := by
      cases h : BaseAppViewCommon.canAccept o source.unwrap
      · exact absurd (Or.inr h) hrej
      · rfl
    by_cases hind : st.onPageIndicator
    · have heq := acceptDrop_indicator_eq o fav st source hmode hacc hind
      by_cases ht : st.moveItemThrows = true
      · rw [if_pos ht] at heq
        rw [heq]
        have hcount : (st.deleteTarget ++
            [DropEffect.moveItem source.unwrap.icon
              (min (st.currentPage + st.increment) st.nPages)
              (if min (st.currentPage + st.increment) st.nPages < st.nPages then -1
                else 0)]).count DropEffect.savePages = 0 := by
          rw [List.count_append, hdel]
          rfl
        exact ⟨fun h => absurd h (by simp), fun _ => hcount, fun _ => hcount,
          Or.inr (Or.inr rfl), ⟨fun h => absurd h (by simp), fun h => absurd h hrej⟩⟩
      · rw [if_neg ht] at heq
        rw [heq]
        have hcount : (st.deleteTarget ++
            [DropEffect.moveItem source.unwrap.icon
              (min (st.currentPage + st.increment) st.nPages)
              (if min (st.currentPage + st.increment) st.nPages < st.nPages then -1 else 0),
             DropEffect.goToPage (min (st.currentPage + st.increment) st.nPages)] ++
            AppDisplayCommon.commitDrop o fav st source.unwrap).count
              DropEffect.savePages = 1 := by
          rw [List.count_append, List.count_append, hdel, hcommit]
          rfl
        exact ⟨fun _ => hcount, fun h => absurd h (by simp), fun h => absurd h (by simp),
          Or.inl rfl, ⟨fun h => absurd h (by simp), fun h => absurd h hrej⟩⟩
    · have heq := acceptDrop_not_indicator_eq o fav st source hmode hacc hind
      cases hd : st.delayedMoveData with
      | none =>
        rw [hd] at heq
        rw [heq]
        have hcount : (st.deleteTarget ++
            AppDisplayCommon.commitDrop o fav st source.unwrap).count
              DropEffect.savePages = 1 := by
          rw [List.count_append, hdel, hcommit]
        exact ⟨fun _ => hcount, fun h => absurd h (by simp), fun h => absurd h (by simp),
          Or.inl rfl, ⟨fun h => absurd h (by simp), fun h => absurd h hrej⟩⟩
      | some d =>
        obtain ⟨page, position⟩ := d
        rw [hd] at heq
        rw [heq]
        have hcount : (st.deleteTarget ++
            [DropEffect.moveItem source.unwrap.icon page position] ++
            (if st.moveItemThrows then [DropEffect.logWarning] else []) ++
            [DropEffect.removeDelayedMove] ++
            AppDisplayCommon.commitDrop o fav st source.unwrap).count
              DropEffect.savePages = 1 := by
          simp only [List.count_append, hdel, hcommit]
          split_ifs <;> rfl
        exact ⟨fun _ => hcount, fun h => absurd h (by simp), fun h => absurd h (by simp),
          Or.inl rfl, ⟨fun h => absurd h (by simp), fun h => absurd h hrej⟩⟩

/-! ### Drag motion -/

/-- C29. On shell version 44 or later, for a drag-motion event whose source is an
app item (also after an active preview has been replaced by its `_sourceItem`),
`_onDragMotion` asks `_dragMaybeSwitchPageImmediately` once and then does exactly
one of three things: the immediate switch fired, and the hover timer is neither
set up nor reset; or it did not fire and the actor under the pointer is the
previous- or next-page indicator, and the timer is set up and not reset; or the
actor is anything else, and the timer is reset and not set up.  In each case
`_maybeMoveItem` is called once, last, and the result is `CONTINUE`.  For a
source that is not an app item the method does nothing and returns
`CONTINUE`, on every shell version. -/
theorem onDragMotion_page_switch_exclusive (st : MotionState) (source : DragSource)
    (hversion : 44 ≤ st.shellVersion)
    (hitem : source.item.icon.cls.isA ItemClass.appViewItem = true)
    (hsource : source.unwrap.icon.cls.isA ItemClass.appViewItem = true) :
    (BaseAppViewCommon.onDragMotion st source).1 = DragMotionResult.CONTINUE ∧
    (BaseAppViewCommon.onDragMotion st source).2.count MotionEffect.maybeMoveItem = 1 ∧
    (BaseAppViewCommon.onDragMotion st source).2.getLast? = some MotionEffect.maybeMoveItem ∧
    (BaseAppViewCommon.onDragMotion st source).2.count
      MotionEffect.dragMaybeSwitchPageImmediately = 1 ∧
    (st.switchesImmediately = true →
      (BaseAppViewCommon.onDragMotion st source).2.count
          MotionEffect.maybeSetupDragPageSwitchInitialTimeout = 0 ∧
        (BaseAppViewCommon.onDragMotion st source).2.count
          MotionEffect.resetDragPageSwitch = 0) ∧
    (st.switchesImmediately = false →
      (st.targetActor = DropTarget.prevPageIndicator ∨
        st.targetActor = DropTarget.nextPageIndicator) →
      (BaseAppViewCommon.onDragMotion st source).2.count
          MotionEffect.maybeSetupDragPageSwitchInitialTimeout = 1 ∧
        (BaseAppViewCommon.onDragMotion st source).2.count
          MotionEffect.resetDragPageSwitch = 0) ∧
    (st.switchesImmediately = false → st.targetActor = DropTarget.other →
      (BaseAppViewCommon.onDragMotion st source).2.count
          MotionEffect.maybeSetupDragPageSwitchInitialTimeout = 0 ∧
        (BaseAppViewCommon.onDragMotion st source).2.count
          MotionEffect.resetDragPageSwitch = 1) ∧
    (∀ (st' : MotionState) (other : DragSource),
      other.item.icon.cls.isA ItemClass.appViewItem = false →
      BaseAppViewCommon.onDragMotion st' other = (DragMotionResult.CONTINUE, [])) := by
  have h43 : ¬ st.shellVersion < 43 := by omega
  have h44 : ¬ st.shellVersion < 44 := by omega
  have heq : BaseAppViewCommon.onDragMotion st source =
      (DragMotionResult.CONTINUE,
        (if source.sourceItem.isSome then [MotionEffect.replaceSource] else []) ++
          (if st.switchesImmediately then [MotionEffect.dragMaybeSwitchPageImmediately]
           else [MotionEffect.dragMaybeSwitchPageImmediately,
             if st.targetActor = DropTarget.prevPageIndicator ∨
                 st.targetActor = DropTarget.nextPageIndicator then
               MotionEffect.maybeSetupDragPageSwitchInitialTimeout
             else MotionEffect.resetDragPageSwitch]) ++
          [MotionEffect.maybeMoveItem]) := by
    unfold BaseAppViewCommon.onDragMotion
    simp only [hitem, hsource, h43, h44, Bool.not_true, Bool.false_eq_true, if_false, if_true,
      false_and, List.append_nil]
    cases st.switchesImmediately <;> simp
  refine ⟨by rw [heq], ?_, ?_, ?_, ?_, ?_, ?_, ?_⟩
  · rw [heq]
    cases source.sourceItem.isSome <;> cases st.switchesImmediately <;>
      simp only [List.count_append] <;> split_ifs <;> rfl
  · rw [heq]
    simp
  · rw [heq]
    cases source.sourceItem.isSome <;> cases st.switchesImmediately <;>
      simp only [List.count_append] <;> split_ifs <;> rfl
  · intro hs
    rw [heq, hs]
    cases source.sourceItem.isSome <;> exact ⟨rfl, rfl⟩
  · intro hs ht
    rw [heq, hs]
    simp only [Bool.false_eq_true, if_false, if_pos ht]
    cases source.sourceItem.isSome <;> exact ⟨rfl, rfl⟩
  · intro hs ht
    rw [heq, hs, ht]
    cases source.sourceItem.isSome <;> exact ⟨rfl, rfl⟩
  · intro st' other hother
    unfold BaseAppViewCommon.onDragMotion
    simp [hother]

/-- C29 witness: shell version 44, an app icon hovering over the next-page
indicator, no immediate switch. -/
theorem onDragMotion_page_switch_exclusive_witness :
    44 ≤ (⟨44, 0, 0, false, DropTarget.nextPageIndicator⟩ : MotionState).shellVersion ∧
    (⟨⟨⟨0, "a", "A", .appIcon, false⟩, ViewClass.appDisplay⟩, none⟩ :
      DragSource).item.icon.cls.isA ItemClass.appViewItem = true ∧
    (DragSource.unwrap ⟨⟨⟨0, "a", "A", .appIcon, false⟩, ViewClass.appDisplay⟩, none⟩
      ).icon.cls.isA ItemClass.appViewItem = true ∧
    (BaseAppViewCommon.onDragMotion ⟨44, 0, 0, false, DropTarget.nextPageIndicator⟩
        ⟨⟨⟨0, "a", "A", .appIcon, false⟩, ViewClass.appDisplay⟩, none⟩).1 =
      DragMotionResult.CONTINUE ∧
    BaseAppViewCommon.onDragMotion ⟨44, 0, 0, false, DropTarget.nextPageIndicator⟩
        ⟨⟨⟨0, "a", "A", .appIcon, false⟩, ViewClass.appDisplay⟩, none⟩ =
      (DragMotionResult.CONTINUE,
        [MotionEffect.dragMaybeSwitchPageImmediately,
          MotionEffect.maybeSetupDragPageSwitchInitialTimeout, MotionEffect.maybeMoveItem]) :=
  ⟨by decide, by decide, by decide,
   (onDragMotion_page_switch_exclusive ⟨44, 0, 0, false, DropTarget.nextPageIndicator⟩
      ⟨⟨⟨0, "a", "A", .appIcon, false⟩, ViewClass.appDisplay⟩, none⟩ (by decide) (by decide)
      (by decide)).1, by decide⟩

end VShell
